import Mathlib

/-!
# Verification of the self-update subsystem of `tools` (cmd/update.go)

A shallow embedding of `getFileVersion`, `copyFile`, `scheduleReplacement`,
`performSelfUpdate`, `initGitRepo` and `performUpdate`.

Go strings are byte sequences.  A byte is represented by a `Char`, so that the
ASCII literals of the source read as they do there; every operation below only
compares elements for equality, so the results hold for arbitrary byte strings.

A run is a function of the outside world (`Env`: the platform and the result of
every external call) and of the file system at the paths that update.go reaches
through the `os` package.  Every `os` and `os/exec` call may fail.  `os.Rename`
is atomic: a failed rename changes nothing.  The external commands `git` and
`go` are taken not to touch the live path and the backup path; a successful
`go build` writes the staging path.  A run yields its trace (the calls it made,
in order, with their results), the file system it leaves, and the return
statement it ended at.
-/

namespace Update

/-- A Go `string` (equally a `[]byte`): a finite sequence of bytes. -/
abbrev GoString := List Char

/-! ## The `strings` package, as far as update.go uses it -/

/-- Go `strings.Contains(s, substr)`: some suffix of `s` starts with `substr`. -/
def Contains : GoString → GoString → Bool
  | [], substr => substr.isEmpty
  | c :: s, substr => substr.isPrefixOf (c :: s) || Contains s substr

/-- Go `strings.Split(s, sep)` for a one-byte separator `sep`: the pieces of `s`
between consecutive occurrences of `sep`; always at least one piece. -/
def Split : GoString → Char → List GoString
  | [], _ => [[]]
  | c :: s, sep =>
    if c = sep then [] :: Split s sep
    else
      match Split s sep with
      | [] => [[c]]
      | p :: ps => (c :: p) :: ps

/-! ## getFileVersion (update.go:335-352) -/

/-- The sentinel returned by `getFileVersion`. -/
def unknown : GoString := "unknown".toList

/-- The loop of update.go:342-349 over the remaining lines.  The index expression
`parts[1]` is modelled by `parts[1]?`, so a result `none` stands for a Go
run-time panic (index out of range), `some v` for `return v`. -/
def scanLines : List GoString → Option GoString
  | [] => some unknown
  | line :: rest =>
    if Contains line "Version".toList && Contains line "=".toList then
      let parts := Split line '"'
      if parts.length ≥ 2 then parts[1]? else scanLines rest
    else scanLines rest

/-- `getFileVersion(versionFile)`, as a function of what `os.ReadFile(versionFile)`
yields: `none` when the read returns an error (file missing or unreadable),
`some content` otherwise. -/
def getFileVersion (readResult : Option GoString) : Option GoString :=
  match readResult with
  | none => some unknown
  | some content => scanLines (Split content '\n')

/-! ## The file system and the outside world -/

/-- The files of the installation directory that update.go reaches through the
`os` package.  The five names are distinct entries of one directory. -/
inductive Path
  /-- The live path `installDir/tools.exe`. -/
  | oldExe
  /-- The staging path `installDir/tools.exe.new`. -/
  | newExe
  /-- The backup path `installDir/tools.exe.backup`. -/
  | backupExe
  /-- The helper script `installDir/update_tools.bat` of `scheduleReplacement`. -/
  | batchFile
  /-- The helper script `installDir/self_update.bat` of `performSelfUpdate`. -/
  | updateScript
  deriving DecidableEq, Repr

/-- The content of each path: `none` when no file is there. -/
abbrev FS := Path → Option GoString

/-- One observable step of a run: a call into `os`, `os/exec` or `runtime`, with
its result, or a marker for a call of a function of update.go. -/
inductive Event
  | osExecutable (ok : Bool)
  | statGitDir (found : Bool)
  | gitInit (ok : Bool)
  | gitRemoteAdd (ok : Bool)
  | gitFetch (ok : Bool)
  /-- A call of `getFileVersion` returned `v`. -/
  | readVersion (v : GoString)
  | gitStashSave (ok : Bool) (output : GoString)
  | gitPull (ok : Bool) (output : GoString)
  | gitResetHard (ok : Bool)
  | gitStashPop (ok : Bool)
  | goModDownload (ok : Bool)
  | goBuild (ok : Bool)
  /-- A call of `os.ReadFile(p)` in `copyFile`. -/
  | readFile (p : Path) (ok : Bool)
  /-- A call of `os.WriteFile(p, ...)` in `copyFile`, `scheduleReplacement` or
  `performSelfUpdate`. -/
  | writeFile (p : Path) (ok : Bool)
  /-- A call of `copyFile(src, dst)` returned; `ok` says its error was nil. -/
  | copyFile (src dst : Path) (ok : Bool)
  /-- The function `scheduleReplacement` was entered. -/
  | scheduleReplacement
  /-- The command `cmd /c start /b script` was started. -/
  | startScript (script : Path) (ok : Bool)
  | rename (src dst : Path) (ok : Bool)
  | remove (p : Path) (ok : Bool)
  | gitLog
  /-- The command `git status -uno` of `checkForUpdates`. -/
  | gitStatus (ok : Bool)
  /-- The function `performSelfUpdate` was entered. -/
  | performSelfUpdate
  | osExit (code : Nat)
  deriving DecidableEq, Repr

/-- Everything a run takes from outside the process: the platform, the names of
the paths, and the result of each external call.  No call site is executed twice
in one run, and two call sites read the same field only when no run executes
both: `writeErr`, `residue`, `buildErr` and `startErr` are read by
`performSelfUpdate` and by the pipeline of `performUpdate` after the sync, and
`performUpdate` returns right after `performSelfUpdate` (update.go:122-125).
The two `os.WriteFile` calls of one Windows run, in `copyFile` (:360) and in
`scheduleReplacement` (:381), have a field each. -/
structure Env where
  /-- Whether `runtime.GOOS == "windows"`. -/
  windows : Bool
  /-- The string `filepath.Dir(execPath)`. -/
  installDir : GoString
  /-- The string that `filepath.Join` computes for each path. -/
  name : Path → GoString
  /-- Whether `os.Executable()` fails in `performUpdate`. -/
  executableErr : Bool
  /-- Whether `os.Stat(gitDir)` reports that `.git` does not exist. -/
  gitDirMissing : Bool
  gitInitErr : Bool
  remoteAddErr : Bool
  initFetchErr : Bool
  /-- What `os.ReadFile(version.go)` yields before the sync (`none`: an error). -/
  versionBefore : Option GoString
  stashErr : Bool
  stashOutput : GoString
  pullErr : Bool
  pullOutput : GoString
  resetErr : Bool
  /-- What `os.ReadFile(version.go)` yields after the sync. -/
  versionAfter : Option GoString
  modErr : Bool
  buildErr : Bool
  /-- The bytes a successful `go build -o tools.exe.new .` writes to the staging path. -/
  candidate : GoString
  /-- Whether `os.ReadFile` fails on a file that exists. -/
  readErr : Bool
  /-- Whether `os.WriteFile` fails in `copyFile` (:360) or in
  `performSelfUpdate` (:286). -/
  writeErr : Bool
  /-- What that failed `os.WriteFile` leaves at its destination. -/
  residue : Option GoString
  /-- Whether `os.WriteFile` of the helper script fails in `scheduleReplacement`
  (:381). -/
  scriptWriteErr : Bool
  /-- What that failed `os.WriteFile` leaves at the path of the helper script. -/
  scriptResidue : Option GoString
  startErr : Bool
  /-- Whether `os.Rename(newExe, oldExe)` fails. -/
  renameErr : Bool
  /-- Whether `os.Rename(backupExe, oldExe)` fails. -/
  restoreErr : Bool
  removeErr : Bool
  popErr : Bool
  /-- Whether `os.Executable()` fails in `performSelfUpdate`. -/
  selfExecutableErr : Bool

/-- The return statement (or exit) at which a run ends. -/
inductive Outcome
  /-- Return at update.go:112. -/
  | executableError
  /-- Return at update.go:125 after `performSelfUpdate` returned at :272. -/
  | selfExecutableError
  /-- Return at :125 after `performSelfUpdate` returned at :289. -/
  | selfScriptFailed
  /-- Return at :125 after `performSelfUpdate` returned at :299. -/
  | selfBuildFailed
  /-- Return at :125 after `performSelfUpdate` returned at :306. -/
  | selfStartFailed
  /-- The call `os.Exit(0)` at :311. -/
  | selfExited
  /-- A run-time panic in `getFileVersion`. -/
  | panicked
  /-- Return at :155. -/
  | resetFailed
  /-- Return at :161. -/
  | pullFailed
  /-- Return at :179. -/
  | skipped
  /-- Return at :208. -/
  | buildFailed
  /-- Return at :219. -/
  | backupFailed
  /-- Return at :226. -/
  | scheduleFailed
  /-- Return at :238. -/
  | swapFailed
  /-- The end of the function body at :263. -/
  | completed
  deriving DecidableEq, Repr

/-- What a run leaves behind: the steps it took, in order, the file system at
the moment it returns, and where it returned.  `preSwap` is a ghost field: the
file system at update.go:222, right after the backup copy succeeded and before
either replacement strategy starts (`none` when the run never gets there). -/
structure Run where
  trace : List Event
  fs : FS
  outcome : Outcome
  preSwap : Option FS

/-- Put the steps `evs` in front of the steps of `r`. -/
def Run.after (evs : List Event) (r : Run) : Run :=
  { r with trace := evs ++ r.trace }

/-! ## The `os` calls -/

/-- `os.ReadFile(p)`: the content, or `none` on an error (no file, or `err`). -/
def osReadFile (fs : FS) (p : Path) (err : Bool) : Option GoString :=
  if err then none else fs p

/-- `os.WriteFile(p, data, 0755)`: on success `p` holds exactly `data`; on an
error (`err`) the destination holds `residue`, whatever the failed call left. -/
def osWriteFile (fs : FS) (p : Path) (data : GoString) (err : Bool)
    (residue : Option GoString) : Bool × FS :=
  if err then (false, Function.update fs p residue)
  else (true, Function.update fs p (some data))

/-- `os.Rename(src, dst)`, atomic: on success `dst` holds what `src` held and
`src` is gone; on an error (`err`, or no file at `src`) nothing changes. -/
def osRename (fs : FS) (src dst : Path) (err : Bool) : Bool × FS :=
  if err then (false, fs)
  else
    match fs src with
    | none => (false, fs)
    | some data => (true, Function.update (Function.update fs dst (some data)) src none)

/-- `os.Remove(p)`: on success `p` is gone; on an error (`err`, or no file at
`p`) nothing changes. -/
def osRemove (fs : FS) (p : Path) (err : Bool) : Bool × FS :=
  if err then (false, fs)
  else
    match fs p with
    | none => (false, fs)
    | some _ => (true, Function.update fs p none)

/-- The command `go build -o tools.exe.new .`: on success the staging path holds
the freshly built candidate; on an error the file system is as before. -/
def goBuild (env : Env) (fs : FS) : Bool × FS :=
  if env.buildErr then (false, fs)
  else (true, Function.update fs Path.newExe (some env.candidate))

/-! ## The helper functions of update.go -/

/-- `copyFile(src, dst)` (update.go:354-361): its steps, whether it returned a
nil error, and the file system afterwards. -/
def copyFile (env : Env) (fs : FS) (src dst : Path) : List Event × Bool × FS :=
  match osReadFile fs src env.readErr with
  | none => ([Event.readFile src false], false, fs)
  | some sourceFile =>
    let w := osWriteFile fs dst sourceFile env.writeErr env.residue
    ([Event.readFile src true, Event.writeFile dst w.1], w.1, w.2)

/-- The text `fmt.Sprintf` builds at update.go:366-379. -/
def batchContent (oldExe newExe backupExe : GoString) : GoString :=
  "@echo off\n:WAIT\ntimeout /t 1 /nobreak > nul\n".toList
    ++ "tasklist | find /i \"tools.exe\" > nul\n".toList
    ++ "if errorlevel 1 goto :REPLACE\ngoto :WAIT\n\n:REPLACE\n".toList
    ++ "move /Y \"".toList ++ backupExe ++ "\" \"".toList
    ++ (oldExe ++ ".old".toList) ++ "\"\n".toList
    ++ "move /Y \"".toList ++ newExe ++ "\" \"".toList ++ oldExe ++ "\"\n".toList
    ++ "echo Update completed successfully!\n".toList
    ++ "del \"".toList ++ (oldExe ++ ".old".toList) ++ "\"\n".toList
    ++ "del \"%~f0\"\n".toList

/-- `scheduleReplacement(oldExe, newExe, backupExe)` (update.go:363-388): its
steps, whether it returned a nil error, and the file system afterwards. -/
def scheduleReplacement (env : Env) (fs : FS) (oldPath newPath backupPath : Path) :
    List Event × Bool × FS :=
  let w := osWriteFile fs Path.batchFile
    (batchContent (env.name oldPath) (env.name newPath) (env.name backupPath))
    env.scriptWriteErr env.scriptResidue
  if w.1 then
    ([Event.scheduleReplacement, Event.writeFile Path.batchFile true,
      Event.startScript Path.batchFile (!env.startErr)], !env.startErr, w.2)
  else
    ([Event.scheduleReplacement, Event.writeFile Path.batchFile false], false, w.2)

/-- `showChangelog(dir)` (update.go:390-398): one `git log`, its output printed. -/
def showChangelog : List Event := [Event.gitLog]

/-- `initGitRepo(dir)` (update.go:314-333): its steps and whether it returned a
nil error.  The results of `git remote add` and `git fetch` are dropped. -/
def initGitRepo (env : Env) : List Event × Bool :=
  if env.gitInitErr then ([Event.gitInit false], false)
  else
    ([Event.gitInit true, Event.gitRemoteAdd (!env.remoteAddErr),
      Event.gitFetch (!env.initFetchErr)], true)

/-- The text `fmt.Sprintf` builds at update.go:279-285. -/
def scriptContent (installDir : GoString) : GoString :=
  "@echo off\necho Updating tools...\ntimeout /t 2 /nobreak > nul\n".toList
    ++ "move /Y \"".toList ++ installDir ++ "\\tools.exe.new\" \"".toList
    ++ installDir ++ "\\tools.exe\"\n".toList
    ++ "echo Update completed!\ndel \"%~f0\"\n".toList

/-- `performSelfUpdate()` (update.go:265-312). -/
def performSelfUpdate (env : Env) (fs : FS) : Run :=
  if env.selfExecutableErr then
    { trace := [Event.performSelfUpdate, Event.osExecutable false], fs := fs,
      outcome := Outcome.selfExecutableError, preSwap := none }
  else
    let w := osWriteFile fs Path.updateScript (scriptContent env.installDir)
      env.writeErr env.residue
    if !w.1 then
      { trace := [Event.performSelfUpdate, Event.osExecutable true,
          Event.writeFile Path.updateScript false],
        fs := w.2, outcome := Outcome.selfScriptFailed, preSwap := none }
    else
      let b := goBuild env w.2
      if !b.1 then
        { trace := [Event.performSelfUpdate, Event.osExecutable true,
            Event.writeFile Path.updateScript true, Event.goBuild false],
          fs := b.2, outcome := Outcome.selfBuildFailed, preSwap := none }
      else if env.startErr then
        { trace := [Event.performSelfUpdate, Event.osExecutable true,
            Event.writeFile Path.updateScript true, Event.goBuild true,
            Event.startScript Path.updateScript false],
          fs := b.2, outcome := Outcome.selfStartFailed, preSwap := none }
      else
        { trace := [Event.performSelfUpdate, Event.osExecutable true,
            Event.writeFile Path.updateScript true, Event.goBuild true,
            Event.startScript Path.updateScript true, Event.osExit 0],
          fs := b.2, outcome := Outcome.selfExited, preSwap := none }

/-! ## performUpdate (update.go:105-263) -/

/-- The end of `performUpdate`, update.go:248-263, shared by both replacement
strategies: restore the stash if the flag is set, then show the changelog. -/
def performUpdate_finish (env : Env) (fs : FS) (hasStash : Bool) (pre : FS) : Run :=
  { trace := (if hasStash then [Event.gitStashPop (!env.popErr)] else []) ++ showChangelog,
    fs := fs, outcome := Outcome.completed, preSwap := some pre }

/-- The part of `performUpdate` after the sync, update.go:167-246, with `oldVersion`
and `hasStash` as computed before. -/
def performUpdate_afterSync (force : Bool) (env : Env) (fs : FS)
    (oldVersion : GoString) (hasStash : Bool) : Run :=
  -- :168
  match getFileVersion env.versionAfter with
  | none => { trace := [], fs := fs, outcome := Outcome.panicked, preSwap := none }
  | some newVersion =>
    -- :169-180
    if !force && oldVersion == newVersion then
      { trace := [Event.readVersion newVersion]
          ++ (if hasStash then [Event.gitStashPop (!env.popErr)] else []),
        fs := fs, outcome := Outcome.skipped, preSwap := none }
    else
      -- :184-191, the error is printed and the run goes on
      -- :195-209
      let b := goBuild env fs
      if !b.1 then
        { trace := [Event.readVersion newVersion, Event.goModDownload (!env.modErr),
            Event.goBuild false]
            ++ (if hasStash then [Event.gitStashPop (!env.popErr)] else []),
          fs := b.2, outcome := Outcome.buildFailed, preSwap := none }
      else
        -- :217-220
        let c := copyFile env b.2 Path.oldExe Path.backupExe
        if !c.2.1 then
          { trace := [Event.readVersion newVersion, Event.goModDownload (!env.modErr),
              Event.goBuild true] ++ c.1
              ++ [Event.copyFile Path.oldExe Path.backupExe false],
            fs := c.2.2, outcome := Outcome.backupFailed, preSwap := none }
        else
          Run.after ([Event.readVersion newVersion, Event.goModDownload (!env.modErr),
              Event.goBuild true] ++ c.1
              ++ [Event.copyFile Path.oldExe Path.backupExe true])
          -- :223-231
          (if env.windows then
            let s := scheduleReplacement env c.2.2 Path.oldExe Path.newExe Path.backupExe
            if !s.2.1 then
              { trace := s.1, fs := s.2.2, outcome := Outcome.scheduleFailed,
                preSwap := some c.2.2 }
            else
              Run.after s.1 (performUpdate_finish env s.2.2 hasStash c.2.2)
          -- :232-246
          else
            let r := osRename c.2.2 Path.newExe Path.oldExe env.renameErr
            if !r.1 then
              let r2 := osRename r.2 Path.backupExe Path.oldExe env.restoreErr
              { trace := [Event.rename Path.newExe Path.oldExe false,
                  Event.rename Path.backupExe Path.oldExe r2.1],
                fs := r2.2, outcome := Outcome.swapFailed, preSwap := some c.2.2 }
            else
              let d := osRemove r.2 Path.backupExe env.removeErr
              Run.after [Event.rename Path.newExe Path.oldExe true,
                  Event.remove Path.backupExe d.1]
                (performUpdate_finish env d.2 hasStash c.2.2))

/-- `performUpdate(force)` (update.go:105-263). -/
def performUpdate (force : Bool) (env : Env) (fs : FS) : Run :=
  -- :109-113
  if env.executableErr then
    { trace := [Event.osExecutable false], fs := fs,
      outcome := Outcome.executableError, preSwap := none }
  else
    -- :118-127
    let init := if env.gitDirMissing then initGitRepo env else ([], true)
    if !init.2 then
      Run.after ([Event.osExecutable true, Event.statGitDir (!env.gitDirMissing)] ++ init.1)
        (performSelfUpdate env fs)
    else
      -- :130-131
      match getFileVersion env.versionBefore with
      | none =>
        { trace := [Event.osExecutable true, Event.statGitDir (!env.gitDirMissing)] ++ init.1,
          fs := fs, outcome := Outcome.panicked, preSwap := none }
      | some oldVersion =>
        -- :135-138
        let hasStash := !Contains env.stashOutput "No local changes".toList
        Run.after ([Event.osExecutable true, Event.statGitDir (!env.gitDirMissing)] ++ init.1
          ++ [Event.readVersion oldVersion, Event.gitStashSave (!env.stashErr) env.stashOutput,
              Event.gitPull (!env.pullErr) env.pullOutput])
        -- :142-165
        (if env.pullErr then
          if Contains env.pullOutput "conflict".toList then
            if env.resetErr then
              { trace := [Event.gitResetHard false], fs := fs,
                outcome := Outcome.resetFailed, preSwap := none }
            else
              Run.after [Event.gitResetHard true]
                (performUpdate_afterSync force env fs oldVersion hasStash)
          else
            { trace := [], fs := fs, outcome := Outcome.pullFailed, preSwap := none }
        else
          performUpdate_afterSync force env fs oldVersion hasStash)

/-! ## checkForUpdates (update.go:46-103) and the dispatch of updateCmd (:20-29) -/

/-- What a run of `checkForUpdates` takes from outside the process. -/
structure CheckEnv where
  /-- Whether `os.Executable()` fails. -/
  executableErr : Bool
  /-- Whether `os.Stat(gitDir)` reports that `.git` does not exist. -/
  gitDirMissing : Bool
  fetchErr : Bool
  statusErr : Bool
  /-- The combined output of `git status -uno`. -/
  statusOutput : GoString

/-- `checkForUpdates()` (update.go:46-103): its steps and the file system it
leaves.  It calls nothing of the `os` package but `os.Executable` and `os.Stat`;
what it prints is not modelled. -/
def checkForUpdates (env : CheckEnv) (fs : FS) : List Event × FS :=
  -- :50-54
  if env.executableErr then ([Event.osExecutable false], fs)
  -- :59-65
  else if env.gitDirMissing then ([Event.osExecutable true, Event.statGitDir false], fs)
  -- :68-76
  else if env.fetchErr then
    ([Event.osExecutable true, Event.statGitDir true, Event.gitFetch false], fs)
  -- :79-85
  else if env.statusErr then
    ([Event.osExecutable true, Event.statGitDir true, Event.gitFetch true,
      Event.gitStatus false], fs)
  -- :87-97
  else if Contains env.statusOutput "Your branch is behind".toList then
    ([Event.osExecutable true, Event.statGitDir true, Event.gitFetch true,
      Event.gitStatus true, Event.gitLog], fs)
  -- :98-102
  else
    ([Event.osExecutable true, Event.statGitDir true, Event.gitFetch true,
      Event.gitStatus true], fs)

/-- The `Run` function of `updateCmd` (update.go:20-29), with the values of the
flags `check` and `force`: its steps and the file system it leaves. -/
def updateCmd (check force : Bool) (cenv : CheckEnv) (env : Env) (fs : FS) :
    List Event × FS :=
  if check then checkForUpdates cenv fs
  else ((performUpdate force env fs).trace, (performUpdate force env fs).fs)

/-! ## Vocabulary for statements about runs -/

/-- The steps of `performUpdate` up to and including the repository check
(update.go:109-127), on the runs that get past `os.Executable()`. -/
def setupEvents (env : Env) : List Event :=
  [Event.osExecutable true, Event.statGitDir (!env.gitDirMissing)]
    ++ (if env.gitDirMissing then initGitRepo env else ([], true)).1

/-- The steps of `performUpdate` from the first version read to the pull
(update.go:130-144). -/
def syncEvents (env : Env) (old : GoString) : List Event :=
  [Event.readVersion old, Event.gitStashSave (!env.stashErr) env.stashOutput,
    Event.gitPull (!env.pullErr) env.pullOutput]

/-- The stash flag of update.go:138. -/
def hasStash (env : Env) : Bool := !Contains env.stashOutput "No local changes".toList

/-- The versions a run read with `getFileVersion`, in order. -/
def versionsRead : List Event → List GoString
  | [] => []
  | Event.readVersion v :: tr => v :: versionsRead tr
  | _ :: tr => versionsRead tr

/-- A step of the build: `go mod download` or `go build`. -/
def Event.isBuildStep : Event → Bool
  | Event.goModDownload _ => true
  | Event.goBuild _ => true
  | _ => false

/-- A step of the replacement: the backup copy (the call of `copyFile` and the
`os` calls in it), a rename, a removal, or anything of `scheduleReplacement`. -/
def Event.isReplacementStep : Event → Bool
  | Event.readFile _ _ => true
  | Event.writeFile _ _ => true
  | Event.copyFile _ _ _ => true
  | Event.rename _ _ _ => true
  | Event.remove _ _ => true
  | Event.scheduleReplacement => true
  | Event.startScript _ _ => true
  | _ => false

/-- The conditional stash restoration of update.go:173-178, :203-207, :249-259. -/
def popEvents (env : Env) (hs : Bool) : List Event :=
  if hs then [Event.gitStashPop (!env.popErr)] else []

/-- The steps of `performUpdate` from the second version read to the compile
step (update.go:168-197), on the runs that do not skip. -/
def buildEvents (env : Env) (new : GoString) : List Event :=
  [Event.readVersion new, Event.goModDownload (!env.modErr), Event.goBuild (!env.buildErr)]

/-- The backup copy or a step that swaps or schedules the swap of the live
executable: a call of `copyFile`, of `os.Rename`, or of `scheduleReplacement`. -/
def Event.isBackupOrSwap : Event → Bool
  | Event.copyFile _ _ _ => true
  | Event.rename _ _ _ => true
  | Event.scheduleReplacement => true
  | _ => false

/-- A step that swaps or schedules the swap of the live executable in
`performUpdate`: a call of `os.Rename` or of `scheduleReplacement`. -/
def Event.isSwap : Event → Bool
  | Event.rename _ _ _ => true
  | Event.scheduleReplacement => true
  | _ => false

/-- A step of `performUpdate` before update.go:167: locating the installation,
preparing the repository, the first version read, the stash and the pull. -/
def Event.isSyncStep : Event → Bool
  | Event.osExecutable _ => true
  | Event.statGitDir _ => true
  | Event.gitInit _ => true
  | Event.gitRemoteAdd _ => true
  | Event.gitFetch _ => true
  | Event.readVersion _ => true
  | Event.gitStashSave _ _ => true
  | Event.gitPull _ _ => true
  | Event.gitResetHard _ => true
  | _ => false

/-- A call of `os.ReadFile` or `os.WriteFile`. -/
def Event.isFileOp : Event → Bool
  | Event.readFile _ _ => true
  | Event.writeFile _ _ => true
  | _ => false

/-- A step of `scheduleReplacement`: its entry, the write of the helper script,
the start of the helper script. -/
def Event.isScheduleStep : Event → Bool
  | Event.scheduleReplacement => true
  | Event.writeFile _ _ => true
  | Event.startScript _ _ => true
  | _ => false

/-- A step of `performUpdate` from update.go:167 on: the second version read, the
build, the backup copy, the replacement, the stash pop and the changelog. -/
def Event.isAfterSyncStep : Event → Bool
  | Event.readVersion _ => true
  | Event.goModDownload _ => true
  | Event.goBuild _ => true
  | Event.readFile _ _ => true
  | Event.writeFile _ _ => true
  | Event.copyFile _ _ _ => true
  | Event.scheduleReplacement => true
  | Event.startScript _ _ => true
  | Event.rename _ _ _ => true
  | Event.remove _ _ => true
  | Event.gitStashPop _ => true
  | Event.gitLog => true
  | _ => false

/-- A step of `performUpdate` up to the repository check (update.go:109-127). -/
def Event.isSetupStep : Event → Bool
  | Event.osExecutable _ => true
  | Event.statGitDir _ => true
  | Event.gitInit _ => true
  | Event.gitRemoteAdd _ => true
  | Event.gitFetch _ => true
  | _ => false

/-- A step of `performSelfUpdate`. -/
def Event.isSelfUpdateStep : Event → Bool
  | Event.performSelfUpdate => true
  | Event.osExecutable _ => true
  | Event.writeFile _ _ => true
  | Event.goBuild _ => true
  | Event.startScript _ _ => true
  | Event.osExit _ => true
  | _ => false

/-- A step of the tracked sync: `git stash save`, `git pull`, `git reset --hard`,
`git stash pop`. -/
def Event.isTrackedSync : Event → Bool
  | Event.gitStashSave _ _ => true
  | Event.gitPull _ _ => true
  | Event.gitResetHard _ => true
  | Event.gitStashPop _ => true
  | _ => false

/-- A step that changes the repository, the working tree or a file, or ends the
process: everything except `os.Executable`, `os.Stat`, `os.ReadFile`, the
version read and the commands `git fetch`, `git status` and `git log`. -/
def Event.isMutating : Event → Bool
  | Event.osExecutable _ => false
  | Event.statGitDir _ => false
  | Event.gitFetch _ => false
  | Event.readVersion _ => false
  | Event.readFile _ _ => false
  | Event.gitLog => false
  | Event.gitStatus _ => false
  | _ => true

/-- A line that holds the substring "Version", the character "=" and at least
one double quote. -/
def isVersionLine (line : GoString) : Bool :=
  Contains line "Version".toList && Contains line "=".toList && decide ('"' ∈ line)

/-- The text between the first and the second double quote of a line, or from the
first double quote to the end of the line when there is only one. -/
def quotedText (line : GoString) : GoString :=
  ((line.dropWhile (fun c => c != '"')).drop 1).takeWhile (fun c => c != '"')

/-- The exit status of the process whose command made the run `r`.  A call of
`os.Exit(code)` ends the process with `code`.  Otherwise the `Run` function of
the command (update.go:19-28, :34-36) returns; it has no error to hand to
cobra, so `rootCmd.Execute()` returns nil at main.go:50, `main` returns, and the
status is 0.  A run-time panic ends a Go process with status 2. -/
def exitStatus (r : Run) : Nat :=
  match r.trace.findSome? (fun e => match e with | Event.osExit c => some c | _ => none) with
  | some c => c
  | none => if r.outcome = Outcome.panicked then 2 else 0

/-- The number of `git stash pop` commands in a trace. -/
def stashPops : List Event → Nat
  | [] => 0
  | Event.gitStashPop _ :: tr => stashPops tr + 1
  | _ :: tr => stashPops tr

/-- The outcomes in which the update failed: every return statement except the
skip, the completion and the exit of the self-update. -/
def Outcome.isFailure : Outcome → Bool
  | Outcome.skipped => false
  | Outcome.completed => false
  | Outcome.selfExited => false
  | _ => true

/-! ## maskPassword (config_cmd.go:85-93) -/

/-- Translation of `maskPassword` (config_cmd.go:85-93).  `len` and the slice
expressions count bytes, here the elements of the list. -/
def maskPassword (password : GoString) : GoString :=
  if password = [] then "(not set)".toList
  else if password.length ≤ 4 then "****".toList
  else password.take 2 ++ List.replicate (password.length - 4) '*'
    ++ password.drop (password.length - 2)

/-! ## dropDatabase (db.go:188-219) -/

/-- The connection settings returned by `getPostgresConfig` (db.go:126-150), as
far as `dropDatabase` keeps them. -/
structure PgConfig where
  host : GoString
  port : GoString
  user : GoString
  password : GoString

/-- What `dropDatabase` does to the outside world, in program order. -/
inductive DbEvent
  /-- Line :193, the refusal for a system database. -/
  | cannotDropSystem (dbName : GoString)
  /-- Line :198, the warning. -/
  | warning (dbName : GoString)
  /-- Line :199, the prompt. -/
  | askConfirmation
  /-- Line :201, `fmt.Scanln(&confirm)`, with the string it stored. -/
  | scanln (confirm : GoString)
  /-- Line :203. -/
  | deletionCancelled
  /-- Lines :207-213, the run of the `dropdb` command: its arguments, the
      password added to its environment if any, and whether it succeeded. -/
  | dropdb (args : List GoString) (pgPassword : Option GoString) (ok : Bool)
  /-- Line :215. -/
  | errorDropping
  /-- Line :218. -/
  | droppedSuccessfully (dbName : GoString)
  deriving DecidableEq, Repr

/-- White space as the scanning functions of `fmt` see it: the characters
U+0009 to U+000D, U+0020, U+0085, U+00A0, U+1680, U+2000 to U+200A, U+2028,
U+2029, U+202F, U+205F and U+3000.  The scan reads the line character by
character, so here a `Char` is a character of the line, not a byte. -/
def isSpace (c : Char) : Bool :=
  (0x0009 ≤ c.toNat && c.toNat ≤ 0x000d) || c.toNat = 0x0020 || c.toNat = 0x0085
    || c.toNat = 0x00a0 || c.toNat = 0x1680 || (0x2000 ≤ c.toNat && c.toNat ≤ 0x200a)
    || c.toNat = 0x2028 || c.toNat = 0x2029 || c.toNat = 0x202f || c.toNat = 0x205f
    || c.toNat = 0x3000

/-- The call `fmt.Scanln(&confirm)` of db.go:201 on the line `typed` (the
characters typed before the line break): what it stores in `confirm`.  The scan
of a string operand skips leading white space and stores the characters up to
the next white space.  Text after that word makes `Scanln` return an error,
after the word is stored; a line with no word makes it return an error with
nothing stored, so `confirm` keeps its zero value, the empty string.  db.go:201
drops the error in both cases. -/
def Scanln (typed : GoString) : GoString :=
  (typed.dropWhile isSpace).takeWhile (fun c => !isSpace c)

/-- Translation of `dropDatabase` (db.go:188-219).  `cfg` is the result of
`getPostgresConfig`, `typed` the line typed at the prompt, `dropErr` whether
the `dropdb` command fails. -/
def dropDatabase (cfg : PgConfig) (dbName typed : GoString) (dropErr : Bool) :
    List DbEvent :=
  let confirm := Scanln typed
  if dbName = "postgres".toList ∨ dbName = "template0".toList
      ∨ dbName = "template1".toList then
    [DbEvent.cannotDropSystem dbName]
  else if confirm ≠ dbName then
    [DbEvent.warning dbName, DbEvent.askConfirmation, DbEvent.scanln confirm,
     DbEvent.deletionCancelled]
  else
    [DbEvent.warning dbName, DbEvent.askConfirmation, DbEvent.scanln confirm,
     DbEvent.dropdb
       ["-h".toList, cfg.host, "-p".toList, cfg.port, "-U".toList, cfg.user, dbName]
       (if cfg.password ≠ [] then some cfg.password else none) (!dropErr),
     if dropErr then DbEvent.errorDropping else DbEvent.droppedSuccessfully dbName]

/-! ## formatBytes (db.go:357-368) -/

/-- The value of an integer expression stored in an `int64`. -/
def int64Wrap (x : Int) : Int := (x + 2 ^ 63) % 2 ^ 64 - 2 ^ 63

/-- The loop of `formatBytes` (db.go:362-365), started with `n`, `div` and `exp`
as given: `some (div, exp)` at the exit of the loop, `none` when `fuel`
iterations did not reach the exit.  Go's `/` on `int64` truncates, as
`Int.tdiv`. -/
def formatBytes_loop : Nat → Int → Int → Nat → Option (Int × Nat)
  | 0, n, div, exp => if n ≥ 1024 then none else some (div, exp)
  | fuel + 1, n, div, exp =>
    if n ≥ 1024 then
      formatBytes_loop fuel (Int.tdiv n 1024) (int64Wrap (div * 1024)) (exp + 1)
    else some (div, exp)

/-- Translation of `formatBytes` (db.go:357-368).  `fmtFloat bytes div` is the
rendering of `float64(bytes)/float64(div)` under `%.1f`.  The result is `none`
when the loop runs out of fuel or the index `"KMGTPE"[exp]` is out of range. -/
def formatBytes (fmtFloat : Int → Int → GoString) (fuel : Nat) (bytes : Int) :
    Option GoString :=
  if bytes < 1024 then some ((toString bytes).toList ++ " B".toList)
  else
    match formatBytes_loop fuel (Int.tdiv bytes 1024) 1024 0 with
    | none => none
    | some (div, exp) =>
      match "KMGTPE".toList[exp]? with
      | none => none
      | some unit => some (fmtFloat bytes div ++ [' ', unit, 'B'])

/-! ## The helper script as the command interpreter runs it -/

/-- The path names of an installation in `/opt/tools`. -/
def sampleName : Path → GoString
  | Path.oldExe => "/opt/tools/tools.exe".toList
  | Path.newExe => "/opt/tools/tools.exe.new".toList
  | Path.backupExe => "/opt/tools/tools.exe.backup".toList
  | Path.batchFile => "/opt/tools/update_tools.bat".toList
  | Path.updateScript => "/opt/tools/self_update.bat".toList

/-- A world in which everything goes well: not Windows, a git working tree,
local edits that get stashed, a pull that brings version 1.1.0 in place of
1.0.0, and no failing call. -/
def sampleEnv : Env where
  windows := false
  installDir := "/opt/tools".toList
  name := sampleName
  executableErr := false
  gitDirMissing := false
  gitInitErr := false
  remoteAddErr := false
  initFetchErr := false
  versionBefore := some "package main\n\nconst Version = \"1.0.0\"\n".toList
  stashErr := false
  stashOutput := "Saved working directory and index state On main: Auto-stash".toList
  pullErr := false
  pullOutput := "Updating 1a2b3c4..5d6e7f8\nFast-forward\n".toList
  resetErr := false
  versionAfter := some "package main\n\nconst Version = \"1.1.0\"\n".toList
  modErr := false
  buildErr := false
  candidate := "NEW-EXE".toList
  readErr := false
  writeErr := false
  residue := none
  scriptWriteErr := false
  scriptResidue := none
  startErr := false
  renameErr := false
  restoreErr := false
  removeErr := false
  popErr := false
  selfExecutableErr := false

/-- The world of `sampleEnv`, except that the remote has nothing new. -/
def upToDateEnv : Env :=
  { sampleEnv with
    versionAfter := sampleEnv.versionBefore
    pullOutput := "Already up to date.\n".toList }

/-- The world of `sampleEnv`, except that the remote cannot be reached: the pull
fails and its output reports no conflict. -/
def pullFailEnv : Env :=
  { sampleEnv with
    pullErr := true
    pullOutput := "fatal: unable to access remote: Could not resolve host: github.com\n".toList }

/-- The world of `sampleEnv`, except that the live executable cannot be read. -/
def backupFailEnv : Env := { sampleEnv with readErr := true }

/-- The world of `sampleEnv`, except that neither the rename of the candidate onto
the live path nor the rename that restores the backup succeeds. -/
def renameFailEnv : Env := { sampleEnv with renameErr := true, restoreErr := true }

/-- The world of `sampleEnv`, except that the rename of the candidate onto the live
path fails (the restoring rename succeeds). -/
def swapFailEnv : Env := { sampleEnv with renameErr := true }

/-- The world of `sampleEnv`, except that `os.Remove` fails. -/
def removeFailEnv : Env := { sampleEnv with removeErr := true }

/-- The world of `sampleEnv`, except that `go mod download` fails. -/
def modFailEnv : Env := { sampleEnv with modErr := true }

/-- The world of `sampleEnv`, except that `go build` fails. -/
def buildFailEnv : Env := { sampleEnv with buildErr := true }

/-- The world of `sampleEnv`, except that `go mod download` and `go build` fail. -/
def modBuildFailEnv : Env := { sampleEnv with modErr := true, buildErr := true }

/-- A version file whose comment line mentions the format of the version. -/
def commentedVersionFile : GoString :=
  "// Version string; format = \"MAJOR.MINOR.PATCH\"\nconst Version = \"1.2.0\"\n".toList

/-- A version file that declares two constants on one line. -/
def sameLineVersionFile : GoString :=
  "const Name = \"tools\"; const Version = \"1.2.0\"\n".toList

/-- A version file with no assignment line: a comment that mentions the format of
the version, and the package clause. -/
def commentOnlyVersionFile : GoString :=
  "// Version string; format = \"MAJOR.MINOR.PATCH\"\npackage main\n".toList

/-- The world of `sampleEnv`, except that the pull ends in a merge conflict (the
hard reset succeeds). -/
def conflictEnv : Env :=
  { sampleEnv with
    pullErr := true
    pullOutput := ("CONFLICT (content): Merge conflict in main.go\n"
      ++ "Automatic merge failed; fix conflicts and then commit the result.\n").toList }

/-- The world of `sampleEnv`, except that the pull ends in a merge conflict and
git prints its messages in German (the hard reset would succeed). -/
def localizedConflictEnv : Env :=
  { sampleEnv with
    pullErr := true
    pullOutput := ("KONFLIKT (Inhalt): Merge-Konflikt in main.go\n"
      ++ "Automatischer Merge fehlgeschlagen; beheben Sie die Konflikte und committen "
      ++ "Sie dann das Ergebnis.\n").toList }

/-- The world of `sampleEnv`, except that the pull cannot reach the remote, whose
address holds the word "conflict" (the hard reset, a local operation,
succeeds). -/
def conflictNamedRemoteEnv : Env :=
  { sampleEnv with
    pullErr := true
    pullOutput := ("fatal: unable to access "
      ++ "\x27https://git.example.com/tools/conflict-checker.git/\x27: "
      ++ "Could not resolve host: git.example.com\n").toList }

/-- The world of `initFailEnv`, except that `go build` fails. -/
def initBuildFailEnv : Env :=
  { sampleEnv with gitDirMissing := true, gitInitErr := true, buildErr := true }

/-- The world of `conflictEnv`, except that the hard reset fails. -/
def conflictResetFailEnv : Env := { conflictEnv with resetErr := true }

/-- The world of `sampleEnv`, except that the installation directory is not a git
working tree and `git init` fails. -/
def initFailEnv : Env := { sampleEnv with gitDirMissing := true, gitInitErr := true }

/-- The world of `sampleEnv`, except that `git stash pop` fails. -/
def popFailEnv : Env := { sampleEnv with popErr := true }

/-- The world of `upToDateEnv`, except that `git stash save` fails: nothing is
stashed, and its output does not hold "No local changes". -/
def stashFailEnv : Env :=
  { upToDateEnv with
    stashErr := true
    stashOutput := "Cannot save the current index state\n".toList }

/-- The world of `sampleEnv`, except that the installation directory is not a git
working tree, `git init` succeeds, `git remote add` fails, and the pull then
finds no remote. -/
def remoteFailEnv : Env :=
  { sampleEnv with
    gitDirMissing := true
    remoteAddErr := true
    initFetchErr := true
    pullErr := true
    pullOutput := "fatal: origin does not appear to be a git repository\n".toList }

/-- The world of `upToDateEnv`, except that the version file cannot be read,
neither before nor after the sync. -/
def unreadableVersionEnv : Env :=
  { upToDateEnv with versionBefore := none, versionAfter := none }

/-- The world of `sampleEnv` on Windows. -/
def windowsEnv : Env := { sampleEnv with windows := true }

/-- The world of `windowsEnv`, except that the backup copy succeeds and the write
of the helper script in `scheduleReplacement` then fails. -/
def scriptWriteFailEnv : Env := { sampleEnv with windows := true, scriptWriteErr := true }

/-- The world of `sampleEnv`, except that there is nothing to stash. -/
def noChangesEnv : Env :=
  { sampleEnv with stashOutput := "No local changes to save\n".toList }

/-- A version file whose version literal is the word "unknown". -/
def unknownVersionFile : GoString := "package main\n\nconst Version = \"unknown\"\n".toList

/-- Connection settings of a local server. -/
def sampleConfig : PgConfig :=
  { host := "localhost".toList, port := "5432".toList, user := "postgres".toList,
    password := "secret".toList }

/-- A rendering of floats that always prints "1.5". -/
def sampleFmtFloat : Int → Int → GoString := fun _ _ => "1.5".toList

/-- A file system with the live executable in place and nothing else. -/
def sampleFS : FS
  | Path.oldExe => some "OLD-EXE".toList
  | _ => none

/-! ## Basic facts about runs and the helper functions -/

@[simp] theorem Run.after_trace (evs : List Event) (r : Run) :
    (r.after evs).trace = evs ++ r.trace := rfl

@[simp] theorem Run.after_fs (evs : List Event) (r : Run) : (r.after evs).fs = r.fs := rfl

@[simp] theorem Run.after_outcome (evs : List Event) (r : Run) :
    (r.after evs).outcome = r.outcome := rfl

@[simp] theorem Run.after_preSwap (evs : List Event) (r : Run) :
    (r.after evs).preSwap = r.preSwap := rfl

theorem versionsRead_append (a b : List Event) :
    versionsRead (a ++ b) = versionsRead a ++ versionsRead b := by
  induction a with
  | nil => rfl
  | cons e a ih => cases e <;> simp [versionsRead, ih]

theorem versionsRead_eq_nil (tr : List Event)
    (h : ∀ e ∈ tr, ∀ v, e ≠ Event.readVersion v) : versionsRead tr = [] := by
  induction tr with
  | nil => rfl
  | cons e tr ih =>
    have h1 := h e (List.mem_cons_self _ _)
    have h2 := ih (fun e he => h e (List.mem_cons_of_mem _ he))
    cases e <;> simp_all [versionsRead]

theorem copyFile_events (env : Env) (fs : FS) (s d : Path) :
    ∀ e ∈ (copyFile env fs s d).1,
      (∃ ok, e = Event.readFile s ok) ∨ (∃ ok, e = Event.writeFile d ok) := by
  unfold copyFile
  cases osReadFile fs s env.readErr <;> simp

theorem scheduleReplacement_events (env : Env) (fs : FS) (a b c : Path) :
    ∀ e ∈ (scheduleReplacement env fs a b c).1,
      e = Event.scheduleReplacement ∨ (∃ ok, e = Event.writeFile Path.batchFile ok)
        ∨ (∃ ok, e = Event.startScript Path.batchFile ok) := by
  unfold scheduleReplacement
  simp only []
  split_ifs <;> simp

theorem initGitRepo_events (env : Env) :
    ∀ e ∈ (initGitRepo env).1,
      (∃ ok, e = Event.gitInit ok) ∨ (∃ ok, e = Event.gitRemoteAdd ok)
        ∨ (∃ ok, e = Event.gitFetch ok) := by
  unfold initGitRepo
  split_ifs <;> simp

@[simp] theorem versionsRead_copyFile (env : Env) (fs : FS) (s d : Path) :
    versionsRead (copyFile env fs s d).1 = [] := by
  apply versionsRead_eq_nil
  intro e he v
  rcases copyFile_events env fs s d e he with ⟨ok, rfl⟩ | ⟨ok, rfl⟩ <;> simp

@[simp] theorem versionsRead_scheduleReplacement (env : Env) (fs : FS) (a b c : Path) :
    versionsRead (scheduleReplacement env fs a b c).1 = [] := by
  apply versionsRead_eq_nil
  intro e he v
  rcases scheduleReplacement_events env fs a b c e he with rfl | ⟨ok, rfl⟩ | ⟨ok, rfl⟩ <;> simp

@[simp] theorem versionsRead_initGitRepo (env : Env) :
    versionsRead (initGitRepo env).1 = [] := by
  apply versionsRead_eq_nil
  intro e he v
  rcases initGitRepo_events env e he with ⟨ok, rfl⟩ | ⟨ok, rfl⟩ | ⟨ok, rfl⟩ <;> simp

@[simp] theorem versionsRead_performSelfUpdate (env : Env) (fs : FS) :
    versionsRead (performSelfUpdate env fs).trace = [] := by
  unfold performSelfUpdate
  simp only []
  split_ifs <;> simp [versionsRead]

/-- Every run of the part after the sync that does not panic reads the version
once, whatever path it takes. -/
theorem versionsRead_afterSync (force : Bool) (env : Env) (fs : FS) (old new : GoString)
    (hs : Bool) (hv : getFileVersion env.versionAfter = some new) :
    versionsRead (performUpdate_afterSync force env fs old hs).trace = [new] := by
  unfold performUpdate_afterSync performUpdate_finish showChangelog
  simp only [hv]
  split_ifs <;> cases hs <;> simp [versionsRead, versionsRead_append]

/-- On the skip path of the part after the sync, the steps are the version read
and the conditional stash pop. -/
theorem afterSync_skip (env : Env) (fs : FS) (v : GoString) (hs : Bool)
    (hv : getFileVersion env.versionAfter = some v) :
    performUpdate_afterSync false env fs v hs =
      { trace := [Event.readVersion v]
          ++ (if hs then [Event.gitStashPop (!env.popErr)] else []),
        fs := fs, outcome := Outcome.skipped, preSwap := none } := by
  unfold performUpdate_afterSync
  simp [hv]

/-- The paths through `performUpdate` up to the end of the sync, one disjunct per
return statement and one per way of reaching update.go:167. -/
theorem performUpdate_cases (force : Bool) (env : Env) (fs : FS) :
    (performUpdate force env fs =
        { trace := [Event.osExecutable false], fs := fs,
          outcome := Outcome.executableError, preSwap := none })
    ∨ (performUpdate force env fs = Run.after (setupEvents env) (performSelfUpdate env fs))
    ∨ (performUpdate force env fs =
        { trace := setupEvents env, fs := fs, outcome := Outcome.panicked, preSwap := none })
    ∨ (∃ old, getFileVersion env.versionBefore = some old ∧
        ((env.pullErr = true ∧ Contains env.pullOutput "conflict".toList = false ∧
          performUpdate force env fs =
            { trace := setupEvents env ++ syncEvents env old, fs := fs,
              outcome := Outcome.pullFailed, preSwap := none })
        ∨ (env.pullErr = true ∧ Contains env.pullOutput "conflict".toList = true ∧
          performUpdate force env fs =
            { trace := setupEvents env ++ syncEvents env old ++ [Event.gitResetHard false],
              fs := fs, outcome := Outcome.resetFailed, preSwap := none })
        ∨ (env.pullErr = true ∧ Contains env.pullOutput "conflict".toList = true ∧
          performUpdate force env fs =
            Run.after (setupEvents env ++ syncEvents env old ++ [Event.gitResetHard true])
              (performUpdate_afterSync force env fs old (hasStash env)))
        ∨ (env.pullErr = false ∧
          performUpdate force env fs =
            Run.after (setupEvents env ++ syncEvents env old)
              (performUpdate_afterSync force env fs old (hasStash env))))) := by
  unfold performUpdate setupEvents syncEvents hasStash
  cases h1 : env.executableErr
  · right
    simp only [Bool.false_eq_true, ↓reduceIte]
    cases h2 : (!(if env.gitDirMissing = true then initGitRepo env else ([], true)).2)
    · right
      simp only [Bool.false_eq_true, ↓reduceIte]
      cases hv : getFileVersion env.versionBefore with
      | none => left; rfl
      | some old =>
        right
        refine ⟨old, rfl, ?_⟩
        simp only []
        generalize Contains env.pullOutput "conflict".toList = cf
        cases env.pullErr <;> cases cf <;> cases env.resetErr <;> simp [Run.after]
    · left; simp only [↓reduceIte]
  · left; simp only [↓reduceIte]

theorem setupEvents_mem (env : Env) :
    ∀ e ∈ setupEvents env,
      e = Event.osExecutable true ∨ (∃ b, e = Event.statGitDir b) ∨ (∃ ok, e = Event.gitInit ok)
        ∨ (∃ ok, e = Event.gitRemoteAdd ok) ∨ (∃ ok, e = Event.gitFetch ok) := by
  intro e he
  unfold setupEvents at he
  rw [List.mem_append] at he
  rcases he with he | he
  · simp at he
    rcases he with rfl | rfl <;> simp
  · split_ifs at he
    · rcases initGitRepo_events env e he with ⟨ok, rfl⟩ | ⟨ok, rfl⟩ | ⟨ok, rfl⟩ <;> simp
    · simp at he

@[simp] theorem versionsRead_setupEvents (env : Env) : versionsRead (setupEvents env) = [] := by
  apply versionsRead_eq_nil
  intro e he v
  rcases setupEvents_mem env e he with rfl | ⟨b, rfl⟩ | ⟨b, rfl⟩ | ⟨b, rfl⟩ | ⟨b, rfl⟩ <;> simp

@[simp] theorem versionsRead_syncEvents (env : Env) (old : GoString) :
    versionsRead (syncEvents env old) = [old] := by
  simp [syncEvents, versionsRead]

@[simp] theorem versionsRead_gitResetHard (ok : Bool) :
    versionsRead [Event.gitResetHard ok] = [] := rfl

/-- The paths through the part of `performUpdate` after the sync, one disjunct per
return statement. -/
theorem afterSync_cases (force : Bool) (env : Env) (fs : FS) (old : GoString) (hs : Bool) :
    (getFileVersion env.versionAfter = none ∧
      performUpdate_afterSync force env fs old hs =
        { trace := [], fs := fs, outcome := Outcome.panicked, preSwap := none })
    ∨ ∃ new, getFileVersion env.versionAfter = some new ∧
      ((force = false ∧ old = new ∧
        performUpdate_afterSync force env fs old hs =
          { trace := [Event.readVersion new] ++ popEvents env hs,
            fs := fs, outcome := Outcome.skipped, preSwap := none })
      ∨ (env.buildErr = true ∧
        performUpdate_afterSync force env fs old hs =
          { trace := buildEvents env new ++ popEvents env hs,
            fs := fs, outcome := Outcome.buildFailed, preSwap := none })
      ∨ (env.buildErr = false ∧
        ∃ c, c = copyFile env (goBuild env fs).2 Path.oldExe Path.backupExe ∧
        ((c.2.1 = false ∧
          performUpdate_afterSync force env fs old hs =
            { trace := buildEvents env new ++ c.1
                ++ [Event.copyFile Path.oldExe Path.backupExe false],
              fs := c.2.2, outcome := Outcome.backupFailed, preSwap := none })
        ∨ (c.2.1 = true ∧ env.windows = true ∧
          ∃ s, s = scheduleReplacement env c.2.2 Path.oldExe Path.newExe Path.backupExe ∧
          ((s.2.1 = false ∧
            performUpdate_afterSync force env fs old hs =
              { trace := buildEvents env new ++ c.1
                  ++ [Event.copyFile Path.oldExe Path.backupExe true] ++ s.1,
                fs := s.2.2, outcome := Outcome.scheduleFailed, preSwap := some c.2.2 })
          ∨ (s.2.1 = true ∧
            performUpdate_afterSync force env fs old hs =
              { trace := buildEvents env new ++ c.1
                  ++ [Event.copyFile Path.oldExe Path.backupExe true] ++ s.1
                  ++ popEvents env hs ++ showChangelog,
                fs := s.2.2, outcome := Outcome.completed, preSwap := some c.2.2 })))
        ∨ (c.2.1 = true ∧ env.windows = false ∧
          ∃ r, r = osRename c.2.2 Path.newExe Path.oldExe env.renameErr ∧
          ((r.1 = false ∧
            ∃ r2, r2 = osRename r.2 Path.backupExe Path.oldExe env.restoreErr ∧
            performUpdate_afterSync force env fs old hs =
              { trace := buildEvents env new ++ c.1
                  ++ [Event.copyFile Path.oldExe Path.backupExe true]
                  ++ [Event.rename Path.newExe Path.oldExe false,
                      Event.rename Path.backupExe Path.oldExe r2.1],
                fs := r2.2, outcome := Outcome.swapFailed, preSwap := some c.2.2 })
          ∨ (r.1 = true ∧
            ∃ d, d = osRemove r.2 Path.backupExe env.removeErr ∧
            performUpdate_afterSync force env fs old hs =
              { trace := buildEvents env new ++ c.1
                  ++ [Event.copyFile Path.oldExe Path.backupExe true]
                  ++ [Event.rename Path.newExe Path.oldExe true,
                      Event.remove Path.backupExe d.1]
                  ++ popEvents env hs ++ showChangelog,
                fs := d.2, outcome := Outcome.completed, preSwap := some c.2.2 })))))) := by
  unfold performUpdate_afterSync performUpdate_finish popEvents buildEvents
  cases hv : getFileVersion env.versionAfter with
  | none => left; exact ⟨rfl, rfl⟩
  | some new =>
    right
    refine ⟨new, rfl, ?_⟩
    simp only []
    by_cases hskip : (!force && old == new) = true
    · left
      simp only [hskip, if_true]
      simp at hskip
      exact ⟨hskip.1, hskip.2, trivial⟩
    · right
      simp only [hskip, if_false]
      cases hb : env.buildErr
      · right
        refine ⟨rfl, _, rfl, ?_⟩
        have hgb : (goBuild env fs).1 = true := by simp [goBuild, hb]
        simp only [hgb, Bool.not_true, Bool.false_eq_true, if_false]
        generalize copyFile env (goBuild env fs).2 Path.oldExe Path.backupExe = c
        cases hc : c.2.1
        · left
          simp
        · right
          simp only [Bool.not_true, Bool.false_eq_true, if_false]
          cases hw : env.windows
          · right
            refine ⟨trivial, rfl, _, rfl, ?_⟩
            simp only [Bool.false_eq_true, if_false]
            generalize osRename c.2.2 Path.newExe Path.oldExe env.renameErr = r
            cases hr : r.1
            · left
              refine ⟨rfl, _, rfl, ?_⟩
              simp [Run.after]
            · right
              refine ⟨rfl, _, rfl, ?_⟩
              simp [Run.after]
          · left
            refine ⟨trivial, rfl, _, rfl, ?_⟩
            simp only [if_true]
            generalize scheduleReplacement env c.2.2 Path.oldExe Path.newExe Path.backupExe = s
            cases hsr : s.2.1 <;> simp [Run.after]
      · left
        have hgb : (goBuild env fs).1 = false := by simp [goBuild, hb]
        simp [hgb, goBuild, hb]

/-- A panic in the second version read ends the run on the spot. -/
theorem afterSync_panicked (force : Bool) (env : Env) (fs : FS) (old : GoString) (hs : Bool)
    (hv : getFileVersion env.versionAfter = none) :
    performUpdate_afterSync force env fs old hs =
      { trace := [], fs := fs, outcome := Outcome.panicked, preSwap := none } := by
  unfold performUpdate_afterSync
  simp [hv]

theorem setupEvents_isSyncStep (env : Env) : ∀ e ∈ setupEvents env, e.isSyncStep = true := by
  intro e he
  rcases setupEvents_mem env e he with rfl | ⟨b, rfl⟩ | ⟨b, rfl⟩ | ⟨b, rfl⟩ | ⟨b, rfl⟩ <;> rfl

theorem syncEvents_isSyncStep (env : Env) (old : GoString) :
    ∀ e ∈ syncEvents env old, e.isSyncStep = true := by
  intro e he
  simp only [syncEvents, List.mem_cons, List.mem_singleton, List.not_mem_nil, or_false] at he
  rcases he with rfl | rfl | rfl <;> rfl

theorem syncEvents_stash (env : Env) (old : GoString) (ok : Bool) (out : GoString)
    (h : Event.gitStashSave ok out ∈ syncEvents env old) : out = env.stashOutput := by
  simp [syncEvents] at h
  exact h.2

/-- Where a run of `performUpdate` can go before update.go:167: it returns early
having taken sync steps only, or hands over to `performSelfUpdate` before any
stash, or reaches the part after the sync. -/
theorem performUpdate_reach (force : Bool) (env : Env) (fs : FS) :
    ((performUpdate force env fs).fs = fs ∧ (performUpdate force env fs).preSwap = none ∧
      ((performUpdate force env fs).outcome = Outcome.executableError
        ∨ (performUpdate force env fs).outcome = Outcome.panicked
        ∨ (performUpdate force env fs).outcome = Outcome.pullFailed
        ∨ (performUpdate force env fs).outcome = Outcome.resetFailed) ∧
      ∀ e ∈ (performUpdate force env fs).trace, e.isSyncStep = true)
    ∨ (∃ pre, (∀ e ∈ pre, e.isSyncStep = true) ∧
        (∀ ok out, Event.gitStashSave ok out ∉ pre) ∧
        performUpdate force env fs = Run.after pre (performSelfUpdate env fs))
    ∨ (∃ pre old, (∀ e ∈ pre, e.isSyncStep = true) ∧
        (∀ ok out, Event.gitStashSave ok out ∈ pre → out = env.stashOutput) ∧
        performUpdate force env fs =
          Run.after pre (performUpdate_afterSync force env fs old (hasStash env))) := by
  have hpre : ∀ old, ∀ e ∈ setupEvents env ++ syncEvents env old, e.isSyncStep = true := by
    intro old e he
    rcases List.mem_append.1 he with he | he
    · exact setupEvents_isSyncStep env e he
    · exact syncEvents_isSyncStep env old e he
  have hst : ∀ old ok out, Event.gitStashSave ok out ∈ setupEvents env ++ syncEvents env old →
      out = env.stashOutput := by
    intro old ok out he
    rcases List.mem_append.1 he with he | he
    · have := setupEvents_isSyncStep env _ he
      rcases setupEvents_mem env _ he with h | ⟨b, h⟩ | ⟨b, h⟩ | ⟨b, h⟩ | ⟨b, h⟩ <;> cases h
    · exact syncEvents_stash env old ok out he
  rcases performUpdate_cases force env fs with hr | hr | hr | ⟨old, -, hr | hr | hr | hr⟩
  · left
    rw [hr]
    refine ⟨rfl, rfl, Or.inl rfl, ?_⟩
    intro e he
    simp at he
    subst he
    rfl
  · right; left
    refine ⟨_, setupEvents_isSyncStep env, ?_, hr⟩
    intro ok out he
    rcases setupEvents_mem env _ he with h | ⟨b, h⟩ | ⟨b, h⟩ | ⟨b, h⟩ | ⟨b, h⟩ <;> cases h
  · left
    rw [hr]
    exact ⟨rfl, rfl, Or.inr (Or.inl rfl), setupEvents_isSyncStep env⟩
  · left
    rw [hr.2.2]
    exact ⟨rfl, rfl, Or.inr (Or.inr (Or.inl rfl)), hpre old⟩
  · left
    rw [hr.2.2]
    refine ⟨rfl, rfl, Or.inr (Or.inr (Or.inr rfl)), ?_⟩
    intro e he
    rcases List.mem_append.1 he with he | he
    · exact hpre old e he
    · simp at he
      subst he
      rfl
  · right; right
    refine ⟨_, old, ?_, ?_, hr.2.2⟩
    · intro e he
      rcases List.mem_append.1 he with he | he
      · exact hpre old e he
      · simp at he
        subst he
        rfl
    · intro ok out he
      rcases List.mem_append.1 he with he | he
      · exact hst old ok out he
      · simp at he
  · right; right
    exact ⟨_, old, hpre old, hst old, hr.2⟩

theorem performSelfUpdate_mem (env : Env) (fs : FS) :
    ∀ e ∈ (performSelfUpdate env fs).trace,
      e = Event.performSelfUpdate ∨ (∃ b, e = Event.osExecutable b)
        ∨ (∃ b, e = Event.writeFile Path.updateScript b) ∨ (∃ b, e = Event.goBuild b)
        ∨ (∃ b, e = Event.startScript Path.updateScript b) ∨ e = Event.osExit 0 := by
  unfold performSelfUpdate
  simp only []
  split_ifs <;> simp

theorem isSwap_of_isSyncStep (e : Event) (h : e.isSyncStep = true) : e.isSwap = false := by
  cases e <;> simp_all [Event.isSyncStep, Event.isSwap]

theorem copyFile_isSwap (env : Env) (fs : FS) (s d : Path) :
    ∀ e ∈ (copyFile env fs s d).1, e.isSwap = false ∧ ∀ a b ok, e ≠ Event.copyFile a b ok := by
  intro e he
  rcases copyFile_events env fs s d e he with ⟨ok, rfl⟩ | ⟨ok, rfl⟩ <;> simp [Event.isSwap]

theorem scheduleReplacement_not_copy (env : Env) (fs : FS) (a b c : Path) :
    ∀ e ∈ (scheduleReplacement env fs a b c).1, ∀ x y ok, e ≠ Event.copyFile x y ok := by
  intro e he
  rcases scheduleReplacement_events env fs a b c e he with rfl | ⟨ok, rfl⟩ | ⟨ok, rfl⟩ <;> simp

/-- In the part after the sync, a trace has no swap step unless the backup copy
succeeded first, and a failed backup copy ends the run. -/
theorem afterSync_guard (force : Bool) (env : Env) (fs : FS) (old : GoString) (hs : Bool) :
    ((∀ e ∈ (performUpdate_afterSync force env fs old hs).trace, e.isSwap = false) ∧
      (Event.copyFile Path.oldExe Path.backupExe false
          ∈ (performUpdate_afterSync force env fs old hs).trace →
        (performUpdate_afterSync force env fs old hs).outcome = Outcome.backupFailed))
    ∨ (Event.copyFile Path.oldExe Path.backupExe false
          ∉ (performUpdate_afterSync force env fs old hs).trace ∧
        ∃ A B, (performUpdate_afterSync force env fs old hs).trace
            = A ++ Event.copyFile Path.oldExe Path.backupExe true :: B ∧
          ∀ e ∈ A, e.isSwap = false) := by
  have hc := copyFile_isSwap env (goBuild env fs).2 Path.oldExe Path.backupExe
  rcases afterSync_cases force env fs old hs with ⟨-, hr⟩ | ⟨new, -, hr⟩
  · left; rw [hr]; simp
  · have hA : ∀ e ∈ buildEvents env new
        ++ (copyFile env (goBuild env fs).2 Path.oldExe Path.backupExe).1, e.isSwap = false := by
      intro e he
      rcases List.mem_append.1 he with he | he
      · simp [buildEvents] at he
        rcases he with rfl | rfl | rfl <;> rfl
      · exact (hc e he).1
    have hA2 : Event.copyFile Path.oldExe Path.backupExe false ∉ buildEvents env new
        ++ (copyFile env (goBuild env fs).2 Path.oldExe Path.backupExe).1 := by
      intro he
      rcases List.mem_append.1 he with he | he
      · simp [buildEvents] at he
      · exact (hc _ he).2 _ _ _ rfl
    rcases hr with ⟨-, -, hr⟩ | ⟨-, hr⟩ | ⟨-, c, rfl, ⟨-, hr⟩ | ⟨-, -, s, rfl, ⟨-, hr⟩ | ⟨-, hr⟩⟩
      | ⟨-, -, r, -, ⟨-, r2, -, hr⟩ | ⟨-, d, -, hr⟩⟩⟩
    · left; rw [hr]; cases hs <;> simp [popEvents, Event.isSwap]
    · left; rw [hr]; cases hs <;> simp [popEvents, buildEvents, Event.isSwap]
    · left; rw [hr]
      refine ⟨?_, fun _ => rfl⟩
      intro e he
      rcases List.mem_append.1 he with he | he
      · exact hA e he
      · simp at he; subst he; rfl
    · right; rw [hr]
      refine ⟨?_, _, (scheduleReplacement env (copyFile env (goBuild env fs).2 Path.oldExe Path.backupExe).2.2
          Path.oldExe Path.newExe Path.backupExe).1,
        by simp, hA⟩
      intro he
      simp only [List.mem_append, List.mem_singleton] at he
      rcases he with (he | he) | he
      · exact hA2 (List.mem_append.2 he)
      · simp at he
      · exact scheduleReplacement_not_copy _ _ _ _ _ _ he _ _ _ rfl
    · right; rw [hr]
      refine ⟨?_, _, (scheduleReplacement env (copyFile env (goBuild env fs).2 Path.oldExe Path.backupExe).2.2
          Path.oldExe Path.newExe Path.backupExe).1 ++ popEvents env hs ++ showChangelog,
        by simp, hA⟩
      intro he
      simp only [List.mem_append, List.mem_singleton] at he
      rcases he with (((he | he) | he) | he) | he
      · exact hA2 (List.mem_append.2 he)
      · simp at he
      · exact scheduleReplacement_not_copy _ _ _ _ _ _ he _ _ _ rfl
      · cases hs <;> simp [popEvents] at he
      · simp [showChangelog] at he
    · right; rw [hr]
      refine ⟨?_, _, [Event.rename Path.newExe Path.oldExe false, Event.rename Path.backupExe Path.oldExe r2.1],
        by simp, hA⟩
      intro he
      simp only [List.mem_append, List.mem_singleton] at he
      rcases he with (he | he) | he
      · exact hA2 (List.mem_append.2 he)
      · simp at he
      · simp at he
    · right; rw [hr]
      refine ⟨?_, _, [Event.rename Path.newExe Path.oldExe true, Event.remove Path.backupExe d.1]
          ++ popEvents env hs ++ showChangelog,
        by simp, hA⟩
      intro he
      simp only [List.mem_append, List.mem_singleton] at he
      rcases he with (((he | he) | he) | he) | he
      · exact hA2 (List.mem_append.2 he)
      · simp at he
      · simp at he
      · cases hs <;> simp [popEvents] at he
      · simp [showChangelog] at he

theorem goBuild_fs (env : Env) (fs : FS) (p : Path) (hp : p ≠ Path.newExe) :
    (goBuild env fs).2 p = fs p := by
  unfold goBuild
  split_ifs <;> simp [Function.update_noteq hp]

theorem goBuild_ok (env : Env) (fs : FS) (h : env.buildErr = false) :
    (goBuild env fs).2 Path.newExe = some env.candidate := by
  simp [goBuild, h]

theorem copyFile_fs (env : Env) (fs : FS) (s d p : Path) (hp : p ≠ d) :
    (copyFile env fs s d).2.2 p = fs p := by
  unfold copyFile osWriteFile
  cases osReadFile fs s env.readErr with
  | none => rfl
  | some data =>
    simp only []
    split_ifs <;> simp [Function.update_noteq hp]

theorem copyFile_ok (env : Env) (fs : FS) (s d : Path) (h : (copyFile env fs s d).2.1 = true) :
    ∃ data, fs s = some data ∧ (copyFile env fs s d).2.2 d = some data := by
  unfold copyFile osWriteFile osReadFile at *
  cases hr : env.readErr
  · cases hs : fs s with
    | none => simp [hr, hs] at h
    | some data =>
      cases hw : env.writeErr
      · exact ⟨data, rfl, by simp [hr, hs, hw]⟩
      · simp [hr, hs, hw] at h
  · simp [hr] at h

theorem scheduleReplacement_fs (env : Env) (fs : FS) (a b c p : Path)
    (hp : p ≠ Path.batchFile) : (scheduleReplacement env fs a b c).2.2 p = fs p := by
  unfold scheduleReplacement osWriteFile
  simp only []
  split_ifs <;> simp_all [Function.update_noteq hp]

theorem osRename_fail (fs : FS) (s d : Path) (err : Bool) (h : (osRename fs s d err).1 = false) :
    (osRename fs s d err).2 = fs := by
  unfold osRename at *
  cases err
  · cases hs : fs s <;> simp_all
  · rfl

theorem osRename_ok (fs : FS) (s d : Path) (err : Bool) (h : (osRename fs s d err).1 = true) :
    ∃ data, fs s = some data ∧
      (osRename fs s d err).2 = Function.update (Function.update fs d (some data)) s none := by
  unfold osRename at *
  cases err
  · cases hs : fs s with
    | none => simp [hs] at h
    | some data => exact ⟨data, rfl, by simp⟩
  · simp at h

theorem osRemove_fail (fs : FS) (p : Path) (err : Bool) (h : (osRemove fs p err).1 = false) :
    (osRemove fs p err).2 = fs := by
  unfold osRemove at *
  cases err
  · cases hs : fs p <;> simp_all
  · rfl

theorem osRemove_ok (fs : FS) (p : Path) (err : Bool) (h : (osRemove fs p err).1 = true) :
    (osRemove fs p err).2 = Function.update fs p none := by
  unfold osRemove at *
  cases err
  · cases hs : fs p <;> simp_all
  · simp at h

theorem performSelfUpdate_fs (env : Env) (fs : FS) (p : Path)
    (h1 : p ≠ Path.updateScript) (h2 : p ≠ Path.newExe) :
    (performSelfUpdate env fs).fs p = fs p := by
  unfold performSelfUpdate goBuild osWriteFile
  simp only []
  split_ifs <;> simp [Function.update_noteq h1, Function.update_noteq h2]

/-- In the part after the sync, every run that does not complete leaves at the
live path what was there before. -/
theorem afterSync_live (force : Bool) (env : Env) (fs : FS) (old : GoString) (hs : Bool)
    (h : (performUpdate_afterSync force env fs old hs).outcome ≠ Outcome.completed) :
    (performUpdate_afterSync force env fs old hs).fs Path.oldExe = fs Path.oldExe := by
  have hcopy : (copyFile env (goBuild env fs).2 Path.oldExe Path.backupExe).2.2 Path.oldExe
      = fs Path.oldExe := by
    rw [copyFile_fs _ _ _ _ _ (by decide), goBuild_fs _ _ _ (by decide)]
  rcases afterSync_cases force env fs old hs with ⟨-, hr⟩ | ⟨new, -, hr⟩
  · rw [hr]
  · rcases hr with ⟨-, -, hr⟩ | ⟨-, hr⟩ | ⟨-, c, rfl, ⟨-, hr⟩ | ⟨-, -, s, rfl, ⟨-, hr⟩ | ⟨-, hr⟩⟩
      | ⟨hc, -, r, rfl, ⟨hr1, r2, rfl, hr⟩ | ⟨-, d, -, hr⟩⟩⟩
    · rw [hr]
    · rw [hr]
    · rw [hr]; exact hcopy
    · rw [hr]
      simp only []
      rw [scheduleReplacement_fs _ _ _ _ _ _ (by decide), hcopy]
    · rw [hr] at h; exact absurd rfl h
    · rw [hr]
      simp only []
      rw [osRename_fail _ _ _ _ hr1]
      obtain ⟨data, hd1, hd2⟩ := copyFile_ok _ _ _ _ hc
      rw [goBuild_fs _ _ _ (by decide)] at hd1
      cases hr2 : (osRename (copyFile env (goBuild env fs).2 Path.oldExe Path.backupExe).2.2
          Path.backupExe Path.oldExe env.restoreErr).1
      · rw [osRename_fail _ _ _ _ hr2, hcopy]
      · obtain ⟨data2, he1, he2⟩ := osRename_ok _ _ _ _ hr2
        rw [he2, hd1]
        rw [hd2] at he1
        cases he1
        simp [Function.update_noteq]
    · rw [hr] at h; exact absurd rfl h

/-- In the part after the sync, a run that returns at update.go:238 had a backup
when the swap began, and leaves the content of that backup at the live path. -/
theorem afterSync_swapFailed (force : Bool) (env : Env) (fs : FS) (old : GoString) (hs : Bool)
    (h : (performUpdate_afterSync force env fs old hs).outcome = Outcome.swapFailed) :
    ∃ pre data, (performUpdate_afterSync force env fs old hs).preSwap = some pre ∧
      pre Path.backupExe = some data ∧
      (performUpdate_afterSync force env fs old hs).fs Path.oldExe = some data := by
  rcases afterSync_cases force env fs old hs with ⟨-, hr⟩ | ⟨new, -, hr⟩
  · rw [hr] at h; cases h
  · rcases hr with ⟨-, -, hr⟩ | ⟨-, hr⟩ | ⟨-, c, rfl, ⟨-, hr⟩ | ⟨-, -, s, rfl, ⟨-, hr⟩ | ⟨-, hr⟩⟩
      | ⟨hc, -, r, rfl, ⟨hr1, r2, rfl, hr⟩ | ⟨-, d, -, hr⟩⟩⟩
    any_goals (rw [hr] at h; cases h)
    rw [hr]
    obtain ⟨data, hd1, hd2⟩ := copyFile_ok _ _ _ _ hc
    refine ⟨_, data, rfl, hd2, ?_⟩
    simp only []
    rw [osRename_fail _ _ _ _ hr1]
    cases hr2 : (osRename (copyFile env (goBuild env fs).2 Path.oldExe Path.backupExe).2.2
        Path.backupExe Path.oldExe env.restoreErr).1
    · rw [osRename_fail _ _ _ _ hr2, copyFile_fs _ _ _ _ _ (by decide), hd1]
    · obtain ⟨data2, he1, he2⟩ := osRename_ok _ _ _ _ hr2
      rw [he2]
      rw [hd2] at he1
      cases he1
      simp [Function.update_noteq]

@[simp] theorem rename_not_mem_copyFile (env : Env) (fs : FS) (s d a b : Path) (ok : Bool) :
    Event.rename a b ok ∉ (copyFile env fs s d).1 := by
  intro he
  rcases copyFile_events env fs s d _ he with ⟨x, h⟩ | ⟨x, h⟩ <;> cases h

@[simp] theorem remove_not_mem_copyFile (env : Env) (fs : FS) (s d a : Path) (ok : Bool) :
    Event.remove a ok ∉ (copyFile env fs s d).1 := by
  intro he
  rcases copyFile_events env fs s d _ he with ⟨x, h⟩ | ⟨x, h⟩ <;> cases h

@[simp] theorem rename_not_mem_scheduleReplacement (env : Env) (fs : FS) (x y z a b : Path)
    (ok : Bool) : Event.rename a b ok ∉ (scheduleReplacement env fs x y z).1 := by
  intro he
  rcases scheduleReplacement_events env fs x y z _ he with h | ⟨x, h⟩ | ⟨x, h⟩ <;> cases h

@[simp] theorem remove_not_mem_scheduleReplacement (env : Env) (fs : FS) (x y z a : Path)
    (ok : Bool) : Event.remove a ok ∉ (scheduleReplacement env fs x y z).1 := by
  intro he
  rcases scheduleReplacement_events env fs x y z _ he with h | ⟨x, h⟩ | ⟨x, h⟩ <;> cases h

/-- In the part after the sync, a failed rename of the candidate onto the live
path is followed by the return at update.go:238. -/
theorem afterSync_rename_false (force : Bool) (env : Env) (fs : FS) (old : GoString) (hs : Bool)
    (h : Event.rename Path.newExe Path.oldExe false
      ∈ (performUpdate_afterSync force env fs old hs).trace) :
    (performUpdate_afterSync force env fs old hs).outcome = Outcome.swapFailed := by
  rcases afterSync_cases force env fs old hs with ⟨-, hr⟩ | ⟨new, -, hr⟩
  · rw [hr] at h; simp at h
  · rcases hr with ⟨-, -, hr⟩ | ⟨-, hr⟩ | ⟨-, c, rfl, ⟨-, hr⟩ | ⟨-, -, s, rfl, ⟨-, hr⟩ | ⟨-, hr⟩⟩
      | ⟨hc, -, r, rfl, ⟨hr1, r2, rfl, hr⟩ | ⟨-, d, -, hr⟩⟩⟩
    all_goals rw [hr] at h ⊢
    all_goals cases hs <;> simp [buildEvents, popEvents, showChangelog] at h

/-- In the part after the sync, after a successful rename of the candidate onto
the live path the run completes: the live path holds what the staging path held
when the swap began, a removal of the backup has been attempted, and the backup
is gone if that removal succeeded and still there if it failed. -/
theorem afterSync_rename_true (force : Bool) (env : Env) (fs : FS) (old : GoString) (hs : Bool)
    (h : Event.rename Path.newExe Path.oldExe true
      ∈ (performUpdate_afterSync force env fs old hs).trace) :
    env.windows = false ∧
    (performUpdate_afterSync force env fs old hs).outcome = Outcome.completed ∧
    ∃ pre data, (performUpdate_afterSync force env fs old hs).preSwap = some pre ∧
      pre Path.newExe = some data ∧
      (performUpdate_afterSync force env fs old hs).fs Path.oldExe = some data ∧
      (∃ ok, Event.remove Path.backupExe ok
        ∈ (performUpdate_afterSync force env fs old hs).trace) ∧
      (Event.remove Path.backupExe true ∈ (performUpdate_afterSync force env fs old hs).trace →
        (performUpdate_afterSync force env fs old hs).fs Path.backupExe = none) ∧
      (Event.remove Path.backupExe false ∈ (performUpdate_afterSync force env fs old hs).trace →
        (performUpdate_afterSync force env fs old hs).fs Path.backupExe = pre Path.backupExe) := by
  rcases afterSync_cases force env fs old hs with ⟨-, hr⟩ | ⟨new, -, hr⟩
  · rw [hr] at h; simp at h
  · rcases hr with ⟨-, -, hr⟩ | ⟨-, hr⟩ | ⟨-, c, rfl, ⟨-, hr⟩ | ⟨-, -, s, rfl, ⟨-, hr⟩ | ⟨-, hr⟩⟩
      | ⟨hc, hw, r, rfl, ⟨hr1, r2, rfl, hr⟩ | ⟨hr1, d, hd, hr⟩⟩⟩
    all_goals first
      | (rw [hr] at h; cases hs <;> simp [buildEvents, popEvents, showChangelog] at h; done)
      | skip
    rw [hr]
    obtain ⟨data, hd1, hd2⟩ := osRename_ok _ _ _ _ hr1
    have hmem : ∀ ok, Event.remove Path.backupExe ok ∈ buildEvents env new
        ++ (copyFile env (goBuild env fs).2 Path.oldExe Path.backupExe).1
        ++ [Event.copyFile Path.oldExe Path.backupExe true]
        ++ [Event.rename Path.newExe Path.oldExe true, Event.remove Path.backupExe d.1]
        ++ popEvents env hs ++ showChangelog ↔ ok = d.1 := by
      intro ok
      cases hs <;> simp [buildEvents, popEvents, showChangelog]
    refine ⟨hw, rfl, _, data, rfl, hd1, ?_, ⟨d.1, (hmem _).2 rfl⟩, ?_, ?_⟩
    · simp only []
      cases hrm : d.1
      · rw [hd] at hrm ⊢
        rw [osRemove_fail _ _ _ hrm, hd2]
        simp [Function.update_noteq]
      · rw [hd] at hrm ⊢
        rw [osRemove_ok _ _ _ hrm, hd2]
        simp [Function.update_noteq]
    · intro hm
      have hrm := ((hmem _).1 hm).symm
      simp only []
      rw [hd] at hrm ⊢
      rw [osRemove_ok _ _ _ hrm]
      simp
    · intro hm
      have hrm := ((hmem _).1 hm).symm
      simp only []
      rw [hd] at hrm ⊢
      rw [osRemove_fail _ _ _ hrm, hd2]
      simp [Function.update_noteq]

theorem not_mem_copyFile (env : Env) (fs : FS) (s d : Path) (e : Event)
    (h : e.isFileOp = false) : e ∉ (copyFile env fs s d).1 := by
  intro he
  rcases copyFile_events env fs s d e he with ⟨ok, rfl⟩ | ⟨ok, rfl⟩ <;>
    simp [Event.isFileOp] at h

theorem not_mem_scheduleReplacement (env : Env) (fs : FS) (a b c : Path) (e : Event)
    (h : e.isScheduleStep = false) : e ∉ (scheduleReplacement env fs a b c).1 := by
  intro he
  rcases scheduleReplacement_events env fs a b c e he with rfl | ⟨ok, rfl⟩ | ⟨ok, rfl⟩ <;>
    simp [Event.isScheduleStep] at h

/-- In the part after the sync, a failed `go build` is followed by the conditional
stash pop and the return at update.go:208, with the file system as it was. -/
theorem afterSync_goBuild_false (force : Bool) (env : Env) (fs : FS) (old : GoString)
    (hs : Bool)
    (h : Event.goBuild false ∈ (performUpdate_afterSync force env fs old hs).trace) :
    ∃ new, performUpdate_afterSync force env fs old hs =
      { trace := [Event.readVersion new, Event.goModDownload (!env.modErr), Event.goBuild false]
          ++ popEvents env hs,
        fs := fs, outcome := Outcome.buildFailed, preSwap := none } := by
  rcases afterSync_cases force env fs old hs with ⟨-, hr⟩ | ⟨new, -, hr⟩
  · rw [hr] at h; simp at h
  · rcases hr with ⟨-, -, hr⟩ | ⟨hb, hr⟩ | ⟨hb, c, rfl, ⟨-, hr⟩ | ⟨-, -, s, rfl, ⟨-, hr⟩ | ⟨-, hr⟩⟩
      | ⟨hc, hw, r, rfl, ⟨hr1, r2, rfl, hr⟩ | ⟨hr1, d, hd, hr⟩⟩⟩
    · rw [hr] at h; cases hs <;> simp [popEvents] at h
    · exact ⟨new, by rw [hr]; simp [buildEvents, hb]⟩
    all_goals
      rw [hr] at h
      cases hs <;>
        simp [buildEvents, popEvents, showChangelog, hb, not_mem_copyFile,
          not_mem_scheduleReplacement, Event.isFileOp, Event.isScheduleStep] at h

/-- In the part after the sync, a failed `go mod download` is followed at once by
`go build`. -/
theorem afterSync_goModDownload_false (force : Bool) (env : Env) (fs : FS) (old : GoString)
    (hs : Bool)
    (h : Event.goModDownload false ∈ (performUpdate_afterSync force env fs old hs).trace) :
    ∃ new post, (performUpdate_afterSync force env fs old hs).trace =
      Event.readVersion new :: Event.goModDownload false :: Event.goBuild (!env.buildErr)
        :: post := by
  rcases afterSync_cases force env fs old hs with ⟨-, hr⟩ | ⟨new, -, hr⟩
  · rw [hr] at h; simp at h
  · have hm : ∀ X : List Event, Event.goModDownload false ∈ buildEvents env new ++ X →
        Event.goModDownload false ∉ X →
        buildEvents env new ++ X = Event.readVersion new :: Event.goModDownload false
          :: Event.goBuild (!env.buildErr) :: X := by
      intro X h1 h2
      rcases List.mem_append.1 h1 with h1 | h1
      · simp [buildEvents] at h1
        simp [buildEvents, h1]
      · exact absurd h1 h2
    rcases hr with ⟨-, -, hr⟩ | ⟨hb, hr⟩ | ⟨hb, c, rfl, ⟨-, hr⟩ | ⟨-, -, s, rfl, ⟨-, hr⟩ | ⟨-, hr⟩⟩
      | ⟨hc, hw, r, rfl, ⟨hr1, r2, rfl, hr⟩ | ⟨hr1, d, hd, hr⟩⟩⟩
    · rw [hr] at h; cases hs <;> simp [popEvents] at h
    all_goals
      rw [hr] at h ⊢
      simp only [List.append_assoc] at h ⊢
      refine ⟨new, _, hm _ h ?_⟩
      cases hs <;>
        simp [popEvents, showChangelog, not_mem_copyFile,
          not_mem_scheduleReplacement, Event.isFileOp, Event.isScheduleStep]

/-- What the version reads of a run say about its path: if the reads were two
and gave the same version, the run went through the sync and the part after it
took the skip path. -/
theorem trace_of_equal_versions (env : Env) (fs : FS) (v : GoString)
    (h : versionsRead (performUpdate false env fs).trace = [v, v]) :
    ∃ pre, (∀ e ∈ pre, e.isBuildStep = false ∧ e.isReplacementStep = false) ∧
      performUpdate false env fs =
        Run.after pre
          { trace := [Event.readVersion v]
              ++ (if hasStash env then [Event.gitStashPop (!env.popErr)] else []),
            fs := fs, outcome := Outcome.skipped, preSwap := none } := by
  have hsetup : ∀ e ∈ setupEvents env,
      e.isBuildStep = false ∧ e.isReplacementStep = false := by
    intro e he
    rcases setupEvents_mem env e he with rfl | ⟨b, rfl⟩ | ⟨b, rfl⟩ | ⟨b, rfl⟩ | ⟨b, rfl⟩ <;>
      simp [Event.isBuildStep, Event.isReplacementStep]
  have hsync : ∀ old, ∀ e ∈ syncEvents env old,
      e.isBuildStep = false ∧ e.isReplacementStep = false := by
    intro old e he
    simp [syncEvents] at he
    rcases he with rfl | rfl | rfl <;> simp [Event.isBuildStep, Event.isReplacementStep]
  have key : ∀ old pre, versionsRead pre = [old] →
      versionsRead (Run.after pre
        (performUpdate_afterSync false env fs old (hasStash env))).trace = [v, v] →
      Run.after pre (performUpdate_afterSync false env fs old (hasStash env)) =
        Run.after pre
          { trace := [Event.readVersion v]
              ++ (if hasStash env then [Event.gitStashPop (!env.popErr)] else []),
            fs := fs, outcome := Outcome.skipped, preSwap := none } := by
    intro old pre hpre hvv
    cases hv : getFileVersion env.versionAfter with
    | none =>
      rw [afterSync_panicked _ _ _ _ _ hv] at hvv
      simp [versionsRead_append, hpre, versionsRead] at hvv
    | some new =>
      rw [Run.after_trace, versionsRead_append, hpre, versionsRead_afterSync _ _ _ _ _ _ hv] at hvv
      simp at hvv
      obtain ⟨rfl, rfl⟩ := hvv
      rw [afterSync_skip _ _ _ _ hv]
  rcases performUpdate_cases false env fs with hr | hr | hr | ⟨old, -, hr | hr | hr | hr⟩
  · rw [hr] at h; simp [versionsRead] at h
  · rw [hr] at h; simp [versionsRead_append] at h
  · rw [hr] at h; simp at h
  · rw [hr.2.2] at h; simp [versionsRead_append] at h
  · rw [hr.2.2] at h; simp [versionsRead_append] at h
  · rw [hr.2.2] at h ⊢
    refine ⟨_, ?_, key old _ (by simp [versionsRead_append]) h⟩
    intro e he
    simp only [List.mem_append, List.mem_singleton] at he
    rcases he with (he | he) | rfl
    · exact hsetup e he
    · exact hsync old e he
    · simp [Event.isBuildStep, Event.isReplacementStep]
  · rw [hr.2] at h ⊢
    refine ⟨_, ?_, key old _ (by simp [versionsRead_append]) h⟩
    intro e he
    simp only [List.mem_append] at he
    rcases he with he | he
    · exact hsetup e he
    · exact hsync old e he

/-- C1. In every run of `performUpdate` with `force = false` whose two version
reads, before and after the sync, gave the same version, no build step
(`go mod download`, `go build`) and no replacement step (backup copy, rename,
removal, `scheduleReplacement`) is executed. -/
theorem skip_runs_no_build_no_replacement (env : Env) (fs : FS) (v : GoString)
    (h : versionsRead (performUpdate false env fs).trace = [v, v]) :
    ∀ e ∈ (performUpdate false env fs).trace,
      e.isBuildStep = false ∧ e.isReplacementStep = false := by
  obtain ⟨pre, hpre, hr⟩ := trace_of_equal_versions env fs v h
  rw [hr]
  intro e he
  simp only [Run.after_trace, List.mem_append, List.mem_singleton] at he
  rcases he with he | rfl | he
  · exact hpre e he
  · simp [Event.isBuildStep, Event.isReplacementStep]
  · split_ifs at he
    · simp at he
      subst he
      simp [Event.isBuildStep, Event.isReplacementStep]
    · simp at he

/-- C1, at a run whose pull brings no new version. -/
theorem skip_runs_no_build_no_replacement_witness :
    versionsRead (performUpdate false upToDateEnv sampleFS).trace
      = ["1.0.0".toList, "1.0.0".toList]
    ∧ ∀ e ∈ (performUpdate false upToDateEnv sampleFS).trace,
      e.isBuildStep = false ∧ e.isReplacementStep = false :=
  ⟨by decide, skip_runs_no_build_no_replacement upToDateEnv sampleFS "1.0.0".toList (by decide)⟩

/-- C2, the code at a failing input.  With local edits stashed (the flag of
update.go:138 is true) and a pull that fails without a conflict, `performUpdate`
returns at update.go:161 and its trace holds no `git stash pop`: the stash is
left unrestored, where the claim asks for exactly one restoration attempt. -/
theorem pull_failure_leaves_stash_unrestored :
    hasStash pullFailEnv = true
    ∧ (performUpdate false pullFailEnv sampleFS).outcome = Outcome.pullFailed
    ∧ stashPops (performUpdate false pullFailEnv sampleFS).trace = 0 := by
  decide

/-- In the part after the sync, a rename or a call of `scheduleReplacement` is
executed only with the backup in place: at update.go:222 the backup path holds
the bytes that were at the live path when the run began, and the live path
holds them still. -/
theorem afterSync_backup_in_place (force : Bool) (env : Env) (fs : FS) (old : GoString)
    (hs : Bool) (e : Event) (he : e ∈ (performUpdate_afterSync force env fs old hs).trace)
    (hswap : e.isSwap = true) :
    ∃ snap data, (performUpdate_afterSync force env fs old hs).preSwap = some snap
      ∧ fs Path.oldExe = some data ∧ snap Path.oldExe = some data
      ∧ snap Path.backupExe = some data := by
  have hsnap : (copyFile env (goBuild env fs).2 Path.oldExe Path.backupExe).2.1 = true →
      ∃ data, fs Path.oldExe = some data
        ∧ (copyFile env (goBuild env fs).2 Path.oldExe Path.backupExe).2.2 Path.oldExe
            = some data
        ∧ (copyFile env (goBuild env fs).2 Path.oldExe Path.backupExe).2.2 Path.backupExe
            = some data := by
    intro hok
    obtain ⟨data, h1, h2⟩ := copyFile_ok _ _ _ _ hok
    rw [goBuild_fs _ _ _ (by decide)] at h1
    refine ⟨data, h1, ?_, h2⟩
    rw [copyFile_fs _ _ _ _ _ (by decide), goBuild_fs _ _ _ (by decide)]
    exact h1
  have hc := copyFile_isSwap env (goBuild env fs).2 Path.oldExe Path.backupExe
  have hno : (∀ x ∈ (performUpdate_afterSync force env fs old hs).trace, x.isSwap = false) →
      ∃ snap data, (performUpdate_afterSync force env fs old hs).preSwap = some snap
        ∧ fs Path.oldExe = some data ∧ snap Path.oldExe = some data
        ∧ snap Path.backupExe = some data := by
    intro hall
    rw [hall e he] at hswap
    cases hswap
  rcases afterSync_cases force env fs old hs with ⟨-, hr⟩ | ⟨new, -, hr⟩
  · exact hno (by rw [hr]; simp)
  · rcases hr with ⟨-, -, hr⟩ | ⟨-, hr⟩ | ⟨-, c, rfl, ⟨-, hr⟩ | ⟨hok, -, s, -, ⟨-, hr⟩ | ⟨-, hr⟩⟩
      | ⟨hok, -, r, -, ⟨-, r2, -, hr⟩ | ⟨-, d, -, hr⟩⟩⟩
    · exact hno (by rw [hr]; cases hs <;> simp [popEvents, Event.isSwap])
    · exact hno (by rw [hr]; cases hs <;> simp [popEvents, buildEvents, Event.isSwap])
    · refine hno ?_
      rw [hr]
      intro x hx
      rcases List.mem_append.1 hx with hx | hx
      · rcases List.mem_append.1 hx with hx | hx
        · simp [buildEvents] at hx
          rcases hx with rfl | rfl | rfl <;> rfl
        · exact (hc x hx).1
      · simp at hx
        subst hx
        rfl
    all_goals
      obtain ⟨data, h1, h2, h3⟩ := hsnap hok
      rw [hr]
      exact ⟨_, data, rfl, h1, h2, h3⟩

/-- A rename or a call of `scheduleReplacement` in a run of `performUpdate` is
executed only with the backup in place. -/
theorem swap_has_backup (force : Bool) (env : Env) (fs : FS) (e : Event)
    (he : e ∈ (performUpdate force env fs).trace) (hswap : e.isSwap = true) :
    ∃ snap data, (performUpdate force env fs).preSwap = some snap
      ∧ fs Path.oldExe = some data ∧ snap Path.oldExe = some data
      ∧ snap Path.backupExe = some data := by
  rcases performUpdate_reach force env fs with ⟨-, -, -, hall⟩ | ⟨pre, hpre, -, hr⟩
    | ⟨pre, old, hpre, -, hr⟩
  · have := isSwap_of_isSyncStep e (hall e he)
    rw [hswap] at this
    cases this
  · rw [hr] at he
    rcases List.mem_append.1 he with he | he
    · have := isSwap_of_isSyncStep e (hpre e he)
      rw [hswap] at this
      cases this
    · rcases performSelfUpdate_mem env fs e he with rfl | ⟨b, rfl⟩ | ⟨b, rfl⟩ | ⟨b, rfl⟩
        | ⟨b, rfl⟩ | rfl <;> simp [Event.isSwap] at hswap
  · rw [hr] at he ⊢
    rcases List.mem_append.1 he with he | he
    · have := isSwap_of_isSyncStep e (hpre e he)
      rw [hswap] at this
      cases this
    · rw [Run.after_preSwap]
      exact afterSync_backup_in_place force env fs old (hasStash env) e he hswap

/-- C3. In every run of `performUpdate`: if the copy of the live executable to
the backup path fails, the run ends there (return at update.go:219) and its
trace holds no rename and no call of `scheduleReplacement`; and every rename or
call of `scheduleReplacement` in a trace comes after a successful backup copy,
which has left at the backup path the bytes of the live executable: in the file
system at update.go:222, before either replacement strategy starts, the backup
path and the live path both hold what the live path held when the run began. -/
theorem backup_failure_aborts_and_backup_precedes_swap (force : Bool) (env : Env) (fs : FS) :
    (Event.copyFile Path.oldExe Path.backupExe false ∈ (performUpdate force env fs).trace →
      (performUpdate force env fs).outcome = Outcome.backupFailed ∧
        ∀ e ∈ (performUpdate force env fs).trace, e.isSwap = false)
    ∧ (∀ pre e post, (performUpdate force env fs).trace = pre ++ e :: post →
        e.isSwap = true →
        Event.copyFile Path.oldExe Path.backupExe true ∈ pre
        ∧ ∃ snap data, (performUpdate force env fs).preSwap = some snap
            ∧ fs Path.oldExe = some data ∧ snap Path.oldExe = some data
            ∧ snap Path.backupExe = some data) := by
  have key : ((∀ e ∈ (performUpdate force env fs).trace, e.isSwap = false) ∧
        (Event.copyFile Path.oldExe Path.backupExe false ∈ (performUpdate force env fs).trace →
          (performUpdate force env fs).outcome = Outcome.backupFailed))
      ∨ (Event.copyFile Path.oldExe Path.backupExe false ∉ (performUpdate force env fs).trace ∧
          ∃ A B, (performUpdate force env fs).trace
              = A ++ Event.copyFile Path.oldExe Path.backupExe true :: B ∧
            ∀ e ∈ A, e.isSwap = false) := by
    rcases performUpdate_reach force env fs with ⟨-, -, -, hall⟩ | ⟨pre, hpre, -, hr⟩
      | ⟨pre, old, hpre, -, hr⟩
    · left
      refine ⟨fun e he => isSwap_of_isSyncStep e (hall e he), fun he => ?_⟩
      have := hall _ he
      simp [Event.isSyncStep] at this
    · left
      rw [hr]
      have hself : ∀ e ∈ (performSelfUpdate env fs).trace,
          e.isSwap = false ∧ e ≠ Event.copyFile Path.oldExe Path.backupExe false := by
        intro e he
        rcases performSelfUpdate_mem env fs e he with rfl | ⟨b, rfl⟩ | ⟨b, rfl⟩ | ⟨b, rfl⟩
          | ⟨b, rfl⟩ | rfl <;> simp [Event.isSwap]
      refine ⟨?_, fun he => ?_⟩
      · intro e he
        rcases List.mem_append.1 he with he | he
        · exact isSwap_of_isSyncStep e (hpre e he)
        · exact (hself e he).1
      · rcases List.mem_append.1 he with he | he
        · have := hpre _ he
          simp [Event.isSyncStep] at this
        · exact absurd rfl (hself _ he).2
    · rw [hr]
      have hnot : Event.copyFile Path.oldExe Path.backupExe false ∉ pre := by
        intro he
        have := hpre _ he
        simp [Event.isSyncStep] at this
      rcases afterSync_guard force env fs old (hasStash env) with ⟨h1, h2⟩ | ⟨h1, A, B, h2, h3⟩
      · left
        refine ⟨?_, fun he => ?_⟩
        · intro e he
          rcases List.mem_append.1 he with he | he
          · exact isSwap_of_isSyncStep e (hpre e he)
          · exact h1 e he
        · rcases List.mem_append.1 he with he | he
          · exact absurd he hnot
          · exact h2 he
      · right
        refine ⟨?_, pre ++ A, B, ?_, ?_⟩
        · intro he
          rcases List.mem_append.1 he with he | he
          · exact hnot he
          · exact h1 he
        · rw [Run.after_trace, h2, List.append_assoc]
        · intro e he
          rcases List.mem_append.1 he with he | he
          · exact isSwap_of_isSyncStep e (hpre e he)
          · exact h3 e he
  constructor
  · intro hfail
    rcases key with ⟨h1, h2⟩ | ⟨h1, -⟩
    · exact ⟨h2 hfail, h1⟩
    · exact absurd hfail h1
  · intro pre e post htr hswap
    refine ⟨?_, swap_has_backup force env fs e (by rw [htr]; simp) hswap⟩
    rcases key with ⟨h1, -⟩ | ⟨-, A, B, h2, h3⟩
    · have := h1 e (by rw [htr]; simp)
      rw [hswap] at this
      cases this
    · rw [h2] at htr
      rcases List.append_eq_append_iff.1 htr with ⟨a, ha, hb⟩ | ⟨c, ha, hb⟩
      · cases a with
        | nil =>
          simp at hb
          rw [← hb.1] at hswap
          simp [Event.isSwap] at hswap
        | cons x a =>
          simp at hb
          rw [ha, ← hb.1]
          simp
      · cases c with
        | nil =>
          simp at hb
          rw [hb.1] at hswap
          simp [Event.isSwap] at hswap
        | cons x c =>
          simp at hb
          have := h3 e (by rw [ha, hb.1]; simp)
          rw [hswap] at this
          cases this

/-- C3, at a run whose backup copy fails, at a run that swaps, and at a run on
Windows that enters `scheduleReplacement` and fails to write the helper
script. -/
theorem backup_failure_aborts_and_backup_precedes_swap_witness :
    (Event.copyFile Path.oldExe Path.backupExe false
        ∈ (performUpdate false backupFailEnv sampleFS).trace
      ∧ (performUpdate false backupFailEnv sampleFS).outcome = Outcome.backupFailed
      ∧ ∀ e ∈ (performUpdate false backupFailEnv sampleFS).trace, e.isSwap = false)
    ∧ (Event.copyFile Path.oldExe Path.backupExe true
        ∈ (performUpdate false sampleEnv sampleFS).trace.take 11
      ∧ ∃ snap data, (performUpdate false sampleEnv sampleFS).preSwap = some snap
          ∧ sampleFS Path.oldExe = some data ∧ snap Path.oldExe = some data
          ∧ snap Path.backupExe = some data)
    ∧ (Event.copyFile Path.oldExe Path.backupExe true
        ∈ (performUpdate false scriptWriteFailEnv sampleFS).trace.take 11
      ∧ ∃ snap data, (performUpdate false scriptWriteFailEnv sampleFS).preSwap = some snap
          ∧ sampleFS Path.oldExe = some data ∧ snap Path.oldExe = some data
          ∧ snap Path.backupExe = some data) :=
  ⟨⟨by decide,
    (backup_failure_aborts_and_backup_precedes_swap false backupFailEnv sampleFS).1 (by decide)⟩,
   (backup_failure_aborts_and_backup_precedes_swap false sampleEnv sampleFS).2
    ((performUpdate false sampleEnv sampleFS).trace.take 11)
    (Event.rename Path.newExe Path.oldExe true)
    ((performUpdate false sampleEnv sampleFS).trace.drop 12) (by decide) (by decide),
   (backup_failure_aborts_and_backup_precedes_swap false scriptWriteFailEnv sampleFS).2
    ((performUpdate false scriptWriteFailEnv sampleFS).trace.take 11)
    Event.scheduleReplacement
    ((performUpdate false scriptWriteFailEnv sampleFS).trace.drop 12) (by decide) (by decide)⟩

/-- A rename in a trace of `performUpdate` is a step of the part after the sync. -/
theorem rename_mem_performUpdate (force : Bool) (env : Env) (fs : FS) (a b : Path) (ok : Bool)
    (h : Event.rename a b ok ∈ (performUpdate force env fs).trace) :
    ∃ pre old, (∀ e ∈ pre, e.isSyncStep = true) ∧
      performUpdate force env fs
        = Run.after pre (performUpdate_afterSync force env fs old (hasStash env)) ∧
      Event.rename a b ok ∈ (performUpdate_afterSync force env fs old (hasStash env)).trace := by
  rcases performUpdate_reach force env fs with ⟨-, -, -, hall⟩ | ⟨pre, hpre, -, hr⟩
    | ⟨pre, old, hpre, -, hr⟩
  · have := hall _ h
    simp [Event.isSyncStep] at this
  · rw [hr] at h
    rcases List.mem_append.1 h with he | he
    · have := hpre _ he
      simp [Event.isSyncStep] at this
    · rcases performSelfUpdate_mem env fs _ he with h | ⟨b, h⟩ | ⟨b, h⟩ | ⟨b, h⟩
        | ⟨b, h⟩ | h <;> cases h
  · refine ⟨pre, old, hpre, hr, ?_⟩
    rw [hr] at h
    rcases List.mem_append.1 h with he | he
    · have := hpre _ he
      simp [Event.isSyncStep] at this
    · exact he

/-- C4. In every run of `performUpdate` that starts with the original
executable at the live path and ends in a failure (any return statement other
than the skip and the completion), the live path still holds the original
executable or the backup path holds a copy of it when `performUpdate` returns
(`os.Rename` is atomic: a failed rename changes nothing). -/
theorem failure_keeps_original_or_backup (force : Bool) (env : Env) (fs : FS) (orig : GoString)
    (h0 : fs Path.oldExe = some orig)
    (hfail : (performUpdate force env fs).outcome.isFailure = true) :
    (performUpdate force env fs).fs Path.oldExe = some orig
      ∨ (performUpdate force env fs).fs Path.backupExe = some orig := by
  left
  rcases performUpdate_reach force env fs with ⟨hfs, -, -, -⟩ | ⟨pre, -, -, hr⟩
    | ⟨pre, old, -, -, hr⟩
  · rw [hfs, h0]
  · rw [hr, Run.after_fs, performSelfUpdate_fs _ _ _ (by decide) (by decide), h0]
  · rw [hr] at hfail ⊢
    rw [Run.after_fs, afterSync_live, h0]
    intro hc
    rw [Run.after_outcome, hc] at hfail
    simp [Outcome.isFailure] at hfail

/-- C4, at a run in which the swap and the restoring rename both fail, and at a
run on Windows in which the write of the helper script fails after the backup
copy succeeded (return at update.go:226). -/
theorem failure_keeps_original_or_backup_witness :
    ((performUpdate false renameFailEnv sampleFS).outcome = Outcome.swapFailed
      ∧ ((performUpdate false renameFailEnv sampleFS).fs Path.oldExe = some "OLD-EXE".toList
        ∨ (performUpdate false renameFailEnv sampleFS).fs Path.backupExe
          = some "OLD-EXE".toList))
    ∧ ((performUpdate false scriptWriteFailEnv sampleFS).outcome = Outcome.scheduleFailed
      ∧ Event.copyFile Path.oldExe Path.backupExe true
          ∈ (performUpdate false scriptWriteFailEnv sampleFS).trace
      ∧ Event.writeFile Path.batchFile false
          ∈ (performUpdate false scriptWriteFailEnv sampleFS).trace
      ∧ ((performUpdate false scriptWriteFailEnv sampleFS).fs Path.oldExe
          = some "OLD-EXE".toList
        ∨ (performUpdate false scriptWriteFailEnv sampleFS).fs Path.backupExe
          = some "OLD-EXE".toList)) :=
  ⟨⟨by decide,
    failure_keeps_original_or_backup false renameFailEnv sampleFS "OLD-EXE".toList
      (by decide) (by decide)⟩,
   ⟨by decide, by decide, by decide,
    failure_keeps_original_or_backup false scriptWriteFailEnv sampleFS "OLD-EXE".toList
      (by decide) (by decide)⟩⟩

/-- C5. In every run of `performUpdate` in which the rename of the candidate onto
the live path fails (the Immediate strategy, update.go:234), a backup existed
when the swap began, and the content of the live path when `performUpdate`
returns equals the content that backup held, byte for byte. -/
theorem failed_swap_leaves_backup_content_live (force : Bool) (env : Env) (fs : FS)
    (h : Event.rename Path.newExe Path.oldExe false ∈ (performUpdate force env fs).trace) :
    env.windows = false ∧
    ∃ pre data, (performUpdate force env fs).preSwap = some pre ∧
      pre Path.backupExe = some data ∧
      (performUpdate force env fs).fs Path.oldExe = some data := by
  obtain ⟨tr, old, -, hr, hmem⟩ := rename_mem_performUpdate force env fs _ _ _ h
  have hout := afterSync_rename_false force env fs old (hasStash env) hmem
  obtain ⟨pre, data, h1, h2, h3⟩ := afterSync_swapFailed force env fs old (hasStash env) hout
  refine ⟨?_, pre, data, by rw [hr, Run.after_preSwap, h1], h2, by rw [hr, Run.after_fs, h3]⟩
  rcases afterSync_cases force env fs old (hasStash env) with ⟨-, hc⟩ | ⟨new, -, hc⟩
  · rw [hc] at hout; cases hout
  · rcases hc with ⟨-, -, hc⟩ | ⟨-, hc⟩ | ⟨-, c, -, ⟨-, hc⟩ | ⟨-, -, s, -, ⟨-, hc⟩ | ⟨-, hc⟩⟩
      | ⟨-, hw, r, -, ⟨-, r2, -, hc⟩ | ⟨-, d, -, hc⟩⟩⟩
    all_goals first
      | exact hw
      | (rw [hc] at hout; cases hout)

/-- C5, at a run in which the swap fails and the restoring rename succeeds. -/
theorem failed_swap_leaves_backup_content_live_witness :
    Event.rename Path.newExe Path.oldExe false ∈ (performUpdate false swapFailEnv sampleFS).trace
    ∧ swapFailEnv.windows = false
    ∧ ∃ pre data, (performUpdate false swapFailEnv sampleFS).preSwap = some pre ∧
      pre Path.backupExe = some data ∧
      (performUpdate false swapFailEnv sampleFS).fs Path.oldExe = some data :=
  ⟨by decide, failed_swap_leaves_backup_content_live false swapFailEnv sampleFS (by decide)⟩

/-- C6 as stated fails.  In a run on the Immediate strategy whose rename of the
candidate onto the live path succeeds and whose `os.Remove(backupExe)` fails, the
backup is still at its path when `performUpdate` returns. -/
theorem backup_remains_when_removal_fails :
    removeFailEnv.windows = false
    ∧ Event.rename Path.newExe Path.oldExe true
        ∈ (performUpdate false removeFailEnv sampleFS).trace
    ∧ (performUpdate false removeFailEnv sampleFS).outcome = Outcome.completed
    ∧ (performUpdate false removeFailEnv sampleFS).fs Path.oldExe = some "NEW-EXE".toList
    ∧ (performUpdate false removeFailEnv sampleFS).fs Path.backupExe
        = some "OLD-EXE".toList := by
  decide

/-- C6, amended.  In every run of `performUpdate` in which the rename of the
candidate onto the live path succeeds (the Immediate strategy), the run
completes, the live path holds the content the candidate had when the swap
began, and `os.Remove(backupExe)` has been called; the backup path no longer
exists when `performUpdate` returns if that call succeeded, and still holds the
backup if it failed. -/
theorem successful_swap_installs_candidate (force : Bool) (env : Env) (fs : FS)
    (h : Event.rename Path.newExe Path.oldExe true ∈ (performUpdate force env fs).trace) :
    env.windows = false ∧
    (performUpdate force env fs).outcome = Outcome.completed ∧
    ∃ pre data, (performUpdate force env fs).preSwap = some pre ∧
      pre Path.newExe = some data ∧
      (performUpdate force env fs).fs Path.oldExe = some data ∧
      (∃ ok, Event.remove Path.backupExe ok ∈ (performUpdate force env fs).trace) ∧
      (Event.remove Path.backupExe true ∈ (performUpdate force env fs).trace →
        (performUpdate force env fs).fs Path.backupExe = none) ∧
      (Event.remove Path.backupExe false ∈ (performUpdate force env fs).trace →
        (performUpdate force env fs).fs Path.backupExe = pre Path.backupExe) := by
  obtain ⟨tr, old, htr, hr, hmem⟩ := rename_mem_performUpdate force env fs _ _ _ h
  obtain ⟨hw, hout, pre, data, h1, h2, h3, ⟨ok, h4⟩, h5, h6⟩ :=
    afterSync_rename_true force env fs old (hasStash env) hmem
  have hlift : ∀ ok, Event.remove Path.backupExe ok ∈ (performUpdate force env fs).trace →
      Event.remove Path.backupExe ok
        ∈ (performUpdate_afterSync force env fs old (hasStash env)).trace := by
    intro ok hm
    rw [hr] at hm
    rcases List.mem_append.1 hm with he | he
    · have := htr _ he
      simp [Event.isSyncStep] at this
    · exact he
  rw [hr]
  refine ⟨hw, hout, pre, data, h1, h2, h3, ⟨ok, List.mem_append.2 (Or.inr h4)⟩, ?_, ?_⟩
  · intro hm
    exact h5 (hlift _ (hr ▸ hm))
  · intro hm
    exact h6 (hlift _ (hr ▸ hm))

/-- C6 amended, at a run that swaps and removes the backup. -/
theorem successful_swap_installs_candidate_witness :
    Event.rename Path.newExe Path.oldExe true ∈ (performUpdate false sampleEnv sampleFS).trace
    ∧ sampleEnv.windows = false
    ∧ (performUpdate false sampleEnv sampleFS).outcome = Outcome.completed
    ∧ ∃ pre data, (performUpdate false sampleEnv sampleFS).preSwap = some pre ∧
      pre Path.newExe = some data ∧
      (performUpdate false sampleEnv sampleFS).fs Path.oldExe = some data ∧
      (∃ ok, Event.remove Path.backupExe ok ∈ (performUpdate false sampleEnv sampleFS).trace) ∧
      (Event.remove Path.backupExe true ∈ (performUpdate false sampleEnv sampleFS).trace →
        (performUpdate false sampleEnv sampleFS).fs Path.backupExe = none) ∧
      (Event.remove Path.backupExe false ∈ (performUpdate false sampleEnv sampleFS).trace →
        (performUpdate false sampleEnv sampleFS).fs Path.backupExe = pre Path.backupExe) :=
  ⟨by decide, successful_swap_installs_candidate false sampleEnv sampleFS (by decide)⟩

theorem popEvents_mem (env : Env) (hs : Bool) (e : Event) (h : e ∈ popEvents env hs) :
    e = Event.gitStashPop (!env.popErr) := by
  cases hs <;> simp [popEvents] at h
  exact h

theorem buildFailed_trace_mem (env : Env) (new : GoString) (hs : Bool) (e : Event)
    (h : e ∈ [Event.readVersion new, Event.goModDownload (!env.modErr), Event.goBuild false]
      ++ popEvents env hs) :
    e.isBackupOrSwap = false ∧ ∀ ok out, e ≠ Event.gitStashSave ok out := by
  rcases List.mem_append.1 h with he | he
  · simp at he
    rcases he with rfl | rfl | rfl <;> simp [Event.isBackupOrSwap]
  · rw [popEvents_mem env hs e he]
    simp [Event.isBackupOrSwap]

theorem isBackupOrSwap_of_isSyncStep (e : Event) (h : e.isSyncStep = true) :
    e.isBackupOrSwap = false := by
  cases e <;> simp_all [Event.isSyncStep, Event.isBackupOrSwap]

/-- The two ways a trace of `performUpdate` can hold a failed `go build`: in the
self-update fallback, before any stash, or at update.go:197, followed by the
conditional stash pop and the return at :208. -/
theorem build_failure_shape (force : Bool) (env : Env) (fs : FS)
    (h : Event.goBuild false ∈ (performUpdate force env fs).trace) :
    (∃ pre, (∀ e ∈ pre, e.isSyncStep = true) ∧ (∀ ok out, Event.gitStashSave ok out ∉ pre) ∧
      performUpdate force env fs = Run.after pre (performSelfUpdate env fs))
    ∨ (∃ pre new, (∀ e ∈ pre, e.isSyncStep = true) ∧
      (∀ ok out, Event.gitStashSave ok out ∈ pre → out = env.stashOutput) ∧
      performUpdate force env fs = Run.after pre
        { trace := [Event.readVersion new, Event.goModDownload (!env.modErr),
            Event.goBuild false] ++ popEvents env (hasStash env),
          fs := fs, outcome := Outcome.buildFailed, preSwap := none }) := by
  rcases performUpdate_reach force env fs with ⟨-, -, -, hall⟩ | ⟨pre, hpre, hst, hr⟩
    | ⟨pre, old, hpre, hst, hr⟩
  · have := hall _ h
    simp [Event.isSyncStep] at this
  · exact Or.inl ⟨pre, hpre, hst, hr⟩
  · right
    rw [hr] at h
    have hmem : Event.goBuild false
        ∈ (performUpdate_afterSync force env fs old (hasStash env)).trace := by
      rcases List.mem_append.1 h with he | he
      · have := hpre _ he
        simp [Event.isSyncStep] at this
      · exact he
    obtain ⟨new, hnew⟩ := afterSync_goBuild_false force env fs old (hasStash env) hmem
    exact ⟨pre, new, hpre, hst, by rw [hr, hnew]⟩

/-- C7. In every run of `performUpdate` in which `go build` exits with an error,
no backup copy, no rename and no call of `scheduleReplacement` is executed, the
live path and the backup path hold what they held before the run, and if a
stash was created (the `git stash save` of the run did not report "No local
changes") a `git stash pop` is executed. -/
theorem build_failure_leaves_live_untouched (force : Bool) (env : Env) (fs : FS)
    (h : Event.goBuild false ∈ (performUpdate force env fs).trace) :
    (∀ e ∈ (performUpdate force env fs).trace, e.isBackupOrSwap = false)
    ∧ (performUpdate force env fs).fs Path.oldExe = fs Path.oldExe
    ∧ (performUpdate force env fs).fs Path.backupExe = fs Path.backupExe
    ∧ (∀ ok out, Event.gitStashSave ok out ∈ (performUpdate force env fs).trace →
        Contains out "No local changes".toList = false →
        ∃ ok2, Event.gitStashPop ok2 ∈ (performUpdate force env fs).trace) := by
  rcases build_failure_shape force env fs h with ⟨pre, hpre, hst, hr⟩ | ⟨pre, new, hpre, hst, hr⟩
  · rw [hr]
    refine ⟨?_, ?_, ?_, ?_⟩
    · intro e he
      rcases List.mem_append.1 he with he | he
      · exact isBackupOrSwap_of_isSyncStep e (hpre e he)
      · rcases performSelfUpdate_mem env fs e he with rfl | ⟨b, rfl⟩ | ⟨b, rfl⟩ | ⟨b, rfl⟩
          | ⟨b, rfl⟩ | rfl <;> rfl
    · exact performSelfUpdate_fs env fs _ (by decide) (by decide)
    · exact performSelfUpdate_fs env fs _ (by decide) (by decide)
    · intro ok out he
      rcases List.mem_append.1 he with he | he
      · exact absurd he (hst ok out)
      · rcases performSelfUpdate_mem env fs _ he with h | ⟨b, h⟩ | ⟨b, h⟩ | ⟨b, h⟩
          | ⟨b, h⟩ | h <;> cases h
  · rw [hr]
    refine ⟨?_, rfl, rfl, ?_⟩
    · intro e he
      rcases List.mem_append.1 he with he | he
      · exact isBackupOrSwap_of_isSyncStep e (hpre e he)
      · exact (buildFailed_trace_mem env new _ e he).1
    · intro ok out he hno
      have hout : out = env.stashOutput := by
        rcases List.mem_append.1 he with he | he
        · exact hst ok out he
        · exact absurd rfl ((buildFailed_trace_mem env new _ _ he).2 ok out)
      have hflag : hasStash env = true := by
        unfold hasStash
        rw [← hout, hno]
        rfl
      exact ⟨!env.popErr, by simp [hflag, popEvents]⟩

/-- C7, at a run with a stash whose compile step fails. -/
theorem build_failure_leaves_live_untouched_witness :
    Event.goBuild false ∈ (performUpdate false buildFailEnv sampleFS).trace
    ∧ (∀ e ∈ (performUpdate false buildFailEnv sampleFS).trace, e.isBackupOrSwap = false)
    ∧ (performUpdate false buildFailEnv sampleFS).fs Path.oldExe = sampleFS Path.oldExe
    ∧ (performUpdate false buildFailEnv sampleFS).fs Path.backupExe = sampleFS Path.backupExe
    ∧ (∀ ok out, Event.gitStashSave ok out ∈ (performUpdate false buildFailEnv sampleFS).trace →
        Contains out "No local changes".toList = false →
        ∃ ok2, Event.gitStashPop ok2 ∈ (performUpdate false buildFailEnv sampleFS).trace) :=
  ⟨by decide, build_failure_leaves_live_untouched false buildFailEnv sampleFS (by decide)⟩

/-- C8, the code at a failing input.  In a run whose `go mod download` exits with
an error and whose other steps succeed, the error is printed (update.go:187)
and nothing returns: `go build` is executed all the same, the candidate is
renamed onto the live path and the run completes. -/
theorem failed_dependency_fetch_still_builds_and_swaps :
    Event.goModDownload false ∈ (performUpdate false modFailEnv sampleFS).trace
    ∧ Event.goBuild true ∈ (performUpdate false modFailEnv sampleFS).trace
    ∧ Event.rename Path.newExe Path.oldExe true ∈ (performUpdate false modFailEnv sampleFS).trace
    ∧ (performUpdate false modFailEnv sampleFS).outcome = Outcome.completed
    ∧ (performUpdate false modFailEnv sampleFS).fs Path.oldExe = some "NEW-EXE".toList := by
  decide

/-- In every run of `performUpdate` in which `go mod download` exits with an
error, the run goes on: `go build` is the next step.  If that compile step
fails, the run returns at update.go:208: no backup copy, rename or call of
`scheduleReplacement` is executed, and a `git stash pop` is executed if the
stash flag is set. -/
theorem failed_dependency_fetch_goes_on_to_build (force : Bool) (env : Env) (fs : FS)
    (h : Event.goModDownload false ∈ (performUpdate force env fs).trace) :
    (∃ pre post, (performUpdate force env fs).trace
      = pre ++ Event.goModDownload false :: Event.goBuild (!env.buildErr) :: post)
    ∧ (Event.goBuild false ∈ (performUpdate force env fs).trace →
      (performUpdate force env fs).outcome = Outcome.buildFailed
      ∧ (∀ e ∈ (performUpdate force env fs).trace, e.isBackupOrSwap = false)
      ∧ (hasStash env = true →
          ∃ ok, Event.gitStashPop ok ∈ (performUpdate force env fs).trace)) := by
  have hnotself : ∀ pre, (∀ e ∈ pre, e.isSyncStep = true) →
      Event.goModDownload false ∉ pre ++ (performSelfUpdate env fs).trace := by
    intro pre hpre he
    rcases List.mem_append.1 he with he | he
    · have := hpre _ he
      simp [Event.isSyncStep] at this
    · rcases performSelfUpdate_mem env fs _ he with h | ⟨b, h⟩ | ⟨b, h⟩ | ⟨b, h⟩
        | ⟨b, h⟩ | h <;> cases h
  constructor
  · rcases performUpdate_reach force env fs with ⟨-, -, -, hall⟩ | ⟨pre, hpre, -, hr⟩
      | ⟨pre, old, hpre, -, hr⟩
    · have := hall _ h
      simp [Event.isSyncStep] at this
    · rw [hr] at h
      exact absurd h (hnotself pre hpre)
    · rw [hr] at h ⊢
      have hmem : Event.goModDownload false
          ∈ (performUpdate_afterSync force env fs old (hasStash env)).trace := by
        rcases List.mem_append.1 h with he | he
        · have := hpre _ he
          simp [Event.isSyncStep] at this
        · exact he
      obtain ⟨new, post, hnew⟩ :=
        afterSync_goModDownload_false force env fs old (hasStash env) hmem
      refine ⟨pre ++ [Event.readVersion new], post, ?_⟩
      rw [Run.after_trace, hnew]
      simp
  · intro hb
    rcases build_failure_shape force env fs hb with ⟨pre, hpre, -, hr⟩ | ⟨pre, new, hpre, -, hr⟩
    · rw [hr] at h
      exact absurd h (hnotself pre hpre)
    · rw [hr]
      refine ⟨rfl, ?_, ?_⟩
      · intro e he
        rcases List.mem_append.1 he with he | he
        · exact isBackupOrSwap_of_isSyncStep e (hpre e he)
        · exact (buildFailed_trace_mem env new _ e he).1
      · intro hflag
        exact ⟨!env.popErr, by simp [hflag, popEvents]⟩

/-- The step after a failed `go mod download`, at a run whose dependency fetch
and compile step both fail. -/
theorem failed_dependency_fetch_goes_on_to_build_witness :
    Event.goModDownload false ∈ (performUpdate false modBuildFailEnv sampleFS).trace
    ∧ (∃ pre post, (performUpdate false modBuildFailEnv sampleFS).trace
      = pre ++ Event.goModDownload false :: Event.goBuild (!modBuildFailEnv.buildErr) :: post)
    ∧ (Event.goBuild false ∈ (performUpdate false modBuildFailEnv sampleFS).trace →
      (performUpdate false modBuildFailEnv sampleFS).outcome = Outcome.buildFailed
      ∧ (∀ e ∈ (performUpdate false modBuildFailEnv sampleFS).trace, e.isBackupOrSwap = false)
      ∧ (hasStash modBuildFailEnv = true →
          ∃ ok, Event.gitStashPop ok ∈ (performUpdate false modBuildFailEnv sampleFS).trace)) :=
  ⟨by decide,
   failed_dependency_fetch_goes_on_to_build false modBuildFailEnv sampleFS (by decide)⟩

theorem Split_cons (c : Char) (s : GoString) (sep : Char) :
    Split (c :: s) sep =
      if c = sep then [] :: Split s sep
      else
        match Split s sep with
        | [] => [[c]]
        | p :: ps => (c :: p) :: ps := by
  rw [Split]

theorem scanLines_cons (line : GoString) (rest : List GoString) :
    scanLines (line :: rest) =
      if Contains line "Version".toList && Contains line "=".toList then
        if (Split line '"').length ≥ 2 then (Split line '"')[1]? else scanLines rest
      else scanLines rest := by
  rw [scanLines]

theorem Split_of_not_mem (s : GoString) (sep : Char) (h : sep ∉ s) : Split s sep = [s] := by
  induction s with
  | nil => rfl
  | cons c s ih =>
    have hc : c ≠ sep := fun hc => h (by simp [hc])
    have hs : sep ∉ s := fun hs => h (List.mem_cons_of_mem _ hs)
    rw [Split_cons, if_neg hc, ih hs]

theorem Split_append_sep (a b : GoString) (sep : Char) (h : sep ∉ a) :
    Split (a ++ sep :: b) sep = a :: Split b sep := by
  induction a with
  | nil => simp [Split_cons]
  | cons c a ih =>
    have hc : c ≠ sep := fun hc => h (by simp [hc])
    have hs : sep ∉ a := fun hs => h (List.mem_cons_of_mem _ hs)
    rw [List.cons_append, Split_cons, if_neg hc, ih hs]

theorem Contains_append (a sub b : GoString) : Contains (a ++ sub ++ b) sub = true := by
  induction a with
  | nil =>
    cases hsb : [] ++ sub ++ b with
    | nil =>
      have : sub = [] := by
        simp at hsb
        exact hsb.1
      simp [Contains, this]
    | cons c s =>
      unfold Contains
      rw [← hsb]
      simp
  | cons c a ih =>
    rw [List.cons_append, List.cons_append]
    unfold Contains
    rw [ih]
    simp

/-- The loop skips the lines that do not hold all of "Version", "=" and a double
quote. -/
theorem scanLines_skip (before rest : List GoString)
    (h : ∀ l ∈ before, ¬ (Contains l "Version".toList = true ∧ Contains l "=".toList = true
      ∧ '"' ∈ l)) :
    scanLines (before ++ rest) = scanLines rest := by
  induction before with
  | nil => rfl
  | cons l before ih =>
    have hl := h l (List.mem_cons_self _ _)
    have ih2 := ih (fun x hx => h x (List.mem_cons_of_mem _ hx))
    rw [List.cons_append, scanLines_cons]
    by_cases hc : (Contains l "Version".toList && Contains l "=".toList) = true
    · rw [if_pos hc]
      have hq : '"' ∉ l := by
        intro hq
        simp only [Bool.and_eq_true] at hc
        exact hl ⟨hc.1, hc.2, hq⟩
      rw [Split_of_not_mem l '"' hq, if_neg (by simp)]
      exact ih2
    · rw [if_neg hc]
      exact ih2

/-- The loop never indexes out of range: it yields a string for every list of
lines. -/
theorem scanLines_returns (lines : List GoString) : ∃ v, scanLines lines = some v := by
  induction lines with
  | nil => exact ⟨unknown, rfl⟩
  | cons l rest ih =>
    rw [scanLines_cons]
    by_cases h1 : (Contains l "Version".toList && Contains l "=".toList) = true
    · rw [if_pos h1]
      by_cases h2 : (Split l '"').length ≥ 2
      · rw [if_pos h2]
        have h3 : 1 < (Split l '"').length := h2
        exact ⟨(Split l '"')[1], List.getElem?_eq_getElem h3⟩
      · rw [if_neg h2]
        exact ih
    · rw [if_neg h1]
      exact ih

/-- C9. `getFileVersion` returns "unknown" when the file is missing or cannot be
read, and it returns a string for every input: no read result and no file
content makes the index expression `parts[1]` panic. -/
theorem getFileVersion_never_fails :
    getFileVersion none = some "unknown".toList
    ∧ ∀ readResult : Option GoString, ∃ v, getFileVersion readResult = some v := by
  refine ⟨rfl, fun readResult => ?_⟩
  cases readResult with
  | none => exact ⟨unknown, rfl⟩
  | some content => exact scanLines_returns (Split content '\n')

/-- C10 as stated fails.  The first file holds the assignment line
`const Version = "1.2.0"`, and `getFileVersion` returns the quoted text of the
comment line before it, which also holds "Version", "=" and a double quote.  The
second file holds the assignment after another quoted literal on the same line,
and `getFileVersion` returns that literal. -/
theorem earlier_line_shadows_assignment :
    ("const ".toList ++ "Version = \"".toList ++ "1.2.0".toList ++ "\"".toList
        ∈ Split commentedVersionFile '\n'
      ∧ '"' ∉ "1.2.0".toList ∧ '\n' ∉ "1.2.0".toList
      ∧ getFileVersion (some commentedVersionFile) = some "MAJOR.MINOR.PATCH".toList
      ∧ getFileVersion (some commentedVersionFile) ≠ some "1.2.0".toList)
    ∧ ("const Name = \"tools\"; const ".toList ++ "Version = \"".toList ++ "1.2.0".toList
          ++ "\"".toList ∈ Split sameLineVersionFile '\n'
      ∧ getFileVersion (some sameLineVersionFile) = some "tools".toList
      ∧ getFileVersion (some sameLineVersionFile) ≠ some "1.2.0".toList) := by
  decide

/-- C10, amended.  For every readable file content with an assignment line of
the form `Version = "v"` (no double quote in `v`), if no double quote comes
before the assignment on its line and no earlier line holds "Version", "=" and a
double quote together, `getFileVersion` returns `v`. -/
theorem getFileVersion_first_assignment (content : GoString) (before after : List GoString)
    (pre v post : GoString)
    (hlines : Split content '\n'
      = before ++ (pre ++ "Version = \"".toList ++ v ++ "\"".toList ++ post) :: after)
    (hbefore : ∀ l ∈ before, ¬ (Contains l "Version".toList = true
      ∧ Contains l "=".toList = true ∧ '"' ∈ l))
    (hpre : '"' ∉ pre) (hv : '"' ∉ v) :
    getFileVersion (some content) = some v := by
  have hV : Contains (pre ++ "Version = \"".toList ++ v ++ "\"".toList ++ post)
      "Version".toList = true := by
    have : pre ++ "Version = \"".toList ++ v ++ "\"".toList ++ post
        = pre ++ "Version".toList ++ (" = \"".toList ++ v ++ "\"".toList ++ post) := by
      have hl : "Version = \"".toList = "Version".toList ++ " = \"".toList := by decide
      rw [hl]
      simp only [List.append_assoc]
    rw [this]
    exact Contains_append _ _ _
  have hE : Contains (pre ++ "Version = \"".toList ++ v ++ "\"".toList ++ post)
      "=".toList = true := by
    have : pre ++ "Version = \"".toList ++ v ++ "\"".toList ++ post
        = (pre ++ "Version ".toList) ++ "=".toList ++ (" \"".toList ++ v ++ "\"".toList ++ post) := by
      have hl : "Version = \"".toList = "Version ".toList ++ "=".toList ++ " \"".toList := by
        decide
      rw [hl]
      simp only [List.append_assoc]
    rw [this]
    exact Contains_append _ _ _
  have hS : Split (pre ++ "Version = \"".toList ++ v ++ "\"".toList ++ post) '"'
      = (pre ++ "Version = ".toList) :: v :: Split post '"' := by
    have : pre ++ "Version = \"".toList ++ v ++ "\"".toList ++ post
        = (pre ++ "Version = ".toList) ++ '"' :: (v ++ '"' :: post) := by
      have hl : "Version = \"".toList = "Version = ".toList ++ ['"'] := by decide
      have hq : "\"".toList = ['"'] := by decide
      rw [hl, hq]
      simp only [List.append_assoc, List.singleton_append, List.cons_append, List.nil_append]
    rw [this, Split_append_sep, Split_append_sep _ _ _ hv]
    intro hmem
    rcases List.mem_append.1 hmem with hm | hm
    · exact hpre hm
    · revert hm
      decide
  unfold getFileVersion
  simp only []
  rw [hlines, scanLines_skip before _ hbefore, scanLines_cons, hV, hE, hS]
  simp

/-- C10 amended, at a version file with one assignment line. -/
theorem getFileVersion_first_assignment_witness :
    getFileVersion (some "package main\n\nconst Version = \"1.0.0\"\n".toList)
      = some "1.0.0".toList :=
  getFileVersion_first_assignment "package main\n\nconst Version = \"1.0.0\"\n".toList
    ["package main".toList, []] [[]] "const ".toList "1.0.0".toList []
    (by decide) (by decide) (by decide) (by decide)

/-- C11 as stated fails.  No line of the file is an assignment of the form
`Version = "<value>"`, and `getFileVersion` returns the quoted text of the
comment line, which holds "Version", "=" and a double quote, not "unknown". -/
theorem quoted_comment_is_taken_for_version :
    (¬ ∃ line ∈ Split commentOnlyVersionFile '\n', ∃ pre v post : GoString,
        line = pre ++ "Version = \"".toList ++ v ++ "\"".toList ++ post)
    ∧ getFileVersion (some commentOnlyVersionFile) = some "MAJOR.MINOR.PATCH".toList
    ∧ getFileVersion (some commentOnlyVersionFile) ≠ some "unknown".toList := by
  refine ⟨?_, by decide, by decide⟩
  rintro ⟨line, hl, pre, v, post, h⟩
  have hall : ∀ l ∈ Split commentOnlyVersionFile '\n',
      Contains l "Version = \"".toList = false := by decide
  have hc : Contains line "Version = \"".toList = true := by
    rw [h, show pre ++ "Version = \"".toList ++ v ++ "\"".toList ++ post
        = pre ++ "Version = \"".toList ++ (v ++ "\"".toList ++ post) by
      simp only [List.append_assoc]]
    exact Contains_append _ _ _
  rw [hall line hl] at hc
  cases hc

/-- C11, amended.  For every readable file content in which no line holds
"Version", "=" and a double quote together, `getFileVersion` returns
"unknown". -/
theorem getFileVersion_unknown_without_match (content : GoString)
    (h : ∀ l ∈ Split content '\n', ¬ (Contains l "Version".toList = true
      ∧ Contains l "=".toList = true ∧ '"' ∈ l)) :
    getFileVersion (some content) = some "unknown".toList := by
  have hskip := scanLines_skip (Split content '\n') [] h
  rw [List.append_nil] at hskip
  unfold getFileVersion
  simp only []
  rw [hskip]
  rfl

/-- C11 amended, at a file that never mentions the version. -/
theorem getFileVersion_unknown_without_match_witness :
    getFileVersion (some "package main\n\nimport \"fmt\"\n".toList) = some "unknown".toList :=
  getFileVersion_unknown_without_match "package main\n\nimport \"fmt\"\n".toList (by decide)

/-- Every step of the part after the sync is one of its own kinds. -/
theorem afterSync_mem (force : Bool) (env : Env) (fs : FS) (old : GoString) (hs : Bool) :
    ∀ e ∈ (performUpdate_afterSync force env fs old hs).trace, e.isAfterSyncStep = true := by
  have hc : ∀ fs2, ∀ e ∈ (copyFile env fs2 Path.oldExe Path.backupExe).1,
      e.isAfterSyncStep = true := by
    intro fs2 e he
    rcases copyFile_events env fs2 _ _ e he with ⟨ok, rfl⟩ | ⟨ok, rfl⟩ <;> rfl
  have hsch : ∀ fs2, ∀ e ∈ (scheduleReplacement env fs2 Path.oldExe Path.newExe
      Path.backupExe).1, e.isAfterSyncStep = true := by
    intro fs2 e he
    rcases scheduleReplacement_events env fs2 _ _ _ e he with rfl | ⟨ok, rfl⟩ | ⟨ok, rfl⟩ <;> rfl
  have hb : ∀ new, ∀ e ∈ buildEvents env new, e.isAfterSyncStep = true := by
    intro new e he
    simp [buildEvents] at he
    rcases he with rfl | rfl | rfl <;> rfl
  have hp : ∀ e ∈ popEvents env hs, e.isAfterSyncStep = true := by
    intro e he
    rw [popEvents_mem env hs e he]
    rfl
  have hl : ∀ e ∈ showChangelog, e.isAfterSyncStep = true := by
    intro e he
    simp [showChangelog] at he
    subst he
    rfl
  intro e he
  rcases afterSync_cases force env fs old hs with ⟨-, hr⟩ | ⟨new, -, hr⟩
  · rw [hr] at he; simp at he
  · rcases hr with ⟨-, -, hr⟩ | ⟨-, hr⟩ | ⟨-, c, rfl, ⟨-, hr⟩ | ⟨-, -, s, rfl, ⟨-, hr⟩ | ⟨-, hr⟩⟩
      | ⟨-, -, r, -, ⟨-, r2, -, hr⟩ | ⟨-, d, -, hr⟩⟩⟩
    all_goals
      rw [hr] at he
      simp only [List.mem_append, List.mem_cons, List.mem_singleton, List.not_mem_nil,
        or_false] at he
    · rcases he with rfl | he
      · rfl
      · exact hp e he
    · rcases he with he | he
      · exact hb new e he
      · exact hp e he
    · rcases he with (he | he) | rfl
      · exact hb new e he
      · exact hc _ e he
      · rfl
    · rcases he with ((he | he) | rfl) | he
      · exact hb new e he
      · exact hc _ e he
      · rfl
      · exact hsch _ e he
    · rcases he with ((((he | he) | rfl) | he) | he) | he
      · exact hb new e he
      · exact hc _ e he
      · rfl
      · exact hsch _ e he
      · exact hp e he
      · exact hl e (by simpa [showChangelog] using he)
    · rcases he with ((he | he) | rfl) | rfl | rfl
      · exact hb new e he
      · exact hc _ e he
      · rfl
      · rfl
      · rfl
    · rcases he with ((((he | he) | rfl) | rfl | rfl) | he) | he
      · exact hb new e he
      · exact hc _ e he
      · rfl
      · rfl
      · rfl
      · exact hp e he
      · exact hl e (by simpa [showChangelog] using he)

theorem not_mem_afterSync (force : Bool) (env : Env) (fs : FS) (old : GoString) (hs : Bool)
    (e : Event) (h : e.isAfterSyncStep = false) :
    e ∉ (performUpdate_afterSync force env fs old hs).trace := by
  intro he
  rw [afterSync_mem force env fs old hs e he] at h
  cases h

theorem not_mem_setupEvents (env : Env) (e : Event) (h : e.isSetupStep = false) :
    e ∉ setupEvents env := by
  intro he
  rcases setupEvents_mem env e he with rfl | ⟨b, rfl⟩ | ⟨b, rfl⟩ | ⟨b, rfl⟩ | ⟨b, rfl⟩ <;>
    simp [Event.isSetupStep] at h

theorem not_mem_performSelfUpdate (env : Env) (fs : FS) (e : Event)
    (h : e.isSelfUpdateStep = false) : e ∉ (performSelfUpdate env fs).trace := by
  intro he
  rcases performSelfUpdate_mem env fs e he with rfl | ⟨b, rfl⟩ | ⟨b, rfl⟩ | ⟨b, rfl⟩
    | ⟨b, rfl⟩ | rfl <;> simp [Event.isSelfUpdateStep] at h

/-- The second version read never panics. -/
theorem getFileVersion_returns (readResult : Option GoString) :
    ∃ v, getFileVersion readResult = some v := by
  cases readResult with
  | none => exact ⟨unknown, rfl⟩
  | some content => exact scanLines_returns (Split content '\n')

/-- The decision of update.go:169: the part after the sync skips exactly when
`force` is false and the versions are equal; otherwise its first steps are the
version read, `go mod download` and `go build`. -/
theorem afterSync_decision (force : Bool) (env : Env) (fs : FS) (old : GoString) (hs : Bool) :
    ∃ new, getFileVersion env.versionAfter = some new ∧
      ((force = false ∧ old = new ∧
          performUpdate_afterSync force env fs old hs =
            { trace := [Event.readVersion new] ++ popEvents env hs,
              fs := fs, outcome := Outcome.skipped, preSwap := none })
      ∨ (¬ (force = false ∧ old = new) ∧
          (performUpdate_afterSync force env fs old hs).outcome ≠ Outcome.skipped ∧
          ∃ post, (performUpdate_afterSync force env fs old hs).trace
            = buildEvents env new ++ post)) := by
  obtain ⟨new, hnew⟩ := getFileVersion_returns env.versionAfter
  refine ⟨new, hnew, ?_⟩
  by_cases hd : force = false ∧ old = new
  · left
    obtain ⟨hf, ho⟩ := hd
    subst hf ho
    refine ⟨rfl, rfl, ?_⟩
    rw [afterSync_skip env fs old hs hnew]
    rfl
  · right
    refine ⟨hd, ?_⟩
    rcases afterSync_cases force env fs old hs with ⟨hv, -⟩ | ⟨new2, hv, hr⟩
    · rw [hv] at hnew; cases hnew
    · rw [hv] at hnew
      cases hnew
      rcases hr with ⟨h1, h2, -⟩ | ⟨-, hr⟩ | ⟨-, c, -, ⟨-, hr⟩ | ⟨-, -, s, -, ⟨-, hr⟩ | ⟨-, hr⟩⟩
        | ⟨-, -, r, -, ⟨-, r2, -, hr⟩ | ⟨-, d, -, hr⟩⟩⟩
      · exact absurd ⟨h1, h2⟩ hd
      all_goals
        rw [hr]
        refine ⟨by simp, ?_⟩
        simp only [List.append_assoc]
        exact ⟨_, rfl⟩

/-- C12 as stated fails, in two ways.  First, the pull fails with output that
reports a conflict, the hard reset is executed and fails, and the run returns at
update.go:155: the post-sync version is never read.  Second, the pull fails
with output that reports a conflict in other words than "conflict" (a git that
prints German messages): no hard reset is executed and the run returns at
update.go:161. -/
theorem reported_conflict_can_end_the_run :
    (Event.gitPull false conflictResetFailEnv.pullOutput
        ∈ (performUpdate false conflictResetFailEnv sampleFS).trace
      ∧ Contains conflictResetFailEnv.pullOutput "conflict".toList = true
      ∧ Event.gitResetHard false ∈ (performUpdate false conflictResetFailEnv sampleFS).trace
      ∧ (performUpdate false conflictResetFailEnv sampleFS).outcome = Outcome.resetFailed
      ∧ versionsRead (performUpdate false conflictResetFailEnv sampleFS).trace
          = ["1.0.0".toList])
    ∧ (Event.gitPull false localizedConflictEnv.pullOutput
        ∈ (performUpdate false localizedConflictEnv sampleFS).trace
      ∧ Contains localizedConflictEnv.pullOutput "conflict".toList = false
      ∧ Event.gitResetHard true ∉ (performUpdate false localizedConflictEnv sampleFS).trace
      ∧ Event.gitResetHard false ∉ (performUpdate false localizedConflictEnv sampleFS).trace
      ∧ (performUpdate false localizedConflictEnv sampleFS).outcome = Outcome.pullFailed
      ∧ versionsRead (performUpdate false localizedConflictEnv sampleFS).trace
          = ["1.0.0".toList]) := by
  decide

/-- C12, amended.  In every run of `performUpdate` in which `git pull` fails with
output that holds the substring "conflict" (the test of update.go:147 for a
reported conflict), `git reset --hard origin/main` is executed.  If
the reset succeeds the run goes on: it reads the post-sync version and takes the
skip-or-build decision.  If the reset fails the run returns at update.go:155. -/
theorem conflict_leads_to_hard_reset (force : Bool) (env : Env) (fs : FS) (out : GoString)
    (h : Event.gitPull false out ∈ (performUpdate force env fs).trace)
    (hc : Contains out "conflict".toList = true) :
    (∃ ok, Event.gitResetHard ok ∈ (performUpdate force env fs).trace)
    ∧ (Event.gitResetHard false ∈ (performUpdate force env fs).trace →
        (performUpdate force env fs).outcome = Outcome.resetFailed)
    ∧ (Event.gitResetHard true ∈ (performUpdate force env fs).trace →
        ∃ old new, versionsRead (performUpdate force env fs).trace = [old, new]
          ∧ getFileVersion env.versionAfter = some new
          ∧ ((force = false ∧ old = new
              ∧ (performUpdate force env fs).outcome = Outcome.skipped)
            ∨ (¬ (force = false ∧ old = new)
              ∧ Event.goModDownload (!env.modErr) ∈ (performUpdate force env fs).trace))) := by
  rcases performUpdate_cases force env fs with hr | hr | hr | ⟨old, -, hr | hr | hr | hr⟩
  · rw [hr] at h; simp at h
  · rw [hr] at h
    simp [not_mem_setupEvents, not_mem_performSelfUpdate, Event.isSetupStep,
      Event.isSelfUpdateStep] at h
  · rw [hr] at h
    simp [not_mem_setupEvents, Event.isSetupStep] at h
  · obtain ⟨-, hno, hr⟩ := hr
    rw [hr] at h
    simp [syncEvents, not_mem_setupEvents, Event.isSetupStep] at h
    rw [h.2, hno] at hc
    cases hc
  · obtain ⟨-, -, hr⟩ := hr
    rw [hr]
    refine ⟨⟨false, by simp⟩, fun _ => rfl, fun hm => ?_⟩
    simp [syncEvents, not_mem_setupEvents, Event.isSetupStep] at hm
  · obtain ⟨-, -, hr⟩ := hr
    rw [hr]
    refine ⟨⟨true, by simp⟩, fun hm => ?_, fun _ => ?_⟩
    · simp [syncEvents, not_mem_setupEvents, not_mem_afterSync, Event.isSetupStep,
        Event.isAfterSyncStep] at hm
    · obtain ⟨new, hnew, hd⟩ := afterSync_decision force env fs old (hasStash env)
      refine ⟨old, new, ?_, hnew, ?_⟩
      · rw [Run.after_trace, versionsRead_append, versionsRead_append, versionsRead_append,
          versionsRead_setupEvents, versionsRead_syncEvents, versionsRead_gitResetHard,
          versionsRead_afterSync _ _ _ _ _ _ hnew]
        rfl
      · rcases hd with ⟨h1, h2, h3⟩ | ⟨h1, -, post, h3⟩
        · exact Or.inl ⟨h1, h2, by rw [Run.after_outcome, h3]⟩
        · refine Or.inr ⟨h1, ?_⟩
          rw [Run.after_trace, h3]
          simp [buildEvents]
  · obtain ⟨hp, hr⟩ := hr
    rw [hr] at h
    simp [syncEvents, hp, not_mem_setupEvents, not_mem_afterSync, Event.isSetupStep,
      Event.isAfterSyncStep] at h

/-- C12 amended, at a run whose conflict is resolved by the reset. -/
theorem conflict_leads_to_hard_reset_witness :
    Event.gitPull false conflictEnv.pullOutput ∈ (performUpdate false conflictEnv sampleFS).trace
    ∧ Contains conflictEnv.pullOutput "conflict".toList = true
    ∧ Event.gitResetHard true ∈ (performUpdate false conflictEnv sampleFS).trace
    ∧ versionsRead (performUpdate false conflictEnv sampleFS).trace
        = ["1.0.0".toList, "1.1.0".toList]
    ∧ (∃ ok, Event.gitResetHard ok ∈ (performUpdate false conflictEnv sampleFS).trace) :=
  ⟨by decide, by decide, by decide, by decide,
   (conflict_leads_to_hard_reset false conflictEnv sampleFS conflictEnv.pullOutput
    (by decide) (by decide)).1⟩

/-- C13 as stated fails.  The pull fails because the remote cannot be reached,
not because of a merge conflict, but the address of the remote holds the word
"conflict" and so does the error message: the run resets the working tree and
goes on to build and to swap the executable. -/
theorem unreachable_remote_named_conflict_is_not_fatal :
    Event.gitPull false conflictNamedRemoteEnv.pullOutput
        ∈ (performUpdate false conflictNamedRemoteEnv sampleFS).trace
    ∧ Contains conflictNamedRemoteEnv.pullOutput "conflict".toList = true
    ∧ Event.gitResetHard true ∈ (performUpdate false conflictNamedRemoteEnv sampleFS).trace
    ∧ Event.goBuild true ∈ (performUpdate false conflictNamedRemoteEnv sampleFS).trace
    ∧ Event.copyFile Path.oldExe Path.backupExe true
        ∈ (performUpdate false conflictNamedRemoteEnv sampleFS).trace
    ∧ Event.rename Path.newExe Path.oldExe true
        ∈ (performUpdate false conflictNamedRemoteEnv sampleFS).trace
    ∧ (performUpdate false conflictNamedRemoteEnv sampleFS).outcome = Outcome.completed := by
  decide

/-- C13, amended.  In every run of `performUpdate` in which `git pull` fails with
output that does not hold the substring "conflict" (the test of update.go:147
for a reported conflict), the run returns at update.go:161: the failed
pull is its last step, the steps before it are those of the setup, the first
version read and the stash (no other pull), and no build step, backup copy or
replacement step is executed. -/
theorem pull_failure_is_fatal_and_not_retried (force : Bool) (env : Env) (fs : FS)
    (out : GoString)
    (h : Event.gitPull false out ∈ (performUpdate force env fs).trace)
    (hc : Contains out "conflict".toList = false) :
    (performUpdate force env fs).outcome = Outcome.pullFailed
    ∧ (∃ pre, (performUpdate force env fs).trace = pre ++ [Event.gitPull false out]
        ∧ ∀ e ∈ pre, e.isSetupStep = true ∨ (∃ v, e = Event.readVersion v)
            ∨ (∃ ok o, e = Event.gitStashSave ok o))
    ∧ (∀ e ∈ (performUpdate force env fs).trace,
        e.isBuildStep = false ∧ e.isReplacementStep = false ∧ e.isBackupOrSwap = false) := by
  rcases performUpdate_cases force env fs with hr | hr | hr | ⟨old, -, hr | hr | hr | hr⟩
  · rw [hr] at h; simp at h
  · rw [hr] at h
    simp [not_mem_setupEvents, not_mem_performSelfUpdate, Event.isSetupStep,
      Event.isSelfUpdateStep] at h
  · rw [hr] at h
    simp [not_mem_setupEvents, Event.isSetupStep] at h
  · obtain ⟨hp, -, hr⟩ := hr
    have hout : out = env.pullOutput := by
      rw [hr] at h
      simp [syncEvents, not_mem_setupEvents, Event.isSetupStep] at h
      exact h.2
    have hpre : ∀ e ∈ setupEvents env
        ++ [Event.readVersion old, Event.gitStashSave (!env.stashErr) env.stashOutput],
        e.isSetupStep = true ∨ (∃ v, e = Event.readVersion v)
          ∨ (∃ ok o, e = Event.gitStashSave ok o) := by
      intro e he
      rcases List.mem_append.1 he with he | he
      · left
        rcases setupEvents_mem env e he with rfl | ⟨b, rfl⟩ | ⟨b, rfl⟩ | ⟨b, rfl⟩ | ⟨b, rfl⟩ <;>
          rfl
      · simp at he
        rcases he with rfl | rfl
        · exact Or.inr (Or.inl ⟨_, rfl⟩)
        · exact Or.inr (Or.inr ⟨_, _, rfl⟩)
    rw [hr]
    refine ⟨rfl, ⟨_, ?_, hpre⟩, ?_⟩
    · simp [syncEvents, hp, hout]
    · intro e he
      have hs : e.isSyncStep = true := by
        rcases List.mem_append.1 he with he | he
        · exact setupEvents_isSyncStep env e he
        · exact syncEvents_isSyncStep env old e he
      cases e <;> simp_all [Event.isSyncStep, Event.isBuildStep, Event.isReplacementStep,
        Event.isBackupOrSwap]
  · obtain ⟨-, hyes, hr⟩ := hr
    rw [hr] at h
    simp [syncEvents, not_mem_setupEvents, Event.isSetupStep] at h
    rw [h.2, hyes] at hc
    cases hc
  · obtain ⟨-, hyes, hr⟩ := hr
    rw [hr] at h
    simp [syncEvents, not_mem_setupEvents, not_mem_afterSync, Event.isSetupStep,
      Event.isAfterSyncStep] at h
    rw [h.2, hyes] at hc
    cases hc
  · obtain ⟨hp, hr⟩ := hr
    rw [hr] at h
    simp [syncEvents, hp, not_mem_setupEvents, not_mem_afterSync, Event.isSetupStep,
      Event.isAfterSyncStep] at h

/-- C13 amended, at a run whose pull cannot reach the remote. -/
theorem pull_failure_is_fatal_and_not_retried_witness :
    Event.gitPull false pullFailEnv.pullOutput
        ∈ (performUpdate false pullFailEnv sampleFS).trace
    ∧ Contains pullFailEnv.pullOutput "conflict".toList = false
    ∧ (performUpdate false pullFailEnv sampleFS).outcome = Outcome.pullFailed
    ∧ (∃ pre, (performUpdate false pullFailEnv sampleFS).trace
          = pre ++ [Event.gitPull false pullFailEnv.pullOutput]
        ∧ ∀ e ∈ pre, e.isSetupStep = true ∨ (∃ v, e = Event.readVersion v)
            ∨ (∃ ok o, e = Event.gitStashSave ok o))
    ∧ (∀ e ∈ (performUpdate false pullFailEnv sampleFS).trace,
        e.isBuildStep = false ∧ e.isReplacementStep = false ∧ e.isBackupOrSwap = false) :=
  ⟨by decide, by decide,
   pull_failure_is_fatal_and_not_retried false pullFailEnv sampleFS pullFailEnv.pullOutput
    (by decide) (by decide)⟩

/-- C14. In every run of `performUpdate` with `force = true` in which the sync
succeeds (the pull succeeds, or the hard reset after a conflict succeeds), the
run reads the post-sync version and goes on to the build, whatever the two
versions are: `go mod download` and then `go build` are executed. -/
theorem force_proceeds_to_build (env : Env) (fs : FS)
    (h : (∃ out, Event.gitPull true out ∈ (performUpdate true env fs).trace)
      ∨ Event.gitResetHard true ∈ (performUpdate true env fs).trace) :
    ∃ pre post new, getFileVersion env.versionAfter = some new ∧
      (performUpdate true env fs).trace
        = pre ++ Event.readVersion new :: Event.goModDownload (!env.modErr)
            :: Event.goBuild (!env.buildErr) :: post := by
  have key : ∀ pre old, performUpdate true env fs
      = Run.after pre (performUpdate_afterSync true env fs old (hasStash env)) →
      ∃ pre post new, getFileVersion env.versionAfter = some new ∧
        (performUpdate true env fs).trace
          = pre ++ Event.readVersion new :: Event.goModDownload (!env.modErr)
              :: Event.goBuild (!env.buildErr) :: post := by
    intro pre old hr
    obtain ⟨new, hnew, hd⟩ := afterSync_decision true env fs old (hasStash env)
    rcases hd with ⟨h1, -, -⟩ | ⟨-, -, post, h3⟩
    · cases h1
    · exact ⟨pre, post, new, hnew, by rw [hr, Run.after_trace, h3]; rfl⟩
  rcases performUpdate_cases true env fs with hr | hr | hr | ⟨old, -, hr | hr | hr | hr⟩
  · rw [hr] at h; simp at h
  · rw [hr] at h
    simp [not_mem_setupEvents, not_mem_performSelfUpdate, Event.isSetupStep,
      Event.isSelfUpdateStep] at h
  · rw [hr] at h
    simp [not_mem_setupEvents, Event.isSetupStep] at h
  · obtain ⟨hp, -, hr⟩ := hr
    rw [hr] at h
    simp [syncEvents, hp, not_mem_setupEvents, Event.isSetupStep] at h
  · obtain ⟨hp, -, hr⟩ := hr
    rw [hr] at h
    simp [syncEvents, hp, not_mem_setupEvents, Event.isSetupStep] at h
  · exact key _ old hr.2.2
  · exact key _ old hr.2

/-- C14, at a forced run whose pull brings no new version. -/
theorem force_proceeds_to_build_witness :
    getFileVersion upToDateEnv.versionBefore = getFileVersion upToDateEnv.versionAfter
    ∧ ∃ pre post new, getFileVersion upToDateEnv.versionAfter = some new ∧
      (performUpdate true upToDateEnv sampleFS).trace
        = pre ++ Event.readVersion new :: Event.goModDownload (!upToDateEnv.modErr)
            :: Event.goBuild (!upToDateEnv.buildErr) :: post :=
  ⟨by decide,
   force_proceeds_to_build upToDateEnv sampleFS (Or.inl ⟨upToDateEnv.pullOutput, by decide⟩)⟩

/-- C15. Every run of the check-only mode (`updateCmd` with `check` set runs
`checkForUpdates` and nothing else) consists of `os.Executable`, `os.Stat` and
the commands `git fetch`, `git status` and `git log`: no stash, pull, reset,
build, file copy, rename, removal or script write occurs, and the file system
at the paths of the update is left as it was. -/
theorem check_mode_is_read_only (force : Bool) (cenv : CheckEnv) (env : Env) (fs : FS) :
    updateCmd true force cenv env fs = checkForUpdates cenv fs
    ∧ (checkForUpdates cenv fs).2 = fs
    ∧ (∀ e ∈ (checkForUpdates cenv fs).1,
        (∃ ok, e = Event.osExecutable ok) ∨ (∃ b, e = Event.statGitDir b)
          ∨ (∃ ok, e = Event.gitFetch ok) ∨ (∃ ok, e = Event.gitStatus ok)
          ∨ e = Event.gitLog)
    ∧ (∀ e ∈ (checkForUpdates cenv fs).1,
        e.isMutating = false ∧ e.isTrackedSync = false ∧ e.isBuildStep = false
          ∧ e.isReplacementStep = false ∧ e.isBackupOrSwap = false) := by
  refine ⟨rfl, ?_, ?_, ?_⟩
  · unfold checkForUpdates
    split_ifs <;> rfl
  · unfold checkForUpdates
    split_ifs <;> simp
  · unfold checkForUpdates
    split_ifs <;>
      simp [Event.isMutating, Event.isTrackedSync, Event.isBuildStep, Event.isReplacementStep,
        Event.isBackupOrSwap]

theorem performSelfUpdate_outcome (env : Env) (fs : FS) :
    (performSelfUpdate env fs).outcome = Outcome.selfExecutableError
    ∨ (performSelfUpdate env fs).outcome = Outcome.selfScriptFailed
    ∨ (performSelfUpdate env fs).outcome = Outcome.selfBuildFailed
    ∨ (performSelfUpdate env fs).outcome = Outcome.selfStartFailed
    ∨ (performSelfUpdate env fs).outcome = Outcome.selfExited := by
  unfold performSelfUpdate
  simp only []
  split_ifs <;> simp

/-- C16 as stated fails.  In a run that ends at the skip (the pull brought no new
version, `force` is false), `git stash save` and `git pull` were executed before
the versions were compared. -/
theorem skipped_run_has_stashed :
    (performUpdate false upToDateEnv sampleFS).outcome = Outcome.skipped
    ∧ Event.gitStashSave true upToDateEnv.stashOutput
        ∈ (performUpdate false upToDateEnv sampleFS).trace
    ∧ Event.gitPull true upToDateEnv.pullOutput
        ∈ (performUpdate false upToDateEnv sampleFS).trace := by
  decide

/-- C16, amended.  In every run of `performUpdate` that ends at the skip, `force`
is false and the two versions are equal; `git stash save` and then `git pull`
were executed before the decision; no build step and no replacement step is
executed; the file system at the paths of the update is left as it was; and a
`git stash pop` is executed exactly if the stash flag is set. -/
theorem skipped_run_stashes_pulls_and_restores (force : Bool) (env : Env) (fs : FS)
    (h : (performUpdate force env fs).outcome = Outcome.skipped) :
    force = false
    ∧ (∃ v, versionsRead (performUpdate force env fs).trace = [v, v])
    ∧ (∃ pre post, (performUpdate force env fs).trace
        = pre ++ Event.gitStashSave (!env.stashErr) env.stashOutput
            :: Event.gitPull (!env.pullErr) env.pullOutput :: post)
    ∧ (∀ e ∈ (performUpdate force env fs).trace,
        e.isBuildStep = false ∧ e.isReplacementStep = false)
    ∧ (performUpdate force env fs).fs = fs
    ∧ ((∃ ok, Event.gitStashPop ok ∈ (performUpdate force env fs).trace)
        ↔ hasStash env = true) := by
  have key : ∀ pre old, versionsRead pre = [old] →
      (∀ e ∈ pre, e.isSyncStep = true) →
      (∃ a b, pre = a ++ Event.gitStashSave (!env.stashErr) env.stashOutput
          :: Event.gitPull (!env.pullErr) env.pullOutput :: b) →
      performUpdate force env fs
        = Run.after pre (performUpdate_afterSync force env fs old (hasStash env)) →
      force = false
      ∧ (∃ v, versionsRead (performUpdate force env fs).trace = [v, v])
      ∧ (∃ pre post, (performUpdate force env fs).trace
          = pre ++ Event.gitStashSave (!env.stashErr) env.stashOutput
              :: Event.gitPull (!env.pullErr) env.pullOutput :: post)
      ∧ (∀ e ∈ (performUpdate force env fs).trace,
          e.isBuildStep = false ∧ e.isReplacementStep = false)
      ∧ (performUpdate force env fs).fs = fs
      ∧ ((∃ ok, Event.gitStashPop ok ∈ (performUpdate force env fs).trace)
          ↔ hasStash env = true) := by
    intro pre old hv hpre ⟨a, b, hab⟩ hr
    obtain ⟨new, hnew, hd⟩ := afterSync_decision force env fs old (hasStash env)
    rcases hd with ⟨h1, h2, h3⟩ | ⟨-, h2, -⟩
    · rw [hr, h3]
      subst h2
      refine ⟨h1, ⟨old, ?_⟩, ⟨a, b ++ ([Event.readVersion old] ++ popEvents env (hasStash env)),
        ?_⟩, ?_, rfl, ?_⟩
      · rw [Run.after_trace, versionsRead_append, hv]
        cases hasStash env <;> simp [popEvents, versionsRead]
      · rw [Run.after_trace, hab]
        simp
      · intro e he
        rcases List.mem_append.1 he with he | he
        · have := hpre e he
          cases e <;> simp_all [Event.isSyncStep, Event.isBuildStep, Event.isReplacementStep]
        · rcases List.mem_append.1 he with he | he
          · simp at he
            subst he
            exact ⟨rfl, rfl⟩
          · rw [popEvents_mem env _ e he]
            exact ⟨rfl, rfl⟩
      · constructor
        · rintro ⟨ok, he⟩
          rcases List.mem_append.1 he with he | he
          · have := hpre _ he
            simp [Event.isSyncStep] at this
          · cases hs : hasStash env
            · rw [hs] at he
              simp [popEvents] at he
            · rfl
        · intro hs
          exact ⟨!env.popErr, by simp [hs, popEvents]⟩
    · rw [hr, Run.after_outcome] at h
      exact absurd h h2
  rcases performUpdate_cases force env fs with hr | hr | hr | ⟨old, -, hr | hr | hr | hr⟩
  · rw [hr] at h; cases h
  · rw [hr, Run.after_outcome] at h
    rcases performSelfUpdate_outcome env fs with h2 | h2 | h2 | h2 | h2 <;>
      (rw [h2] at h; cases h)
  · rw [hr] at h; cases h
  · rw [hr.2.2] at h; cases h
  · rw [hr.2.2] at h; cases h
  · refine key _ old ?_ ?_ ⟨setupEvents env ++ [Event.readVersion old],
      [Event.gitResetHard true], by simp [syncEvents]⟩ hr.2.2
    · rw [versionsRead_append, versionsRead_append, versionsRead_setupEvents,
        versionsRead_syncEvents, versionsRead_gitResetHard]
      rfl
    · intro e he
      rcases List.mem_append.1 he with he | he
      · rcases List.mem_append.1 he with he | he
        · exact setupEvents_isSyncStep env e he
        · exact syncEvents_isSyncStep env old e he
      · simp at he
        subst he
        rfl
  · refine key _ old ?_ ?_ ⟨setupEvents env ++ [Event.readVersion old], [],
      by simp [syncEvents]⟩ hr.2
    · rw [versionsRead_append, versionsRead_setupEvents, versionsRead_syncEvents]
      rfl
    · intro e he
      rcases List.mem_append.1 he with he | he
      · exact setupEvents_isSyncStep env e he
      · exact syncEvents_isSyncStep env old e he

/-- C16 amended, at a run whose pull brings no new version. -/
theorem skipped_run_stashes_pulls_and_restores_witness :
    (performUpdate false upToDateEnv sampleFS).outcome = Outcome.skipped
    ∧ (∃ pre post, (performUpdate false upToDateEnv sampleFS).trace
        = pre ++ Event.gitStashSave (!upToDateEnv.stashErr) upToDateEnv.stashOutput
            :: Event.gitPull (!upToDateEnv.pullErr) upToDateEnv.pullOutput :: post)
    ∧ (performUpdate false upToDateEnv sampleFS).fs = sampleFS :=
  ⟨by decide,
   (skipped_run_stashes_pulls_and_restores false upToDateEnv sampleFS (by decide)).2.2.1,
   (skipped_run_stashes_pulls_and_restores false upToDateEnv sampleFS (by decide)).2.2.2.2.1⟩

theorem scheduleReplacement_started (env : Env) (fs : FS) (a b c p : Path)
    (h : Event.startScript p true ∈ (scheduleReplacement env fs a b c).1) :
    (scheduleReplacement env fs a b c).2.1 = true := by
  unfold scheduleReplacement at *
  simp only [] at *
  split_ifs at h ⊢ with hw
  · simp at h
    simp [h.2]
  · simp at h

/-- In the part after the sync, a run in which the swap succeeded (the rename onto
the live path succeeded, or the helper script was started) completes: after the
swap come the conditional stash pop and the changelog, and no rename puts the
backup back. -/
theorem afterSync_swap_succeeded (force : Bool) (env : Env) (fs : FS) (old : GoString)
    (hs : Bool)
    (h : Event.rename Path.newExe Path.oldExe true
        ∈ (performUpdate_afterSync force env fs old hs).trace
      ∨ Event.startScript Path.batchFile true
        ∈ (performUpdate_afterSync force env fs old hs).trace) :
    (performUpdate_afterSync force env fs old hs).outcome = Outcome.completed
    ∧ ∃ X, (performUpdate_afterSync force env fs old hs).trace
        = X ++ popEvents env hs ++ showChangelog
      ∧ (∀ ok, Event.gitStashPop ok ∉ X)
      ∧ (∀ ok, Event.rename Path.backupExe Path.oldExe ok ∉ X) := by
  have hb : ∀ new e, e ∈ buildEvents env new →
      (∀ ok, e ≠ Event.gitStashPop ok) ∧ (∀ x y ok, e ≠ Event.rename x y ok)
        ∧ (∀ x ok, e ≠ Event.startScript x ok) := by
    intro new e he
    simp [buildEvents] at he
    rcases he with rfl | rfl | rfl <;> simp
  rcases afterSync_cases force env fs old hs with ⟨-, hr⟩ | ⟨new, -, hr⟩
  · rw [hr] at h; simp at h
  · rcases hr with ⟨-, -, hr⟩ | ⟨-, hr⟩ | ⟨-, c, rfl, ⟨-, hr⟩ | ⟨-, -, s, rfl, ⟨hf, hr⟩ | ⟨-, hr⟩⟩
      | ⟨-, -, r, -, ⟨-, r2, -, hr⟩ | ⟨-, d, -, hr⟩⟩⟩
    · rw [hr] at h
      cases hs <;> simp [popEvents] at h
    · rw [hr] at h
      cases hs <;> simp [popEvents, buildEvents] at h
    · rw [hr] at h
      simp [buildEvents, not_mem_copyFile, Event.isFileOp] at h
    · rw [hr] at h
      simp [buildEvents, not_mem_copyFile, Event.isFileOp] at h
      rw [scheduleReplacement_started _ _ _ _ _ _ h] at hf
      cases hf
    · rw [hr]
      refine ⟨rfl, _, rfl, ?_, ?_⟩
      · intro ok hm
        simp [buildEvents, not_mem_copyFile, not_mem_scheduleReplacement, Event.isFileOp,
          Event.isScheduleStep] at hm
      · intro ok hm
        simp [buildEvents, not_mem_copyFile, Event.isFileOp] at hm
    · rw [hr] at h
      simp [buildEvents, not_mem_copyFile, Event.isFileOp] at h
    · rw [hr]
      refine ⟨rfl, _, rfl, ?_, ?_⟩
      · intro ok hm
        simp [buildEvents, not_mem_copyFile, Event.isFileOp] at hm
      · intro ok hm
        simp [buildEvents, not_mem_copyFile, Event.isFileOp] at hm

/-- C17. In every run of `performUpdate` in which the swap succeeded (the rename
of the candidate onto the live path succeeded, or `scheduleReplacement` started
the helper script) and the `git stash pop` that follows fails, the run still
completes: the failed pop is followed by the changelog step, which ends the
run, and no rename puts the backup back onto the live path. -/
theorem failed_stash_pop_does_not_abort (force : Bool) (env : Env) (fs : FS)
    (hswap : Event.rename Path.newExe Path.oldExe true ∈ (performUpdate force env fs).trace
      ∨ Event.startScript Path.batchFile true ∈ (performUpdate force env fs).trace)
    (hpop : Event.gitStashPop false ∈ (performUpdate force env fs).trace) :
    (performUpdate force env fs).outcome = Outcome.completed
    ∧ (∃ pre, (performUpdate force env fs).trace
        = pre ++ [Event.gitStashPop false, Event.gitLog]
      ∧ ∀ ok, Event.gitStashPop ok ∉ pre)
    ∧ (∀ ok, Event.rename Path.backupExe Path.oldExe ok ∉ (performUpdate force env fs).trace) := by
  rcases performUpdate_reach force env fs with ⟨-, -, -, hall⟩ | ⟨pre, hpre, -, hr⟩
    | ⟨pre, old, hpre, -, hr⟩
  · have := hall _ hpop
    simp [Event.isSyncStep] at this
  · rw [hr] at hpop
    rcases List.mem_append.1 hpop with he | he
    · have := hpre _ he
      simp [Event.isSyncStep] at this
    · exact absurd he (not_mem_performSelfUpdate env fs _ rfl)
  · have hnot : ∀ e, e.isSyncStep = false → e ∉ pre := by
      intro e he hm
      rw [hpre e hm] at he
      cases he
    have hswap2 : Event.rename Path.newExe Path.oldExe true
          ∈ (performUpdate_afterSync force env fs old (hasStash env)).trace
        ∨ Event.startScript Path.batchFile true
          ∈ (performUpdate_afterSync force env fs old (hasStash env)).trace := by
      rw [hr] at hswap
      rcases hswap with h | h
      · rcases List.mem_append.1 h with h | h
        · exact absurd h (hnot _ rfl)
        · exact Or.inl h
      · rcases List.mem_append.1 h with h | h
        · exact absurd h (hnot _ rfl)
        · exact Or.inr h
    obtain ⟨hout, X, hX, hX1, hX2⟩ := afterSync_swap_succeeded force env fs old _ hswap2
    have hpop2 : popEvents env (hasStash env) = [Event.gitStashPop false] := by
      rw [hr, Run.after_trace, hX] at hpop
      simp only [List.mem_append] at hpop
      rcases hpop with h | (h | h) | h
      · exact absurd h (hnot _ rfl)
      · exact absurd h (hX1 _)
      · have h2 := popEvents_mem env _ _ h
        cases hs : hasStash env
        · rw [hs] at h
          simp [popEvents] at h
        · simp [popEvents, ← h2]
      · simp [showChangelog] at h
    rw [hr, Run.after_trace, Run.after_outcome, hX, hpop2]
    refine ⟨hout, ⟨pre ++ X, by simp [showChangelog], ?_⟩, ?_⟩
    · intro ok hm
      rcases List.mem_append.1 hm with h | h
      · exact absurd h (hnot _ rfl)
      · exact absurd h (hX1 _)
    · intro ok hm
      simp only [List.mem_append] at hm
      rcases hm with h | (h | h) | h
      · exact absurd h (hnot _ rfl)
      · exact absurd h (hX2 _)
      · simp at h
      · simp [showChangelog] at h

/-- C17, at a run that swaps and whose stash pop fails. -/
theorem failed_stash_pop_does_not_abort_witness :
    Event.rename Path.newExe Path.oldExe true ∈ (performUpdate false popFailEnv sampleFS).trace
    ∧ Event.gitStashPop false ∈ (performUpdate false popFailEnv sampleFS).trace
    ∧ (performUpdate false popFailEnv sampleFS).fs Path.oldExe = some "NEW-EXE".toList
    ∧ (performUpdate false popFailEnv sampleFS).outcome = Outcome.completed
    ∧ (∃ pre, (performUpdate false popFailEnv sampleFS).trace
        = pre ++ [Event.gitStashPop false, Event.gitLog]
      ∧ ∀ ok, Event.gitStashPop ok ∉ pre)
    ∧ (∀ ok, Event.rename Path.backupExe Path.oldExe ok
        ∉ (performUpdate false popFailEnv sampleFS).trace) :=
  ⟨by decide, by decide, by decide,
   failed_stash_pop_does_not_abort false popFailEnv sampleFS (Or.inl (by decide)) (by decide)⟩

theorem performUpdate_executableErr (force : Bool) (env : Env) (fs : FS)
    (h : env.executableErr = true) :
    performUpdate force env fs =
      { trace := [Event.osExecutable false], fs := fs,
        outcome := Outcome.executableError, preSwap := none } := by
  unfold performUpdate
  simp [h]

/-- When the installation directory is not a git working tree and `git init`
fails, `performUpdate` hands over to `performSelfUpdate` (update.go:122-125). -/
theorem performUpdate_init_failed (force : Bool) (env : Env) (fs : FS)
    (h1 : env.executableErr = false) (h2 : env.gitDirMissing = true)
    (h3 : env.gitInitErr = true) :
    performUpdate force env fs =
      Run.after [Event.osExecutable true, Event.statGitDir false, Event.gitInit false]
        (performSelfUpdate env fs) := by
  unfold performUpdate initGitRepo
  simp [h1, h2, h3]

theorem gitInit_false_mem_setupEvents (env : Env) (h : Event.gitInit false ∈ setupEvents env) :
    env.gitDirMissing = true ∧ env.gitInitErr = true := by
  unfold setupEvents initGitRepo at h
  cases h2 : env.gitDirMissing <;> cases h3 : env.gitInitErr <;> simp [h2, h3] at h ⊢

/-- C18. In every run of `performUpdate` in which `git init` fails (the
installation directory is not a git working tree and its initialization fails
at the first command), `performSelfUpdate` is invoked and no step of the tracked
sync (`git stash save`, `git pull`, `git reset`, `git stash pop`) is executed. -/
theorem init_failure_falls_back_to_self_update (force : Bool) (env : Env) (fs : FS)
    (h : Event.gitInit false ∈ (performUpdate force env fs).trace) :
    Event.statGitDir false ∈ (performUpdate force env fs).trace
    ∧ (∃ pre post, (performUpdate force env fs).trace
        = pre ++ Event.gitInit false :: Event.performSelfUpdate :: post)
    ∧ (∀ e ∈ (performUpdate force env fs).trace, e.isTrackedSync = false) := by
  have hsetup : Event.gitInit false ∈ setupEvents env := by
    rcases performUpdate_cases force env fs with hr | hr | hr | ⟨old, -, hr | hr | hr | hr⟩
    · rw [hr] at h; simp at h
    · rw [hr] at h
      simpa [not_mem_performSelfUpdate, Event.isSelfUpdateStep] using h
    · rw [hr] at h; exact h
    · rw [hr.2.2] at h
      simpa [syncEvents] using h
    · rw [hr.2.2] at h
      simpa [syncEvents] using h
    · rw [hr.2.2] at h
      simpa [syncEvents, not_mem_afterSync, Event.isAfterSyncStep] using h
    · rw [hr.2] at h
      simpa [syncEvents, not_mem_afterSync, Event.isAfterSyncStep] using h
  obtain ⟨h2, h3⟩ := gitInit_false_mem_setupEvents env hsetup
  have h1 : env.executableErr = false := by
    cases hx : env.executableErr
    · rfl
    · rw [performUpdate_executableErr force env fs hx] at h
      simp at h
  have hself : ∃ post, (performSelfUpdate env fs).trace = Event.performSelfUpdate :: post := by
    unfold performSelfUpdate
    simp only []
    split_ifs <;> exact ⟨_, rfl⟩
  obtain ⟨post, hpost⟩ := hself
  rw [performUpdate_init_failed force env fs h1 h2 h3]
  refine ⟨by simp, ⟨[Event.osExecutable true, Event.statGitDir false], post, ?_⟩, ?_⟩
  · rw [Run.after_trace, hpost]
    rfl
  · intro e he
    rw [Run.after_trace] at he
    rcases List.mem_append.1 he with he | he
    · simp at he
      rcases he with rfl | rfl | rfl <;> rfl
    · rcases performSelfUpdate_mem env fs e he with rfl | ⟨b, rfl⟩ | ⟨b, rfl⟩ | ⟨b, rfl⟩
        | ⟨b, rfl⟩ | rfl <;> rfl

/-- C18, at a run in an installation that cannot be initialized. -/
theorem init_failure_falls_back_to_self_update_witness :
    Event.gitInit false ∈ (performUpdate false initFailEnv sampleFS).trace
    ∧ Event.statGitDir false ∈ (performUpdate false initFailEnv sampleFS).trace
    ∧ (∃ pre post, (performUpdate false initFailEnv sampleFS).trace
        = pre ++ Event.gitInit false :: Event.performSelfUpdate :: post)
    ∧ (∀ e ∈ (performUpdate false initFailEnv sampleFS).trace, e.isTrackedSync = false) :=
  ⟨by decide, init_failure_falls_back_to_self_update false initFailEnv sampleFS (by decide)⟩

/-- C19, the code at a failing input.  `performSelfUpdate`, run on its own or as
the fallback of `performUpdate`, writes a script that moves the candidate onto
the live path and starts it, and makes no backup copy: its trace holds no call
of `copyFile`, its only file operation is the write of the script, and nothing
is at the backup path when the process exits. -/
theorem self_update_schedules_swap_without_backup :
    (performSelfUpdate sampleEnv sampleFS).outcome = Outcome.selfExited
    ∧ (performSelfUpdate sampleEnv sampleFS).trace
        = [Event.performSelfUpdate, Event.osExecutable true,
            Event.writeFile Path.updateScript true, Event.goBuild true,
            Event.startScript Path.updateScript true, Event.osExit 0]
    ∧ (performSelfUpdate sampleEnv sampleFS).fs Path.updateScript
        = some (scriptContent "/opt/tools".toList)
    ∧ Contains (scriptContent "/opt/tools".toList)
        "move /Y \"/opt/tools\\tools.exe.new\" \"/opt/tools\\tools.exe\"".toList = true
    ∧ (performSelfUpdate sampleEnv sampleFS).fs Path.backupExe = none
    ∧ (performUpdate false initFailEnv sampleFS).outcome = Outcome.selfExited
    ∧ Event.startScript Path.updateScript true
        ∈ (performUpdate false initFailEnv sampleFS).trace
    ∧ (∀ e ∈ (performUpdate false initFailEnv sampleFS).trace, e.isBackupOrSwap = false)
    ∧ (performUpdate false initFailEnv sampleFS).fs Path.backupExe = none := by
  decide

/-- C27 as stated fails.  The build of `performSelfUpdate` fails: the function
returns at update.go:299 without a call of `os.Exit`, its caller returns, and
the process ends with status 0, the status of a command that succeeded.  So it
is when `performSelfUpdate` is the fallback of `performUpdate` (:122-125). -/
theorem failed_self_build_ends_with_status_zero :
    Event.goBuild false ∈ (performSelfUpdate buildFailEnv sampleFS).trace
    ∧ (performSelfUpdate buildFailEnv sampleFS).outcome = Outcome.selfBuildFailed
    ∧ exitStatus (performSelfUpdate buildFailEnv sampleFS) = 0
    ∧ Event.performSelfUpdate ∈ (performUpdate false initBuildFailEnv sampleFS).trace
    ∧ Event.goBuild false ∈ (performUpdate false initBuildFailEnv sampleFS).trace
    ∧ (performUpdate false initBuildFailEnv sampleFS).outcome = Outcome.selfBuildFailed
    ∧ exitStatus (performUpdate false initBuildFailEnv sampleFS) = 0 := by
  decide

/-- C27, amended.  In every run of `performSelfUpdate`, the helper script is
started only after the write of the script and the build both succeeded; when
the build fails, the script is not started, `os.Exit` is not called (the
function returns at update.go:299) and the process ends with status 0, and the
script written before the build is still on disk. -/
theorem self_update_launch_needs_script_and_build (env : Env) (fs : FS) :
    (∀ ok, Event.startScript Path.updateScript ok ∈ (performSelfUpdate env fs).trace →
      ∃ pre post, (performSelfUpdate env fs).trace
        = pre ++ Event.writeFile Path.updateScript true :: Event.goBuild true
            :: Event.startScript Path.updateScript ok :: post)
    ∧ (Event.goBuild false ∈ (performSelfUpdate env fs).trace →
      (performSelfUpdate env fs).outcome = Outcome.selfBuildFailed
      ∧ (∀ p ok, Event.startScript p ok ∉ (performSelfUpdate env fs).trace)
      ∧ (∀ c, Event.osExit c ∉ (performSelfUpdate env fs).trace)
      ∧ exitStatus (performSelfUpdate env fs) = 0
      ∧ (performSelfUpdate env fs).fs Path.updateScript
          = some (scriptContent env.installDir)) := by
  unfold exitStatus performSelfUpdate goBuild osWriteFile
  cases env.selfExecutableErr <;> cases env.writeErr <;> cases env.buildErr <;>
    cases env.startErr <;> simp
  · exact ⟨[Event.performSelfUpdate, Event.osExecutable true], [Event.osExit 0], rfl⟩
  · exact ⟨[Event.performSelfUpdate, Event.osExecutable true], [], rfl⟩

/-- C27 amended, at a run whose build fails. -/
theorem self_update_launch_needs_script_and_build_witness :
    Event.goBuild false ∈ (performSelfUpdate buildFailEnv sampleFS).trace
    ∧ (performSelfUpdate buildFailEnv sampleFS).outcome = Outcome.selfBuildFailed
    ∧ (∀ p ok, Event.startScript p ok ∉ (performSelfUpdate buildFailEnv sampleFS).trace)
    ∧ (∀ c, Event.osExit c ∉ (performSelfUpdate buildFailEnv sampleFS).trace)
    ∧ exitStatus (performSelfUpdate buildFailEnv sampleFS) = 0
    ∧ (performSelfUpdate buildFailEnv sampleFS).fs Path.updateScript
        = some (scriptContent buildFailEnv.installDir) :=
  ⟨by decide,
   (self_update_launch_needs_script_and_build buildFailEnv sampleFS).2 (by decide)⟩

theorem stashPops_append (a b : List Event) :
    stashPops (a ++ b) = stashPops a + stashPops b := by
  induction a with
  | nil => simp [stashPops]
  | cons e a ih =>
    cases e <;> simp [stashPops, ih]
    omega

theorem stashPops_eq_zero (tr : List Event) (h : ∀ ok, Event.gitStashPop ok ∉ tr) :
    stashPops tr = 0 := by
  induction tr with
  | nil => rfl
  | cons e tr ih =>
    have h2 := ih (fun ok hm => h ok (List.mem_cons_of_mem _ hm))
    cases e with
    | gitStashPop b => exact absurd (List.mem_cons_self _ _) (h b)
    | _ => simpa [stashPops] using h2

theorem stashPops_popEvents (env : Env) (hs : Bool) :
    stashPops (popEvents env hs) = if hs then 1 else 0 := by
  cases hs <;> rfl

/-- The part after the sync pops the stash at most once, and not at all when the
stash flag is not set. -/
theorem afterSync_stashPops (force : Bool) (env : Env) (fs : FS) (old : GoString) (hs : Bool) :
    stashPops (performUpdate_afterSync force env fs old hs).trace ≤ if hs then 1 else 0 := by
  have hb : ∀ new, stashPops (buildEvents env new) = 0 := fun new => rfl
  have hc : ∀ fs2, stashPops (copyFile env fs2 Path.oldExe Path.backupExe).1 = 0 := by
    intro fs2
    exact stashPops_eq_zero _ (fun ok => not_mem_copyFile _ _ _ _ _ rfl)
  have hsch : ∀ fs2, stashPops (scheduleReplacement env fs2 Path.oldExe Path.newExe
      Path.backupExe).1 = 0 := by
    intro fs2
    exact stashPops_eq_zero _ (fun ok => not_mem_scheduleReplacement _ _ _ _ _ _ rfl)
  have hp := stashPops_popEvents env hs
  rcases afterSync_cases force env fs old hs with ⟨-, hr⟩ | ⟨new, -, hr⟩
  · rw [hr]; simp [stashPops]
  · rcases hr with ⟨-, -, hr⟩ | ⟨-, hr⟩ | ⟨-, c, rfl, ⟨-, hr⟩ | ⟨-, -, s, rfl, ⟨-, hr⟩ | ⟨-, hr⟩⟩
      | ⟨-, -, r, -, ⟨-, r2, -, hr⟩ | ⟨-, d, -, hr⟩⟩⟩
    all_goals
      rw [hr]
      simp only [stashPops_append, hb, hc, hsch, hp, showChangelog]
      simp [stashPops]

/-- C26. In every run of `performUpdate` at most one `git stash pop` is executed,
and none when the output of `git stash save` holds "No local changes". -/
theorem at_most_one_stash_pop (force : Bool) (env : Env) (fs : FS) :
    stashPops (performUpdate force env fs).trace ≤ 1
    ∧ (∀ ok out, Event.gitStashSave ok out ∈ (performUpdate force env fs).trace →
        Contains out "No local changes".toList = true →
        stashPops (performUpdate force env fs).trace = 0) := by
  have hsync : ∀ tr : List Event, (∀ e ∈ tr, e.isSyncStep = true) → stashPops tr = 0 := by
    intro tr htr
    apply stashPops_eq_zero
    intro ok hm
    have := htr _ hm
    simp [Event.isSyncStep] at this
  rcases performUpdate_reach force env fs with ⟨-, -, -, hall⟩ | ⟨pre, hpre, -, hr⟩
    | ⟨pre, old, hpre, hst, hr⟩
  · rw [hsync _ hall]
    exact ⟨by omega, fun _ _ _ _ => rfl⟩
  · have h0 : stashPops (performUpdate force env fs).trace = 0 := by
      rw [hr, Run.after_trace, stashPops_append, hsync _ hpre,
        stashPops_eq_zero _ (fun ok => not_mem_performSelfUpdate env fs _ rfl)]
    rw [h0]
    exact ⟨by omega, fun _ _ _ _ => rfl⟩
  · have hle := afterSync_stashPops force env fs old (hasStash env)
    have heq : stashPops (performUpdate force env fs).trace
        = stashPops (performUpdate_afterSync force env fs old (hasStash env)).trace := by
      rw [hr, Run.after_trace, stashPops_append, hsync _ hpre, Nat.zero_add]
    rw [heq]
    constructor
    · have hone : (if hasStash env = true then 1 else 0) ≤ 1 := by
        split_ifs <;> omega
      omega
    · intro ok out hm hno
      have hout : out = env.stashOutput := by
        rw [hr] at hm
        rcases List.mem_append.1 hm with hm | hm
        · exact hst ok out hm
        · exact absurd hm (not_mem_afterSync _ _ _ _ _ _ rfl)
      have hflag : hasStash env = false := by
        unfold hasStash
        rw [← hout, hno]
        rfl
      rw [hflag] at hle ⊢
      simpa using hle

/-- C26, at a run with nothing to stash, and at a run on Windows in which the
write of the helper script fails after the backup copy succeeded. -/
theorem at_most_one_stash_pop_witness :
    stashPops (performUpdate false noChangesEnv sampleFS).trace = 0
    ∧ (performUpdate false scriptWriteFailEnv sampleFS).outcome = Outcome.scheduleFailed
    ∧ stashPops (performUpdate false scriptWriteFailEnv sampleFS).trace ≤ 1 :=
  ⟨(at_most_one_stash_pop false noChangesEnv sampleFS).2
    true "No local changes to save\n".toList (by decide) (by decide),
   by decide,
   (at_most_one_stash_pop false scriptWriteFailEnv sampleFS).1⟩

/-- C22, the code at a failing input.  `git stash save` fails, so nothing is
stashed; its output does not hold "No local changes", so the stash flag is set
all the same, and the run (here one that ends at the skip) executes
`git stash pop`. -/
theorem stash_flag_set_when_stash_fails :
    Event.gitStashSave false stashFailEnv.stashOutput
        ∈ (performUpdate false stashFailEnv sampleFS).trace
    ∧ hasStash stashFailEnv = true
    ∧ Event.gitStashPop true ∈ (performUpdate false stashFailEnv sampleFS).trace
    ∧ stashPops (performUpdate false stashFailEnv sampleFS).trace = 1 := by
  decide

theorem init_result (env : Env) :
    (!(if env.gitDirMissing = true then initGitRepo env else ([], true)).2)
      = (env.gitDirMissing && env.gitInitErr) := by
  unfold initGitRepo
  cases env.gitDirMissing <;> cases env.gitInitErr <;> rfl

/-- The paths through `performUpdate` up to the end of the sync when the
repository check passes (the directory is a git working tree, or `git init`
succeeds): the self-update fallback is not among them. -/
theorem performUpdate_cases_tracked (force : Bool) (env : Env) (fs : FS)
    (h1 : env.executableErr = false) (h2 : (env.gitDirMissing && env.gitInitErr) = false) :
    (getFileVersion env.versionBefore = none ∧ performUpdate force env fs =
        { trace := setupEvents env, fs := fs, outcome := Outcome.panicked, preSwap := none })
    ∨ (∃ old, getFileVersion env.versionBefore = some old ∧
        ((env.pullErr = true ∧ Contains env.pullOutput "conflict".toList = false ∧
          performUpdate force env fs =
            { trace := setupEvents env ++ syncEvents env old, fs := fs,
              outcome := Outcome.pullFailed, preSwap := none })
        ∨ (env.pullErr = true ∧ Contains env.pullOutput "conflict".toList = true ∧
          performUpdate force env fs =
            { trace := setupEvents env ++ syncEvents env old ++ [Event.gitResetHard false],
              fs := fs, outcome := Outcome.resetFailed, preSwap := none })
        ∨ (env.pullErr = true ∧ Contains env.pullOutput "conflict".toList = true ∧
          performUpdate force env fs =
            Run.after (setupEvents env ++ syncEvents env old ++ [Event.gitResetHard true])
              (performUpdate_afterSync force env fs old (hasStash env)))
        ∨ (env.pullErr = false ∧
          performUpdate force env fs =
            Run.after (setupEvents env ++ syncEvents env old)
              (performUpdate_afterSync force env fs old (hasStash env))))) := by
  have h3 := init_result env
  rw [h2] at h3
  unfold performUpdate setupEvents syncEvents hasStash
  simp only [h1, h3, Bool.false_eq_true, ↓reduceIte]
  cases hv : getFileVersion env.versionBefore with
  | none => left; exact ⟨rfl, rfl⟩
  | some old =>
    right
    refine ⟨old, rfl, ?_⟩
    simp only []
    generalize Contains env.pullOutput "conflict".toList = cf
    cases env.pullErr <;> cases cf <;> cases env.resetErr <;> simp [Run.after]

theorem mem_setupEvents_init (env : Env) (e : Event)
    (h : e ∈ setupEvents env) (he : e ≠ Event.osExecutable true)
    (hs : ∀ b, e ≠ Event.statGitDir b) :
    env.gitDirMissing = true ∧ e ∈ (initGitRepo env).1 := by
  unfold setupEvents at h
  cases hg : env.gitDirMissing
  · simp [hg] at h
    rcases h with h | h
    · exact absurd h he
    · exact absurd h (hs _)
  · simp [hg] at h
    rcases h with h | h | h
    · exact absurd h he
    · exact absurd h (hs _)
    · exact ⟨rfl, h⟩

/-- C23 as stated fails.  The directory is not a git working tree, `git init`
succeeds and `git remote add` fails: `initGitRepo` reports success, and the run
goes on to the stash and the pull instead of `performSelfUpdate`. -/
theorem failed_remote_registration_still_syncs :
    Event.statGitDir false ∈ (performUpdate false remoteFailEnv sampleFS).trace
    ∧ Event.gitRemoteAdd false ∈ (performUpdate false remoteFailEnv sampleFS).trace
    ∧ Event.performSelfUpdate ∉ (performUpdate false remoteFailEnv sampleFS).trace
    ∧ Event.gitStashSave true remoteFailEnv.stashOutput
        ∈ (performUpdate false remoteFailEnv sampleFS).trace
    ∧ Event.gitPull false remoteFailEnv.pullOutput
        ∈ (performUpdate false remoteFailEnv sampleFS).trace
    ∧ (performUpdate false remoteFailEnv sampleFS).outcome = Outcome.pullFailed := by
  decide

/-- C23, amended.  In every run of `performUpdate` in which `git remote add` fails
during the initialization of the repository, the failure is dropped:
`git init` has succeeded, `initGitRepo` goes on to `git fetch` and reports
success, `performSelfUpdate` is not invoked, and the run proceeds to the tracked
sync (first version read, `git stash save`, `git pull`). -/
theorem failed_remote_registration_is_dropped (force : Bool) (env : Env) (fs : FS)
    (h : Event.gitRemoteAdd false ∈ (performUpdate force env fs).trace) :
    Event.gitInit true ∈ (performUpdate force env fs).trace
    ∧ Event.performSelfUpdate ∉ (performUpdate force env fs).trace
    ∧ (∃ pre post old, (performUpdate force env fs).trace
        = pre ++ Event.gitRemoteAdd false :: Event.gitFetch (!env.initFetchErr)
            :: Event.readVersion old
            :: Event.gitStashSave (!env.stashErr) env.stashOutput
            :: Event.gitPull (!env.pullErr) env.pullOutput :: post) := by
  have hsetup : Event.gitRemoteAdd false ∈ setupEvents env := by
    rcases performUpdate_cases force env fs with hr | hr | hr | ⟨old, -, hr | hr | hr | hr⟩
    · rw [hr] at h; simp at h
    · rw [hr] at h
      simpa [not_mem_performSelfUpdate, Event.isSelfUpdateStep] using h
    · rw [hr] at h; exact h
    · rw [hr.2.2] at h
      simpa [syncEvents] using h
    · rw [hr.2.2] at h
      simpa [syncEvents] using h
    · rw [hr.2.2] at h
      simpa [syncEvents, not_mem_afterSync, Event.isAfterSyncStep] using h
    · rw [hr.2] at h
      simpa [syncEvents, not_mem_afterSync, Event.isAfterSyncStep] using h
  obtain ⟨hg, hinit⟩ := mem_setupEvents_init env _ hsetup (by simp) (by simp)
  have hi : env.gitInitErr = false ∧ env.remoteAddErr = true := by
    unfold initGitRepo at hinit
    cases h3 : env.gitInitErr <;> cases h4 : env.remoteAddErr <;> simp [h3, h4] at hinit ⊢
  have h1 : env.executableErr = false := by
    cases hx : env.executableErr
    · rfl
    · rw [performUpdate_executableErr force env fs hx] at h
      simp at h
  have hset : setupEvents env = [Event.osExecutable true, Event.statGitDir false,
      Event.gitInit true] ++ [Event.gitRemoteAdd false, Event.gitFetch (!env.initFetchErr)] := by
    unfold setupEvents initGitRepo
    simp [hg, hi.1, hi.2]
  have key : ∀ old X, (performUpdate force env fs).trace
        = setupEvents env ++ syncEvents env old ++ X →
      (∀ e ∈ X, e ≠ Event.performSelfUpdate) →
      Event.gitInit true ∈ (performUpdate force env fs).trace
      ∧ Event.performSelfUpdate ∉ (performUpdate force env fs).trace
      ∧ (∃ pre post old, (performUpdate force env fs).trace
          = pre ++ Event.gitRemoteAdd false :: Event.gitFetch (!env.initFetchErr)
              :: Event.readVersion old
              :: Event.gitStashSave (!env.stashErr) env.stashOutput
              :: Event.gitPull (!env.pullErr) env.pullOutput :: post) := by
    intro old X htr hX
    rw [htr, hset]
    refine ⟨by simp, ?_, ⟨[Event.osExecutable true, Event.statGitDir false,
      Event.gitInit true], X, old, by simp [syncEvents]⟩⟩
    intro hm
    simp [syncEvents] at hm
    exact hX _ hm rfl
  have hafter : ∀ old, ∀ e ∈ (performUpdate_afterSync force env fs old (hasStash env)).trace,
      e ≠ Event.performSelfUpdate := by
    intro old e he heq
    rw [heq] at he
    exact not_mem_afterSync _ _ _ _ _ Event.performSelfUpdate rfl he
  rcases performUpdate_cases_tracked force env fs h1 (by simp [hi.1])
    with ⟨hnone, -⟩ | ⟨old, hv, hr | hr | hr | hr⟩
  · obtain ⟨v, hv⟩ := getFileVersion_returns env.versionBefore
    rw [hv] at hnone
    cases hnone
  · exact key old [] (by rw [hr.2.2]; simp) (by simp)
  · exact key old [Event.gitResetHard false] (by rw [hr.2.2]) (by simp)
  · refine key old ([Event.gitResetHard true]
      ++ (performUpdate_afterSync force env fs old (hasStash env)).trace)
      (by rw [hr.2.2]; simp) ?_
    intro e he
    rcases List.mem_append.1 he with he | he
    · simp at he
      rw [he]
      simp
    · exact hafter old e he
  · exact key old _ (by rw [hr.2]; rfl) (hafter old)

/-- C23 amended, at a run whose remote registration fails. -/
theorem failed_remote_registration_is_dropped_witness :
    Event.gitRemoteAdd false ∈ (performUpdate false remoteFailEnv sampleFS).trace
    ∧ Event.gitInit true ∈ (performUpdate false remoteFailEnv sampleFS).trace
    ∧ Event.performSelfUpdate ∉ (performUpdate false remoteFailEnv sampleFS).trace
    ∧ (∃ pre post old, (performUpdate false remoteFailEnv sampleFS).trace
        = pre ++ Event.gitRemoteAdd false :: Event.gitFetch (!remoteFailEnv.initFetchErr)
            :: Event.readVersion old
            :: Event.gitStashSave (!remoteFailEnv.stashErr) remoteFailEnv.stashOutput
            :: Event.gitPull (!remoteFailEnv.pullErr) remoteFailEnv.pullOutput :: post) :=
  ⟨by decide, failed_remote_registration_is_dropped false remoteFailEnv sampleFS (by decide)⟩

/-- C25. In every run of `performUpdate` with `force = false` in which the sync
succeeds and the version file cannot be read, neither before nor after it, both
version reads yield "unknown" and the run ends at the skip: no build step and no
replacement step is executed. -/
theorem unreadable_version_file_skips (env : Env) (fs : FS)
    (hb : env.versionBefore = none) (ha : env.versionAfter = none)
    (hsync : (∃ out, Event.gitPull true out ∈ (performUpdate false env fs).trace)
      ∨ Event.gitResetHard true ∈ (performUpdate false env fs).trace) :
    versionsRead (performUpdate false env fs).trace = ["unknown".toList, "unknown".toList]
    ∧ (performUpdate false env fs).outcome = Outcome.skipped
    ∧ (∀ e ∈ (performUpdate false env fs).trace,
        e.isBuildStep = false ∧ e.isReplacementStep = false) := by
  have key : ∀ pre old, getFileVersion env.versionBefore = some old →
      versionsRead pre = [old] → (∀ e ∈ pre, e.isSyncStep = true) →
      performUpdate false env fs
        = Run.after pre (performUpdate_afterSync false env fs old (hasStash env)) →
      versionsRead (performUpdate false env fs).trace = ["unknown".toList, "unknown".toList]
      ∧ (performUpdate false env fs).outcome = Outcome.skipped
      ∧ (∀ e ∈ (performUpdate false env fs).trace,
          e.isBuildStep = false ∧ e.isReplacementStep = false) := by
    intro pre old hold hv hpre hr
    have ho : old = unknown := by
      rw [hb] at hold
      exact (Option.some.inj hold).symm
    have hnew : getFileVersion env.versionAfter = some unknown := by rw [ha]; rfl
    subst ho
    rw [hr, afterSync_skip env fs unknown (hasStash env) hnew]
    refine ⟨?_, rfl, ?_⟩
    · rw [Run.after_trace, versionsRead_append, hv]
      cases hasStash env <;> rfl
    · intro e he
      rcases List.mem_append.1 he with he | he
      · have := hpre e he
        cases e <;> simp_all [Event.isSyncStep, Event.isBuildStep, Event.isReplacementStep]
      · rcases List.mem_append.1 he with he | he
        · simp at he
          subst he
          exact ⟨rfl, rfl⟩
        · rw [popEvents_mem env _ e he]
          exact ⟨rfl, rfl⟩
  rcases performUpdate_cases false env fs with hr | hr | hr | ⟨old, hold, hr | hr | hr | hr⟩
  · rw [hr] at hsync; simp at hsync
  · rw [hr] at hsync
    simp [not_mem_setupEvents, not_mem_performSelfUpdate, Event.isSetupStep,
      Event.isSelfUpdateStep] at hsync
  · rw [hr] at hsync
    simp [not_mem_setupEvents, Event.isSetupStep] at hsync
  · obtain ⟨hp, -, hr⟩ := hr
    rw [hr] at hsync
    simp [syncEvents, hp, not_mem_setupEvents, Event.isSetupStep] at hsync
  · obtain ⟨hp, -, hr⟩ := hr
    rw [hr] at hsync
    simp [syncEvents, hp, not_mem_setupEvents, Event.isSetupStep] at hsync
  · refine key _ old hold ?_ ?_ hr.2.2
    · rw [versionsRead_append, versionsRead_append, versionsRead_setupEvents,
        versionsRead_syncEvents, versionsRead_gitResetHard]
      rfl
    · intro e he
      rcases List.mem_append.1 he with he | he
      · rcases List.mem_append.1 he with he | he
        · exact setupEvents_isSyncStep env e he
        · exact syncEvents_isSyncStep env old e he
      · simp at he
        subst he
        rfl
  · refine key _ old hold ?_ ?_ hr.2
    · rw [versionsRead_append, versionsRead_setupEvents, versionsRead_syncEvents]
      rfl
    · intro e he
      rcases List.mem_append.1 he with he | he
      · exact setupEvents_isSyncStep env e he
      · exact syncEvents_isSyncStep env old e he

/-- C25, at a run without a readable version file. -/
theorem unreadable_version_file_skips_witness :
    versionsRead (performUpdate false unreadableVersionEnv sampleFS).trace
      = ["unknown".toList, "unknown".toList]
    ∧ (performUpdate false unreadableVersionEnv sampleFS).outcome = Outcome.skipped
    ∧ (∀ e ∈ (performUpdate false unreadableVersionEnv sampleFS).trace,
        e.isBuildStep = false ∧ e.isReplacementStep = false) :=
  unreadable_version_file_skips unreadableVersionEnv sampleFS (by decide) (by decide)
    (Or.inl ⟨unreadableVersionEnv.pullOutput, by decide⟩)

@[simp] theorem writeFile_batch_not_mem_copyFile (env : Env) (fs : FS) (s : Path) (ok : Bool) :
    Event.writeFile Path.batchFile ok ∉ (copyFile env fs s Path.backupExe).1 := by
  intro he
  rcases copyFile_events env fs s _ _ he with ⟨x, h⟩ | ⟨x, h⟩ <;> cases h

/-- In the part after the sync, the process renames and removes nothing on
Windows, and enters `scheduleReplacement` nowhere else. -/
theorem afterSync_strategy (force : Bool) (env : Env) (fs : FS) (old : GoString) (hs : Bool) :
    (env.windows = true →
      (∀ s d ok, Event.rename s d ok ∉ (performUpdate_afterSync force env fs old hs).trace)
      ∧ (∀ p ok, Event.remove p ok ∉ (performUpdate_afterSync force env fs old hs).trace)
      ∧ (performUpdate_afterSync force env fs old hs).fs Path.oldExe = fs Path.oldExe)
    ∧ (env.windows = false →
      Event.scheduleReplacement ∉ (performUpdate_afterSync force env fs old hs).trace
      ∧ (∀ ok, Event.writeFile Path.batchFile ok
          ∉ (performUpdate_afterSync force env fs old hs).trace)
      ∧ (∀ p ok, Event.startScript p ok
          ∉ (performUpdate_afterSync force env fs old hs).trace)) := by
  have hcopy : (copyFile env (goBuild env fs).2 Path.oldExe Path.backupExe).2.2 Path.oldExe
      = fs Path.oldExe := by
    rw [copyFile_fs _ _ _ _ _ (by decide), goBuild_fs _ _ _ (by decide)]
  rcases afterSync_cases force env fs old hs with ⟨-, hr⟩ | ⟨new, -, hr⟩
  · rw [hr]; simp
  · rcases hr with ⟨-, -, hr⟩ | ⟨-, hr⟩ | ⟨-, c, rfl, ⟨-, hr⟩ | ⟨-, hw, s, rfl, ⟨-, hr⟩ | ⟨-, hr⟩⟩
      | ⟨-, hw, r, -, ⟨-, r2, -, hr⟩ | ⟨-, d, -, hr⟩⟩⟩
    · rw [hr]
      cases hs <;> simp [popEvents]
    · rw [hr]
      cases hs <;> simp [popEvents, buildEvents]
    · rw [hr]
      simp [buildEvents, not_mem_copyFile, Event.isFileOp, hcopy]
    · rw [hr]
      simp [buildEvents, hw, not_mem_copyFile, Event.isFileOp, hcopy,
        scheduleReplacement_fs _ _ _ _ _ _ (show Path.oldExe ≠ Path.batchFile by decide)]
    · rw [hr]
      cases hs <;>
        simp [buildEvents, popEvents, showChangelog, hw, not_mem_copyFile, Event.isFileOp,
          hcopy,
          scheduleReplacement_fs _ _ _ _ _ _ (show Path.oldExe ≠ Path.batchFile by decide)]
    · rw [hr]
      simp [buildEvents, hw, not_mem_copyFile, Event.isFileOp]
    · rw [hr]
      cases hs <;>
        simp [buildEvents, popEvents, showChangelog, hw, not_mem_copyFile, Event.isFileOp]

/-- C21. In every run of `performUpdate` the two replacement strategies exclude
each other.  On Windows (the Deferred strategy) the process executes no
`os.Rename` and no `os.Remove`, and leaves the live path as it was: apart from
the backup copy, only the helper script touches the two paths.  Elsewhere (the
Immediate strategy) `scheduleReplacement` is not entered and its helper script
is neither written nor started. -/
theorem replacement_strategies_are_exclusive (force : Bool) (env : Env) (fs : FS) :
    (env.windows = true →
      (∀ s d ok, Event.rename s d ok ∉ (performUpdate force env fs).trace)
      ∧ (∀ p ok, Event.remove p ok ∉ (performUpdate force env fs).trace)
      ∧ (performUpdate force env fs).fs Path.oldExe = fs Path.oldExe)
    ∧ (env.windows = false →
      Event.scheduleReplacement ∉ (performUpdate force env fs).trace
      ∧ (∀ ok, Event.writeFile Path.batchFile ok ∉ (performUpdate force env fs).trace)
      ∧ (∀ ok, Event.startScript Path.batchFile ok ∉ (performUpdate force env fs).trace)) := by
  have hsync : ∀ tr : List Event, (∀ e ∈ tr, e.isSyncStep = true) →
      ∀ e, e.isSyncStep = false → e ∉ tr := by
    intro tr htr e he hm
    rw [htr e hm] at he
    cases he
  have hself : ∀ e, e ∈ (performSelfUpdate env fs).trace →
      (∀ s d ok, e ≠ Event.rename s d ok) ∧ (∀ p ok, e ≠ Event.remove p ok)
      ∧ e ≠ Event.scheduleReplacement ∧ (∀ ok, e ≠ Event.writeFile Path.batchFile ok)
      ∧ (∀ ok, e ≠ Event.startScript Path.batchFile ok) := by
    intro e he
    rcases performSelfUpdate_mem env fs e he with rfl | ⟨b, rfl⟩ | ⟨b, rfl⟩ | ⟨b, rfl⟩
      | ⟨b, rfl⟩ | rfl <;> simp
  rcases performUpdate_reach force env fs with ⟨hfs, -, -, hall⟩ | ⟨pre, hpre, -, hr⟩
    | ⟨pre, old, hpre, -, hr⟩
  · exact ⟨fun _ => ⟨fun _ _ _ => hsync _ hall _ rfl, fun _ _ => hsync _ hall _ rfl, by rw [hfs]⟩,
      fun _ => ⟨hsync _ hall _ rfl, fun _ => hsync _ hall _ rfl, fun _ => hsync _ hall _ rfl⟩⟩
  · rw [hr]
    have hmem : ∀ e, e ∈ (Run.after pre (performSelfUpdate env fs)).trace →
        e.isSyncStep = false → e ∈ (performSelfUpdate env fs).trace := by
      intro e hm he
      rcases List.mem_append.1 hm with hm | hm
      · exact absurd hm (hsync _ hpre _ he)
      · exact hm
    refine ⟨fun _ => ⟨fun s d ok hm => (hself _ (hmem _ hm rfl)).1 s d ok rfl,
        fun p ok hm => (hself _ (hmem _ hm rfl)).2.1 p ok rfl,
        performSelfUpdate_fs env fs _ (by decide) (by decide)⟩,
      fun _ => ⟨fun hm => (hself _ (hmem _ hm rfl)).2.2.1 rfl,
        fun ok hm => (hself _ (hmem _ hm rfl)).2.2.2.1 ok rfl,
        fun ok hm => (hself _ (hmem _ hm rfl)).2.2.2.2 ok rfl⟩⟩
  · rw [hr]
    have hmem : ∀ e,
        e ∈ (Run.after pre (performUpdate_afterSync force env fs old (hasStash env))).trace →
        e.isSyncStep = false →
        e ∈ (performUpdate_afterSync force env fs old (hasStash env)).trace := by
      intro e hm he
      rcases List.mem_append.1 hm with hm | hm
      · exact absurd hm (hsync _ hpre _ he)
      · exact hm
    obtain ⟨hwin, hnot⟩ := afterSync_strategy force env fs old (hasStash env)
    refine ⟨fun hw => ⟨fun s d ok hm => (hwin hw).1 s d ok (hmem _ hm rfl),
        fun p ok hm => (hwin hw).2.1 p ok (hmem _ hm rfl), (hwin hw).2.2⟩,
      fun hw => ⟨fun hm => (hnot hw).1 (hmem _ hm rfl),
        fun ok hm => (hnot hw).2.1 ok (hmem _ hm rfl),
        fun ok hm => (hnot hw).2.2 _ ok (hmem _ hm rfl)⟩⟩

/-- C21, at a run on Windows, at a run on Windows in which the write of the
helper script fails after the backup copy succeeded, and at a run elsewhere. -/
theorem replacement_strategies_are_exclusive_witness :
    (Event.startScript Path.batchFile true ∈ (performUpdate false windowsEnv sampleFS).trace
      ∧ (∀ s d ok, Event.rename s d ok ∉ (performUpdate false windowsEnv sampleFS).trace)
      ∧ (∀ p ok, Event.remove p ok ∉ (performUpdate false windowsEnv sampleFS).trace)
      ∧ (performUpdate false windowsEnv sampleFS).fs Path.oldExe = sampleFS Path.oldExe)
    ∧ (Event.writeFile Path.batchFile false
        ∈ (performUpdate false scriptWriteFailEnv sampleFS).trace
      ∧ (∀ s d ok, Event.rename s d ok
          ∉ (performUpdate false scriptWriteFailEnv sampleFS).trace)
      ∧ (∀ p ok, Event.remove p ok ∉ (performUpdate false scriptWriteFailEnv sampleFS).trace)
      ∧ (performUpdate false scriptWriteFailEnv sampleFS).fs Path.oldExe
          = sampleFS Path.oldExe)
    ∧ (Event.rename Path.newExe Path.oldExe true
        ∈ (performUpdate false sampleEnv sampleFS).trace
      ∧ Event.scheduleReplacement ∉ (performUpdate false sampleEnv sampleFS).trace
      ∧ (∀ ok, Event.writeFile Path.batchFile ok
          ∉ (performUpdate false sampleEnv sampleFS).trace)
      ∧ (∀ ok, Event.startScript Path.batchFile ok
          ∉ (performUpdate false sampleEnv sampleFS).trace)) :=
  ⟨⟨by decide, (replacement_strategies_are_exclusive false windowsEnv sampleFS).1 (by decide)⟩,
   ⟨by decide,
    (replacement_strategies_are_exclusive false scriptWriteFailEnv sampleFS).1 (by decide)⟩,
   ⟨by decide, (replacement_strategies_are_exclusive false sampleEnv sampleFS).2 (by decide)⟩⟩

/-- The first piece of a split is the text before the first separator. -/
theorem Split_head (s : GoString) (sep : Char) :
    ∃ rest, Split s sep = s.takeWhile (fun c => c != sep) :: rest := by
  induction s with
  | nil => exact ⟨[], rfl⟩
  | cons c s ih =>
    obtain ⟨rest, hrest⟩ := ih
    rw [Split_cons]
    by_cases hc : c = sep
    · rw [if_pos hc]
      exact ⟨Split s sep, by simp [List.takeWhile, hc]⟩
    · have hb : (c != sep) = true := by simpa using hc
      rw [if_neg hc, hrest]
      exact ⟨rest, by rw [List.takeWhile_cons, hb]; rfl⟩

/-- The second piece of a split, when there is a separator, is the text between
the first separator and the next one (or the end). -/
theorem Split_second (s : GoString) (sep : Char) (h : sep ∈ s) :
    ∃ rest, Split s sep = s.takeWhile (fun c => c != sep)
      :: ((s.dropWhile (fun c => c != sep)).drop 1).takeWhile (fun c => c != sep) :: rest := by
  induction s with
  | nil => simp at h
  | cons c s ih =>
    rw [Split_cons]
    by_cases hc : c = sep
    · rw [if_pos hc]
      obtain ⟨rest, hrest⟩ := Split_head s sep
      exact ⟨rest, by simp [List.takeWhile, List.dropWhile, hc, hrest]⟩
    · have hs : sep ∈ s := by
        rcases List.mem_cons.1 h with h | h
        · exact absurd h.symm hc
        · exact h
      obtain ⟨rest, hrest⟩ := ih hs
      have hb : (c != sep) = true := by simpa using hc
      rw [if_neg hc, hrest]
      exact ⟨rest, by simp [List.takeWhile, List.dropWhile, hb]⟩

/-- A list either has no element with the property or has a first one. -/
theorem first_match (p : GoString → Bool) (ls : List GoString) :
    (∀ l ∈ ls, p l = false)
    ∨ ∃ before line after, ls = before ++ line :: after
        ∧ (∀ l ∈ before, p l = false) ∧ p line = true := by
  induction ls with
  | nil => left; simp
  | cons l ls ih =>
    cases hl : p l
    · rcases ih with h | ⟨before, line, after, h1, h2, h3⟩
      · left
        intro x hx
        rcases List.mem_cons.1 hx with rfl | hx
        · exact hl
        · exact h x hx
      · right
        refine ⟨l :: before, line, after, by rw [h1]; rfl, ?_, h3⟩
        intro x hx
        rcases List.mem_cons.1 hx with rfl | hx
        · exact hl
        · exact h2 x hx
    · right
      exact ⟨[], l, ls, rfl, by simp, hl⟩

theorem not_isVersionLine (l : GoString) (h : isVersionLine l = false) :
    ¬ (Contains l "Version".toList = true ∧ Contains l "=".toList = true ∧ '"' ∈ l) := by
  rintro ⟨h1, h2, h3⟩
  unfold isVersionLine at h
  rw [h1, h2, decide_eq_true h3] at h
  cases h

/-- C24 as stated fails.  The file has a line with "Version", "=" and a double
quote, and `getFileVersion` returns "unknown" all the same: it is the quoted
text of that line. -/
theorem unknown_can_be_the_quoted_text :
    "const Version = \"unknown\"".toList ∈ Split unknownVersionFile '\n'
    ∧ isVersionLine "const Version = \"unknown\"".toList = true
    ∧ getFileVersion (some unknownVersionFile) = some "unknown".toList := by
  decide

/-- C24, amended.  For every readable file content, either no line holds
"Version", "=" and a double quote together, and `getFileVersion` returns
"unknown"; or there is a first such line, and `getFileVersion` returns the text
between its first and its second double quote, or from its first double quote
to the end of the line when there is only one. -/
theorem getFileVersion_characterised (content : GoString) :
    ((∀ l ∈ Split content '\n', isVersionLine l = false)
      ∧ getFileVersion (some content) = some "unknown".toList)
    ∨ (∃ before line after, Split content '\n' = before ++ line :: after
        ∧ (∀ l ∈ before, isVersionLine l = false) ∧ isVersionLine line = true
        ∧ getFileVersion (some content) = some (quotedText line)) := by
  rcases first_match isVersionLine (Split content '\n') with h | ⟨before, line, after, h1, h2, h3⟩
  · left
    refine ⟨h, ?_⟩
    have hskip := scanLines_skip (Split content '\n') [] (fun l hl => not_isVersionLine l (h l hl))
    rw [List.append_nil] at hskip
    unfold getFileVersion
    simp only []
    rw [hskip]
    rfl
  · right
    refine ⟨before, line, after, h1, h2, h3, ?_⟩
    unfold isVersionLine at h3
    simp only [Bool.and_eq_true, decide_eq_true_eq] at h3
    obtain ⟨⟨hV, hE⟩, hq⟩ := h3
    obtain ⟨rest, hrest⟩ := Split_second line '"' hq
    unfold getFileVersion
    simp only []
    rw [h1, scanLines_skip before _ (fun l hl => not_isVersionLine l (h2 l hl)),
      scanLines_cons, hV, hE, hrest]
    simp [quotedText]

/-- A line without white space is stored by `Scanln` as it is. -/
theorem Scanln_of_no_space (s : GoString) (h : ∀ c ∈ s, isSpace c = false) : Scanln s = s := by
  have h1 : s.dropWhile isSpace = s := by
    cases s with
    | nil => rfl
    | cons c s => simp [List.dropWhile, h c (List.mem_cons_self _ _)]
  unfold Scanln
  rw [h1]
  exact List.takeWhile_eq_self_iff.2 (fun c hc => by simp [h c hc])

/-- C28 as stated fails.  The database is "shop"; the line typed at the prompt
is "shop extra", or " shop", neither of them equal to the name; `fmt.Scanln`
stores the word "shop" and `dropdb` is run on "shop". -/
theorem dropdb_runs_on_inexact_confirmation :
    "shop extra".toList ≠ "shop".toList
    ∧ Scanln "shop extra".toList = "shop".toList
    ∧ DbEvent.dropdb
        ["-h".toList, "localhost".toList, "-p".toList, "5432".toList, "-U".toList,
          "postgres".toList, "shop".toList]
        (some "secret".toList) true
      ∈ dropDatabase sampleConfig "shop".toList "shop extra".toList false
    ∧ " shop".toList ≠ "shop".toList
    ∧ DbEvent.dropdb
        ["-h".toList, "localhost".toList, "-p".toList, "5432".toList, "-U".toList,
          "postgres".toList, "shop".toList]
        (some "secret".toList) true
      ∈ dropDatabase sampleConfig "shop".toList " shop".toList false := by
  decide

/-- C28, amended.  For a database name equal to "postgres", "template0" or
"template1", `dropDatabase` never runs the `dropdb` command, whatever line is
typed.  For every name, a run of `dropdb` means that the first word of the
typed line (what `fmt.Scanln` stores: white space before it skipped, the text
after it dropped) equals the database name, that the name is none of the
three, and that `dropdb` is run on that name.  For a name that is none of the
three, a typed line whose first word is the name does run `dropdb`; so does,
for a name without white space, the name typed exactly. -/
theorem dropdb_needs_confirmed_word (cfg : PgConfig) (dbName typed : GoString)
    (dropErr : Bool) :
    (dbName = "postgres".toList ∨ dbName = "template0".toList
        ∨ dbName = "template1".toList →
      ∀ args pw ok, DbEvent.dropdb args pw ok ∉ dropDatabase cfg dbName typed dropErr)
    ∧ (∀ args pw ok, DbEvent.dropdb args pw ok ∈ dropDatabase cfg dbName typed dropErr →
        Scanln typed = dbName
        ∧ ¬ (dbName = "postgres".toList ∨ dbName = "template0".toList
              ∨ dbName = "template1".toList)
        ∧ args.getLast? = some dbName)
    ∧ (¬ (dbName = "postgres".toList ∨ dbName = "template0".toList
            ∨ dbName = "template1".toList) → Scanln typed = dbName →
        ∃ pw, DbEvent.dropdb
          ["-h".toList, cfg.host, "-p".toList, cfg.port, "-U".toList, cfg.user, dbName]
          pw (!dropErr) ∈ dropDatabase cfg dbName typed dropErr)
    ∧ (¬ (dbName = "postgres".toList ∨ dbName = "template0".toList
            ∨ dbName = "template1".toList) → (∀ c ∈ dbName, isSpace c = false) →
        typed = dbName →
        ∃ pw, DbEvent.dropdb
          ["-h".toList, cfg.host, "-p".toList, cfg.port, "-U".toList, cfg.user, dbName]
          pw (!dropErr) ∈ dropDatabase cfg dbName typed dropErr) := by
  have h3 : ¬ (dbName = "postgres".toList ∨ dbName = "template0".toList
            ∨ dbName = "template1".toList) → Scanln typed = dbName →
        ∃ pw, DbEvent.dropdb
          ["-h".toList, cfg.host, "-p".toList, cfg.port, "-U".toList, cfg.user, dbName]
          pw (!dropErr) ∈ dropDatabase cfg dbName typed dropErr := by
    intro hsys hc
    unfold dropDatabase
    simp only []
    rw [if_neg hsys, if_neg (not_not.2 hc)]
    exact ⟨if cfg.password ≠ [] then some cfg.password else none,
      List.mem_cons_of_mem _ (List.mem_cons_of_mem _ (List.mem_cons_of_mem _
        (List.mem_cons_self _ _)))⟩
  refine ⟨?_, ?_, h3, ?_⟩
  · intro hsys args pw ok hmem
    unfold dropDatabase at hmem
    simp only [] at hmem
    rw [if_pos hsys] at hmem
    simp at hmem
  · intro args pw ok hmem
    unfold dropDatabase at hmem
    simp only [] at hmem
    by_cases hsys : dbName = "postgres".toList ∨ dbName = "template0".toList
        ∨ dbName = "template1".toList
    · rw [if_pos hsys] at hmem
      simp at hmem
    · rw [if_neg hsys] at hmem
      by_cases hc : Scanln typed ≠ dbName
      · rw [if_pos hc] at hmem
        simp at hmem
      · rw [if_neg hc] at hmem
        have hc2 : Scanln typed = dbName := not_not.1 hc
        refine ⟨hc2, hsys, ?_⟩
        simp only [List.mem_cons, List.mem_singleton, List.not_mem_nil, or_false,
          DbEvent.dropdb.injEq, reduceCtorEq, false_or] at hmem
        rcases hmem with ⟨h, _, _⟩ | h
        · rw [h]
          rfl
        · cases dropErr <;> simp at h
  · intro hsys hsp ht
    refine h3 hsys ?_
    rw [ht]
    exact Scanln_of_no_space dbName hsp

/-- C28 amended, at the names "postgres" and "shop". -/
theorem dropdb_needs_confirmed_word_witness :
    (∀ args pw ok, DbEvent.dropdb args pw ok ∉
        dropDatabase sampleConfig "postgres".toList "postgres".toList false)
    ∧ (∃ pw, DbEvent.dropdb
          ["-h".toList, sampleConfig.host, "-p".toList, sampleConfig.port, "-U".toList,
            sampleConfig.user, "shop".toList]
          pw (!false) ∈ dropDatabase sampleConfig "shop".toList "shop".toList false)
    ∧ (Scanln "shop extra".toList = "shop".toList
        ∧ ¬ ("shop".toList = "postgres".toList ∨ "shop".toList = "template0".toList
              ∨ "shop".toList = "template1".toList)
        ∧ ["-h".toList, sampleConfig.host, "-p".toList, sampleConfig.port, "-U".toList,
            sampleConfig.user, "shop".toList].getLast? = some "shop".toList)
    ∧ dropDatabase sampleConfig "shop".toList "shopping".toList false
        = [DbEvent.warning "shop".toList, DbEvent.askConfirmation,
           DbEvent.scanln "shopping".toList, DbEvent.deletionCancelled] :=
  ⟨(dropdb_needs_confirmed_word sampleConfig "postgres".toList "postgres".toList false).1
      (by decide),
   (dropdb_needs_confirmed_word sampleConfig "shop".toList "shop".toList false).2.2.2
      (by decide) (by decide) rfl,
   (dropdb_needs_confirmed_word sampleConfig "shop".toList "shop extra".toList false).2.1
      ["-h".toList, sampleConfig.host, "-p".toList, sampleConfig.port, "-U".toList,
        sampleConfig.user, "shop".toList] (some "secret".toList) true (by decide),
   by decide⟩

/-- Storing a value already in the `int64` range changes nothing. -/
theorem int64Wrap_of_range (x : Int) (h1 : -2 ^ 63 ≤ x) (h2 : x < 2 ^ 63) :
    int64Wrap x = x := by
  unfold int64Wrap
  have : (x + 2 ^ 63) % 2 ^ 64 = x + 2 ^ 63 := Int.emod_eq_of_lt (by omega) (by omega)
  omega

/-- The loop of `formatBytes` leaves after at most `k` iterations when it starts
below `1024 ^ (k + 1)`, and each iteration adds one to `exp`. -/
theorem formatBytes_loop_exits (k : Nat) :
    ∀ (fuel : Nat) (n div : Int) (exp : Nat), n < 1024 ^ (k + 1) → k ≤ fuel →
      ∃ d e, formatBytes_loop fuel n div exp = some (d, e) ∧ e ≤ exp + k := by
  induction k with
  | zero =>
    intro fuel n div exp hn _
    have hlt : ¬ n ≥ 1024 := by
      simp at hn
      omega
    cases fuel with
    | zero => exact ⟨div, exp, by simp [formatBytes_loop, hlt], by omega⟩
    | succ f => exact ⟨div, exp, by simp [formatBytes_loop, hlt], by omega⟩
  | succ k ih =>
    intro fuel n div exp hn hk
    cases fuel with
    | zero => omega
    | succ f =>
      by_cases hge : n ≥ 1024
      · have hdiv : Int.tdiv n 1024 = n / 1024 := Int.tdiv_eq_ediv (by omega) (by omega)
        have hpow : (1024 : Int) ^ (k + 1 + 1) = 1024 * 1024 ^ (k + 1) := by ring
        rw [hpow] at hn
        have hlt : Int.tdiv n 1024 < 1024 ^ (k + 1) := by
          rw [hdiv]
          generalize (1024 : Int) ^ (k + 1) = M at hn ⊢
          omega
        obtain ⟨d, e, h1, h2⟩ := ih f (Int.tdiv n 1024) (int64Wrap (div * 1024)) (exp + 1) hlt (by omega)
        refine ⟨d, e, ?_, by omega⟩
        rw [formatBytes_loop, if_pos hge]
        exact h1
      · exact ⟨div, exp, by simp [formatBytes_loop, hge], by omega⟩

/-- C30. For every 64-bit signed input and every fuel of at least five
iterations, `formatBytes` returns a string: the loop reaches its exit, the
unit index `exp` at the exit is at most 5, and the index expression
`"KMGTPE"[exp]` yields a character.  For an input below 1024, negative ones
included, the string is the decimal number followed by " B". -/
theorem formatBytes_returns (fmtFloat : Int → Int → GoString) (fuel : Nat) (bytes : Int)
    (hlo : -2 ^ 63 ≤ bytes) (hhi : bytes < 2 ^ 63) (hfuel : 5 ≤ fuel) :
    (∃ s, formatBytes fmtFloat fuel bytes = some s)
    ∧ (bytes < 1024 →
        formatBytes fmtFloat fuel bytes = some ((toString bytes).toList ++ " B".toList))
    ∧ (1024 ≤ bytes →
        ∃ div exp unit,
          formatBytes_loop fuel (Int.tdiv bytes 1024) 1024 0 = some (div, exp)
          ∧ exp ≤ 5
          ∧ "KMGTPE".toList[exp]? = some unit
          ∧ formatBytes fmtFloat fuel bytes = some (fmtFloat bytes div ++ [' ', unit, 'B'])) := by
  have hsmall : bytes < 1024 →
      formatBytes fmtFloat fuel bytes = some ((toString bytes).toList ++ " B".toList) := by
    intro h
    unfold formatBytes
    rw [if_pos h]
  have hbig : 1024 ≤ bytes →
      ∃ div exp unit,
        formatBytes_loop fuel (Int.tdiv bytes 1024) 1024 0 = some (div, exp)
        ∧ exp ≤ 5
        ∧ "KMGTPE".toList[exp]? = some unit
        ∧ formatBytes fmtFloat fuel bytes = some (fmtFloat bytes div ++ [' ', unit, 'B']) := by
    intro h
    have hdiv : Int.tdiv bytes 1024 = bytes / 1024 := Int.tdiv_eq_ediv (by omega) (by omega)
    have hn : Int.tdiv bytes 1024 < 1024 ^ (5 + 1) := by
      rw [hdiv]
      norm_num
      norm_num at hhi
      omega
    obtain ⟨d, e, h1, h2⟩ := formatBytes_loop_exits 5 fuel (Int.tdiv bytes 1024) 1024 0 hn hfuel
    have he : e ≤ 5 := by omega
    have hunit : ∃ unit, "KMGTPE".toList[e]? = some unit := by
      interval_cases e <;> exact ⟨_, rfl⟩
    obtain ⟨unit, hunit⟩ := hunit
    refine ⟨d, e, unit, h1, he, hunit, ?_⟩
    unfold formatBytes
    rw [if_neg (by omega), h1]
    simp only []
    rw [hunit]
  refine ⟨?_, hsmall, hbig⟩
  by_cases h : bytes < 1024
  · exact ⟨_, hsmall h⟩
  · obtain ⟨d, e, unit, _, _, _, h4⟩ := hbig (by omega)
    exact ⟨_, h4⟩

/-- C30, at the inputs -5 and 1536, and the loop at the largest input. -/
theorem formatBytes_returns_witness :
    formatBytes sampleFmtFloat 5 (-5) = some ((toString (-5 : Int)).toList ++ " B".toList)
    ∧ formatBytes sampleFmtFloat 5 (-5) = some "-5 B".toList
    ∧ (∃ div exp unit,
        formatBytes_loop 5 (Int.tdiv 1536 1024) 1024 0 = some (div, exp)
        ∧ exp ≤ 5
        ∧ "KMGTPE".toList[exp]? = some unit
        ∧ formatBytes sampleFmtFloat 5 1536 = some (sampleFmtFloat 1536 div ++ [' ', unit, 'B']))
    ∧ formatBytes sampleFmtFloat 5 1536 = some "1.5 KB".toList
    ∧ formatBytes_loop 5 (Int.tdiv (2 ^ 63 - 1) 1024) 1024 0 = some (2 ^ 60, 5) :=
  ⟨(formatBytes_returns sampleFmtFloat 5 (-5) (by decide) (by decide) (by decide)).2.1
      (by decide),
   by decide,
   (formatBytes_returns sampleFmtFloat 5 1536 (by decide) (by decide) (by decide)).2.2
      (by decide),
   by decide,
   by decide⟩

/-- C29. `maskPassword` returns "(not set)" for the empty string and "****" for
every password of 1 to 4 bytes; for a password of 5 or more bytes the result
has the length of the input, its first two and its last two bytes are those of
the input, and every byte in between is an asterisk. -/
theorem maskPassword_shape (password : GoString) :
    (password = [] → maskPassword password = "(not set)".toList)
    ∧ (1 ≤ password.length → password.length ≤ 4 →
        maskPassword password = "****".toList)
    ∧ (5 ≤ password.length →
        (maskPassword password).length = password.length
        ∧ (∀ i, i < 2 → (maskPassword password)[i]? = password[i]?)
        ∧ (∀ i, password.length - 2 ≤ i → i < password.length →
            (maskPassword password)[i]? = password[i]?)
        ∧ (∀ i, 2 ≤ i → i < password.length - 2 →
            (maskPassword password)[i]? = some '*')) := by
  refine ⟨?_, ?_, ?_⟩
  · intro h
    rw [h]
    rfl
  · intro h1 h4
    have hne : password ≠ [] := by
      intro h
      rw [h] at h1
      simp at h1
    unfold maskPassword
    rw [if_neg hne, if_pos h4]
  · intro h5
    have hne : password ≠ [] := by
      intro h
      rw [h] at h5
      simp at h5
    have h4 : ¬ password.length ≤ 4 := by omega
    unfold maskPassword
    rw [if_neg hne, if_neg h4]
    refine ⟨?_, ?_, ?_, ?_⟩
    · simp only [List.length_append, List.length_take, List.length_replicate, List.length_drop]
      omega
    · intro i hi
      rw [List.append_assoc, List.getElem?_append_left (by simp; omega), List.getElem?_take_of_lt hi]
    · intro i h1 h2
      rw [List.getElem?_append_right (by simp; omega), List.getElem?_drop]
      congr 1
      simp
      omega
    · intro i h1 h2
      rw [List.append_assoc, List.getElem?_append_right (by simp; omega),
        List.getElem?_append_left (by simp; omega), List.getElem?_replicate]
      simp
      omega

/-- C29, at the passwords "", "abc" and "hunter2". -/
theorem maskPassword_shape_witness :
    maskPassword [] = "(not set)".toList
    ∧ maskPassword "abc".toList = "****".toList
    ∧ maskPassword "hunter2".toList = "hu***r2".toList
    ∧ ((maskPassword "hunter2".toList).length = "hunter2".toList.length
        ∧ (∀ i, i < 2 → (maskPassword "hunter2".toList)[i]? = "hunter2".toList[i]?)
        ∧ (∀ i, "hunter2".toList.length - 2 ≤ i → i < "hunter2".toList.length →
            (maskPassword "hunter2".toList)[i]? = "hunter2".toList[i]?)
        ∧ (∀ i, 2 ≤ i → i < "hunter2".toList.length - 2 →
            (maskPassword "hunter2".toList)[i]? = some '*')) :=
  ⟨(maskPassword_shape []).1 rfl,
   (maskPassword_shape "abc".toList).2.1 (by decide) (by decide),
   by decide,
   (maskPassword_shape "hunter2".toList).2.2 (by decide)⟩

end Update
